import Mathlib

/-!
# OP2 OpenCL translator: reduction statements of the kernel subroutine, and subroutine names

A shallow embedding of

* `CPPOpenCLKernelSubroutine::createReductionPrologueStatements`,
  `createReductionEpilogueStatements` and `createReductionVariableDeclarations`
  (`src/CPP/OpenCL/Common/CPPOpenCLKernelSubroutine.cpp`), and
* the constructor of `Subroutine` (`Libraries/Templates/Subroutine.h`), which shortens
  long subroutine names with a CRC-32 checksum.

The ROSE syntax tree is embedded as plain inductive types that carry the constructor names of
the ROSE builders called by the source.  The accessors of `CPPParallelLoop`, the combiner
registry and the reduction tags are declared outside the embedded files; they are parameters of
the embedding.
-/

namespace OP2

/-! ## ROSE syntax tree -/

/-- The ROSE types met by the kernel builder.  `SgNamedType` stands for every base type that is
neither `int`, `float` nor `double`.  The index of an array type is the value of the `SgIntVal`
passed to `buildArrayType`. -/
inductive SgType
  | SgTypeInt
  | SgTypeFloat
  | SgTypeDouble
  | SgNamedType (name : String)
  | SgTypeOpaqueNamed (name : String)
  | SgArrayType (base : SgType) (index : Int)
  | SgPointerType (base : SgType)
  deriving DecidableEq

/-- Result of the cast `isSgTypeInt`. -/
def isSgTypeInt : SgType → Bool
  | .SgTypeInt => true
  | _ => false

/-- Result of the cast `isSgTypeFloat`. -/
def isSgTypeFloat : SgType → Bool
  | .SgTypeFloat => true
  | _ => false

/-- Result of the cast `isSgTypeDouble`. -/
def isSgTypeDouble : SgType → Bool
  | .SgTypeDouble => true
  | _ => false

/-- Names of variables.  The generators of `CompilerGeneratedNames.h` are declared outside the
embedded files, so a generated name is kept symbolic: the constructor records which generator
was called and with which argument.  `constant` is a name taken from the user program. -/
inductive VariableName
  | getOpDatLocalName (i : Nat)
  | getIterationCounterVariableName (k : Nat)
  | getReductionArrayDeviceName (i : Nat)
  | getTemporaryReductionArrayName (i : Nat)
  | constant (name : String)
  deriving DecidableEq

/-- Handle of a function in the ROSE symbol table. -/
structure SgFunctionSymbol where
  name : String
  deriving DecidableEq

mutual
/-- ROSE expressions built by the kernel builder.  The literal constructors carry the argument
given to `buildIntVal`, `buildFloatVal`, `buildDoubleVal` (the source only passes integer
constants).  `getWorkGroupIDCall` and `getGlobalWorkItemIDCall` are the expressions returned by
`OpenCL::getWorkGroupIDCallStatement` and `OpenCL::getGlobalWorkItemIDCallStatement`. -/
inductive SgExpression
  | SgIntVal (value : Int)
  | SgFloatVal (value : Int)
  | SgDoubleVal (value : Int)
  | SgVarRefExp (name : VariableName)
  | SgPntrArrRefExp (lhs rhs : SgExpression)
  | SgAssignOp (lhs rhs : SgExpression)
  | SgLessThanOp (lhs rhs : SgExpression)
  | SgPlusPlusOp (operand : SgExpression)
  | SgMultiplyOp (lhs rhs : SgExpression)
  | SgAddOp (lhs rhs : SgExpression)
  | SgAddressOfOp (operand : SgExpression)
  | SgFunctionCallExp (function : SgFunctionSymbol) (args : SgExprListExp)
  | getWorkGroupIDCall
  | getGlobalWorkItemIDCall
  deriving DecidableEq
/-- Actual parameter list of a call. -/
inductive SgExprListExp
  | nil
  | cons (head : SgExpression) (tail : SgExprListExp)
  deriving DecidableEq
end

/-- The actual parameters of an `SgExprListExp`, in order. -/
def SgExprListExp.toList : SgExprListExp → List SgExpression
  | .nil => []
  | .cons e rest => e :: rest.toList

/-- The four-argument `buildExprListExp (a, b, c, d)`. -/
def buildExprListExp (a b c d : SgExpression) : SgExprListExp :=
  .cons a (.cons b (.cons c (.cons d .nil)))

/-- Storage modifiers set by the kernel builder. -/
inductive StorageModifier
  | unspecified
  | openclLocal
  | openclConstant
  deriving DecidableEq

/-- A variable declaration: its name, its type, the storage modifier of the declaration
(`get_declarationModifier ().get_storageModifier ()`) and the storage modifier of its first
variable (`(*get_variables ().begin ())->get_storageModifier ()`). -/
structure SgVariableDeclaration where
  name : VariableName
  type : SgType
  declarationStorage : StorageModifier
  variableStorage : StorageModifier
  deriving DecidableEq

mutual
/-- ROSE statements built by the kernel builder. -/
inductive SgStatement
  | SgExprStatement (expression : SgExpression)
  | SgBasicBlock (statements : SgStatementList)
  | SgForStatement (init test : SgStatement) (increment : SgExpression) (body : SgStatement)
  | SgDeclarationStatement (declaration : SgVariableDeclaration)
  deriving DecidableEq
/-- Statements of a basic block. -/
inductive SgStatementList
  | nil
  | cons (head : SgStatement) (tail : SgStatementList)
  deriving DecidableEq
end

/-- The statements of a block, in order. -/
def SgStatementList.toList : SgStatementList → List SgStatement
  | .nil => []
  | .cons st rest => st :: rest.toList

/-- Appending at the end of a block (`appendStatement (statement, block)`). -/
def SgStatementList.append : SgStatementList → SgStatement → SgStatementList
  | .nil, st => .cons st .nil
  | .cons h t, st => .cons h (t.append st)

/-- The expression built by `buildAssignStatement (lhs, rhs)`. -/
def buildAssignStatement (lhs rhs : SgExpression) : SgStatement :=
  .SgExprStatement (.SgAssignOp lhs rhs)

/-! ## Strings, CRC-32 and decimal rendering

`std::string`, `boost::crc_32_type` and `boost::lexical_cast` belong to the C++ and Boost
libraries.  They are embedded by their documented behaviour: a string is a sequence of bytes,
`crc_32_type` is `crc_optimal <32, 0x04C11DB7, 0xFFFFFFFF, 0xFFFFFFFF, true, true>` (reflected
input and output, so the register shifts right with the reversed polynomial `0xEDB88320`), and
`lexical_cast <string>` of an unsigned integer is its decimal rendering without sign or
padding. -/

/-- A `char` of a `std::string`. -/
abbrev Byte := Fin 256

/-- A `std::string`: its bytes, in order. -/
abbrev StdString := List Byte

/-- One bit step of the reflected CRC-32 register. -/
def crcBit (c : Nat) : Nat :=
  if c % 2 = 1 then (c / 2) ^^^ 0xEDB88320 else c / 2

/-- Feeding one byte to the CRC-32 register. -/
def crcByte (c : Nat) (b : Byte) : Nat :=
  Nat.iterate crcBit 8 (c ^^^ b.val)

/-- The member `process_bytes`: feeds the bytes to the register `rem`. -/
def process_bytes (rem : Nat) (bytes : StdString) : Nat :=
  bytes.foldl crcByte rem

/-- The member `checksum`: the register after the final xor. -/
def checksum (rem : Nat) : Nat :=
  rem ^^^ 0xFFFFFFFF

/-- The checksum a fresh `boost::crc_32_type` reports after `process_bytes (bytes)`; the
register starts at `0xFFFFFFFF`. -/
def crc_32 (bytes : StdString) : Nat :=
  checksum (process_bytes 0xFFFFFFFF bytes)

/-- The character of a decimal digit: `'0' + d`. -/
def digitByte (d : Nat) : Byte :=
  ⟨48 + d % 10, by omega⟩

/-- Decimal digits of `n` in front of `acc`, most significant first; `fuel` bounds the number
of digits. -/
def decimalDigits : Nat → Nat → StdString → StdString
  | 0, _, acc => acc
  | fuel + 1, n, acc =>
    if n / 10 = 0 then digitByte n :: acc
    else decimalDigits fuel (n / 10) (digitByte n :: acc)

/-- The conversion `lexical_cast <string> (n)` of an unsigned integer. -/
def lexical_cast (n : Nat) : StdString :=
  decimalDigits (n + 1) n []

/-! ## The parallel loop and the generated subroutine -/

/-- Operators of a reduction, as the spec names them. -/
inductive ReductionOperator
  | increment
  | maximum
  | minimum
  deriving DecidableEq

/-- Modelled from the spec: the class `Reduction` returned by `getReductionTuple` is declared
outside the embedded files.  The spec describes the key of the combiner registry as the pair of
the base type and the reduction operator. -/
structure Reduction where
  baseType : SgType
  reductionOperator : ReductionOperator
  deriving DecidableEq

/-- The accessors of `CPPParallelLoop` called by the kernel builder.  The class is declared
outside the embedded files; each accessor is a field, indexed by the argument group `i`
(counted from 1 in the source). -/
structure CPPParallelLoop where
  getNumberOfOpDatArgumentGroups : Nat
  isReductionRequired : Nat → Bool
  isArray : Nat → Bool
  isPointer : Nat → Bool
  getOpDatBaseType : Nat → SgType
  getOpDatDimension : Nat → Nat
  isIncremented : Nat → Bool
  isMaximised : Nat → Bool
  isMinimised : Nat → Bool
  isDuplicateOpDat : Nat → Bool
  getReductionTuple : Nat → Reduction

/-- The enumeration constants `INCREMENT`, `MAXIMUM`, `MINIMUM` passed to `buildIntVal`; they are
declared outside the embedded files. -/
structure ReductionTags where
  INCREMENT : Int
  MAXIMUM : Int
  MINIMUM : Int

/-- The combiner registry `reductionSubroutines`: `getHeader (tuple)` followed by
`get_symbol_from_symbol_table ()` and the cast `isSgFunctionSymbol`; `none` is the null
pointer. -/
abbrev CPPReductionSubroutines := Reduction → Option SgFunctionSymbol

/-- The members of the class template `Subroutine`: the name, the statements of
`subroutineScope`, the formal parameters, and the entries of `variableDeclarations`. -/
structure Subroutine where
  subroutineName : StdString
  subroutineScope : List SgStatement
  formalParameters : List SgVariableDeclaration
  variableDeclarations : List (VariableName × SgVariableDeclaration)
  deriving DecidableEq

/-- The constructor `Subroutine (subroutineName)` (source lines 130-158).  The scope of a new
subroutine holds no statement, `buildFunctionParameterList ()` is the empty parameter list and
`new ScopedVariableDeclarations ()` has no entry. -/
def Subroutine.new (subroutineName : StdString) : Subroutine :=
  { subroutineName :=
      if subroutineName.length > 20 then
        [(115 : Byte)] ++ lexical_cast (crc_32 subroutineName)
      else subroutineName
    subroutineScope := []
    formalParameters := []
    variableDeclarations := [] }

/-- The member `getSubroutineName`. -/
def Subroutine.getSubroutineName (s : Subroutine) : StdString :=
  s.subroutineName

/-- Ways in which a builder stops early. -/
inductive Fault
  | UnsupportedBaseTypeException (message : String)
  | assertionFailure
  deriving DecidableEq

/-- What a builder leaves behind: the subroutine as it stands when the builder returns or
stops, and the fault that stopped it, if any. -/
structure Outcome where
  state : Subroutine
  fault : Option Fault
  deriving DecidableEq

/-- Modelled from the spec: `ScopedVariableDeclarations::getReference` is declared outside the
embedded files; the spec describes it as resolving a symbolic reference by name. -/
def getReference (name : VariableName) : SgExpression :=
  .SgVarRefExp name

/-- Modelled from the spec: `ScopedVariableDeclarations::add` is declared outside the embedded
files; the spec describes the scope as a mapping from names to declarations, and `add` enters
one name. -/
def ScopedVariableDeclarations.add (name : VariableName) (declaration : SgVariableDeclaration)
    (s : Subroutine) : Subroutine :=
  { s with variableDeclarations := s.variableDeclarations ++ [(name, declaration)] }

/-- The call `appendStatement (statement, subroutineScope)`. -/
def appendStatement (statement : SgStatement) (s : Subroutine) : Subroutine :=
  { s with subroutineScope := s.subroutineScope ++ [statement] }

/-- The loop `for (unsigned int i = 1; i <= count; ++i) body` over the argument groups, as
`count` iterations starting at index `i`; a fault in the body ends the loop at once and keeps
the state reached.  The number of argument groups is below the range of `unsigned int`, so the
index does not wrap. -/
def forEachArgumentGroup (body : Nat → Subroutine → Outcome) : Nat → Nat → Subroutine → Outcome
  | 0, _, s => ⟨s, none⟩
  | count + 1, i, s =>
    match body i s with
    | ⟨s1, none⟩ => forEachArgumentGroup body count (i + 1) s1
    | ⟨s1, some fault⟩ => ⟨s1, some fault⟩

/-! ## `CPPOpenCLKernelSubroutine` -/

/-- The counted loop built by `buildForStatement` in the prologue and the epilogue:
`for (counter = 0; counter < dimension; counter++) loopBody`, with `counter` the variable
`getIterationCounterVariableName (1)`. -/
def buildCountedLoop (dimension : Nat) (loopBody : SgStatement) : SgStatement :=
  let initializationExpression := SgExpression.SgAssignOp
    (getReference (.getIterationCounterVariableName 1)) (.SgIntVal 0)
  let upperBoundExpression := SgExpression.SgLessThanOp
    (getReference (.getIterationCounterVariableName 1)) (.SgIntVal dimension)
  let strideExpression := SgExpression.SgPlusPlusOp
    (getReference (.getIterationCounterVariableName 1))
  .SgForStatement (.SgExprStatement initializationExpression)
    (.SgExprStatement upperBoundExpression) strideExpression loopBody

/-- Body of the loop over the argument groups in `createReductionPrologueStatements`
(source lines 57-141). -/
def createReductionPrologueStatements.body (parallelLoop : CPPParallelLoop) (i : Nat)
    (s : Subroutine) : Outcome :=
  if parallelLoop.isReductionRequired i then
    if parallelLoop.isArray i || parallelLoop.isPointer i then
      let loopBody := SgStatementList.nil
      let arrayExpression := SgExpression.SgPntrArrRefExp
        (getReference (.getOpDatLocalName i))
        (getReference (.getIterationCounterVariableName 1))
      let rhsExpression : Option SgExpression :=
        if isSgTypeInt (parallelLoop.getOpDatBaseType i) then some (.SgIntVal 0)
        else if isSgTypeFloat (parallelLoop.getOpDatBaseType i) then some (.SgFloatVal 0)
        else if isSgTypeDouble (parallelLoop.getOpDatBaseType i) then some (.SgDoubleVal 0)
        else none
      match rhsExpression with
      | none => ⟨s, some (.UnsupportedBaseTypeException "Reduction type not supported")⟩
      | some rhsExpression =>
        let assignmentStatement := buildAssignStatement arrayExpression rhsExpression
        let loopBody := loopBody.append assignmentStatement
        let forStatement :=
          buildCountedLoop (parallelLoop.getOpDatDimension i) (.SgBasicBlock loopBody)
        ⟨appendStatement forStatement s, none⟩
    else
      let rhsExpression : Option SgExpression :=
        if isSgTypeInt (parallelLoop.getOpDatBaseType i) then some (.SgIntVal 0)
        else if isSgTypeFloat (parallelLoop.getOpDatBaseType i) then some (.SgFloatVal 0)
        else if isSgTypeDouble (parallelLoop.getOpDatBaseType i) then some (.SgDoubleVal 0)
        else none
      match rhsExpression with
      | none => ⟨s, some (.UnsupportedBaseTypeException "Reduction type not supported")⟩
      | some rhsExpression =>
        let assignmentStatement :=
          buildAssignStatement (getReference (.getOpDatLocalName i)) rhsExpression
        ⟨appendStatement assignmentStatement s, none⟩
  else ⟨s, none⟩

/-- The builder `CPPOpenCLKernelSubroutine::createReductionPrologueStatements`. -/
def createReductionPrologueStatements (parallelLoop : CPPParallelLoop) (s : Subroutine) :
    Outcome :=
  forEachArgumentGroup (createReductionPrologueStatements.body parallelLoop)
    parallelLoop.getNumberOfOpDatArgumentGroups 1 s

/-- Body of the loop over the argument groups in `createReductionEpilogueStatements`
(source lines 161-315).  The local pointer `reductionType` is declared without an initialiser;
`uninitialised i` is what it designates in the iteration for `i` when none of the three
branches assigns it: `none` for the null pointer, `some v` for an `SgIntVal` of value `v`.  A
null `reductionType` or a null `reductionFunctionSymbol` fails `ROSE_ASSERT`. -/
def createReductionEpilogueStatements.body (tags : ReductionTags)
    (reductionSubroutines : CPPReductionSubroutines) (uninitialised : Nat → Option Int)
    (parallelLoop : CPPParallelLoop) (i : Nat) (s : Subroutine) : Outcome :=
  if parallelLoop.isReductionRequired i then
    if parallelLoop.isArray i || parallelLoop.isPointer i then
      let loopBody := SgStatementList.nil
      let arrayExpression1 := SgExpression.SgPntrArrRefExp
        (getReference (.getOpDatLocalName i))
        (getReference (.getIterationCounterVariableName 1))
      let multiplyExpression := SgExpression.SgMultiplyOp
        .getWorkGroupIDCall (.SgIntVal (parallelLoop.getOpDatDimension i))
      let addExpression := SgExpression.SgAddOp
        (getReference (.getIterationCounterVariableName 1)) multiplyExpression
      let arrayExpression2 := SgExpression.SgPntrArrRefExp
        (getReference (.getReductionArrayDeviceName i)) addExpression
      let addressExpression := SgExpression.SgAddressOfOp arrayExpression2
      let reductionType : Option SgExpression :=
        if parallelLoop.isIncremented i then some (.SgIntVal tags.INCREMENT)
        else if parallelLoop.isMaximised i then some (.SgIntVal tags.MAXIMUM)
        else if parallelLoop.isMinimised i then some (.SgIntVal tags.MINIMUM)
        else (uninitialised i).map .SgIntVal
      match reductionType with
      | none => ⟨s, some .assertionFailure⟩
      | some reductionType =>
        let actualParameters := buildExprListExp addressExpression arrayExpression1
          reductionType (getReference (.getTemporaryReductionArrayName i))
        match reductionSubroutines (parallelLoop.getReductionTuple i) with
        | none => ⟨s, some .assertionFailure⟩
        | some reductionFunctionSymbol =>
          let reductionFunctionCall :=
            SgExpression.SgFunctionCallExp reductionFunctionSymbol actualParameters
          let loopBody := loopBody.append (.SgExprStatement reductionFunctionCall)
          let forStatement :=
            buildCountedLoop (parallelLoop.getOpDatDimension i) (.SgBasicBlock loopBody)
          ⟨appendStatement forStatement s, none⟩
    else
      let multiplyExpression := SgExpression.SgMultiplyOp
        .getGlobalWorkItemIDCall (.SgIntVal (parallelLoop.getOpDatDimension i))
      let arrayExpression2 := SgExpression.SgPntrArrRefExp
        (getReference (.getReductionArrayDeviceName i)) multiplyExpression
      let addressExpression := SgExpression.SgAddressOfOp arrayExpression2
      let reductionType : Option SgExpression :=
        if parallelLoop.isIncremented i then some (.SgIntVal tags.INCREMENT)
        else if parallelLoop.isMaximised i then some (.SgIntVal tags.MAXIMUM)
        else if parallelLoop.isMinimised i then some (.SgIntVal tags.MINIMUM)
        else (uninitialised i).map .SgIntVal
      match reductionType with
      | none => ⟨s, some .assertionFailure⟩
      | some reductionType =>
        let actualParameters := buildExprListExp addressExpression
          (getReference (.getOpDatLocalName i)) reductionType
          (getReference (.getTemporaryReductionArrayName i))
        match reductionSubroutines (parallelLoop.getReductionTuple i) with
        | none => ⟨s, some .assertionFailure⟩
        | some reductionFunctionSymbol =>
          let reductionFunctionCall :=
            SgExpression.SgFunctionCallExp reductionFunctionSymbol actualParameters
          ⟨appendStatement (.SgExprStatement reductionFunctionCall) s, none⟩
  else ⟨s, none⟩

/-- The builder `CPPOpenCLKernelSubroutine::createReductionEpilogueStatements`. -/
def createReductionEpilogueStatements (tags : ReductionTags)
    (reductionSubroutines : CPPReductionSubroutines) (uninitialised : Nat → Option Int)
    (parallelLoop : CPPParallelLoop) (s : Subroutine) : Outcome :=
  forEachArgumentGroup
    (createReductionEpilogueStatements.body tags reductionSubroutines uninitialised parallelLoop)
    parallelLoop.getNumberOfOpDatArgumentGroups 1 s

/-- Modelled from the spec: `RoseStatementsAndExpressionsBuilder::appendVariableDeclaration` is
declared outside the embedded files; it builds the declaration of `name` with type `type` and
appends it to the scope.  The declaration is returned with the subroutine. -/
def appendVariableDeclaration (name : VariableName) (type : SgType) (s : Subroutine) :
    SgVariableDeclaration × Subroutine :=
  let declaration : SgVariableDeclaration := ⟨name, type, .unspecified, .unspecified⟩
  (declaration, appendStatement (.SgDeclarationStatement declaration) s)

/-- The call `setOpenclLocal ()` on a declaration that is already in the scope: the source
holds a pointer to the appended node, so the node in the scope changes.  The declaration to
change is the last statement appended. -/
def setOpenclLocalOnLast (s : Subroutine) : Subroutine :=
  match s.subroutineScope.getLast? with
  | some (.SgDeclarationStatement declaration) =>
    { s with subroutineScope := s.subroutineScope.dropLast ++
        [.SgDeclarationStatement { declaration with declarationStorage := .openclLocal }] }
  | _ => s

/-- Body of the loop over the argument groups in `createReductionVariableDeclarations`
(source lines 332-356). -/
def createReductionVariableDeclarations.body (parallelLoop : CPPParallelLoop) (i : Nat)
    (s : Subroutine) : Outcome :=
  if parallelLoop.isDuplicateOpDat i == false then
    if parallelLoop.isReductionRequired i then
      let variableName1 := VariableName.getOpDatLocalName i
      let (declaration1, s1) := appendVariableDeclaration variableName1
        (.SgArrayType (parallelLoop.getOpDatBaseType i) (parallelLoop.getOpDatDimension i)) s
      let s2 := ScopedVariableDeclarations.add variableName1 declaration1 s1
      let variableName2 := VariableName.getTemporaryReductionArrayName i
      let (variableDeclaration2, s3) := appendVariableDeclaration variableName2
        (.SgArrayType (parallelLoop.getOpDatBaseType i) 2048) s2
      let variableDeclaration2 := { variableDeclaration2 with declarationStorage := .openclLocal }
      let s4 := setOpenclLocalOnLast s3
      ⟨ScopedVariableDeclarations.add variableName2 variableDeclaration2 s4, none⟩
    else ⟨s, none⟩
  else ⟨s, none⟩

/-- The builder `CPPOpenCLKernelSubroutine::createReductionVariableDeclarations`. -/
def createReductionVariableDeclarations (parallelLoop : CPPParallelLoop) (s : Subroutine) :
    Outcome :=
  forEachArgumentGroup (createReductionVariableDeclarations.body parallelLoop)
    parallelLoop.getNumberOfOpDatArgumentGroups 1 s

/-- Modelled from the spec:
`RoseStatementsAndExpressionsBuilder::appendVariableDeclarationAsFormalParameter` is declared
outside the embedded files; it builds the declaration of `name` with type `type` and appends
its variable to the formal parameters.  The declaration is returned with the subroutine. -/
def appendVariableDeclarationAsFormalParameter (name : VariableName) (type : SgType)
    (s : Subroutine) : SgVariableDeclaration × Subroutine :=
  let declaration : SgVariableDeclaration := ⟨name, type, .unspecified, .unspecified⟩
  (declaration, { s with formalParameters := s.formalParameters ++ [declaration] })

/-- The call `setOpenclConstant ()` on the first variable of a declaration that is already
among the formal parameters: the source holds a pointer to the appended node, so the formal
parameter changes.  The declaration to change is the last formal parameter appended. -/
def setOpenclConstantOnLast (s : Subroutine) : Subroutine :=
  match s.formalParameters.getLast? with
  | some declaration =>
    { s with formalParameters := s.formalParameters.dropLast ++
        [{ declaration with variableStorage := .openclConstant }] }
  | none => s

/-- Body of the loop over the constants in `createOpDeclConstFormalParameterDeclarations`
(source lines 375-393).  `getOpConstDefinitionType name` is
`declarations->getOpConstDefinition (name)->getType ()`, declared outside the embedded files. -/
def createOpDeclConstFormalParameterDeclarations.body (getOpConstDefinitionType : String → SgType)
    (variableName : String) (s : Subroutine) : Subroutine :=
  let type := getOpConstDefinitionType variableName
  let type := if variableName = "qinf" then SgType.SgTypeOpaqueNamed "float " else type
  let (variableDeclaration, s1) := appendVariableDeclarationAsFormalParameter
    (.constant variableName) (.SgPointerType type) s
  let variableDeclaration := { variableDeclaration with variableStorage := .openclConstant }
  let s2 := setOpenclConstantOnLast s1
  ScopedVariableDeclarations.add (.constant variableName) variableDeclaration s2

/-- The builder `CPPOpenCLKernelSubroutine::createOpDeclConstFormalParameterDeclarations`.
`opConstReferences` are the names from `firstOpConstReference ()` up to
`lastOpConstReference ()` of the user subroutine, in order. -/
def createOpDeclConstFormalParameterDeclarations (opConstReferences : List String)
    (getOpConstDefinitionType : String → SgType) (s : Subroutine) : Subroutine :=
  opConstReferences.foldl
    (fun s1 variableName =>
      createOpDeclConstFormalParameterDeclarations.body getOpConstDefinitionType variableName s1)
    s

/-! ## The combiner registry of the spec -/

/-- Modelled from the spec: the descriptor of the spec gives every argument one
`reductionOperator`; the accessors `isIncremented`, `isMaximised`, `isMinimised` of
`CPPParallelLoop` are declared outside the embedded files.  The operator of argument group `i`
is the one whose accessor holds, tested in the order of the source; `none` when none holds. -/
def reductionOperator (parallelLoop : CPPParallelLoop) (i : Nat) : Option ReductionOperator :=
  if parallelLoop.isIncremented i then some .increment
  else if parallelLoop.isMaximised i then some .maximum
  else if parallelLoop.isMinimised i then some .minimum
  else none

/-- Modelled from the spec: `CPPReductionSubroutines` is declared outside the embedded files.
The spec describes the registry as entries keyed by the pair of base type and reduction
operator, whose value is the handle of a combiner routine emitted before; it is built once and
only looked up during kernel synthesis. -/
structure ReductionCombinerRegistry where
  entries : List (Reduction × SgFunctionSymbol)

/-- Modelled from the spec: looking up the handle registered for a key; `none` when the
registry has no entry for it. -/
def ReductionCombinerRegistry.getHeader (registry : ReductionCombinerRegistry) :
    CPPReductionSubroutines :=
  fun key => registry.entries.lookup key

/-- Modelled from the spec: each distinct pair is defined exactly once, so no combiner routine
is the value of two entries. -/
abbrev ReductionCombinerRegistry.definedOnce (registry : ReductionCombinerRegistry) : Prop :=
  (registry.entries.map Prod.snd).Nodup

/-! ## Running the generated statements

The spec speaks of what the generated prologue and epilogue do when they run.  The fragment of
C that the builders generate is given the usual meaning, over unbounded integers: a work-item
runs statements in order and leaves a trace of the stores and calls it performs. -/

/-- A place that a statement writes or passes: a variable, or an element of an array. -/
inductive Location
  | variable (name : VariableName)
  | element (array : VariableName) (index : Int)
  deriving DecidableEq

/-- Value of a literal or of an integer expression. -/
inductive Value
  | int (value : Int)
  | float (value : Int)
  | double (value : Int)
  deriving DecidableEq

/-- An evaluated actual parameter: the address of a place, the place itself, an integer, or an
expression outside the generated fragment, passed on as it is. -/
inductive Argument
  | address (location : Location)
  | reference (location : Location)
  | integer (value : Int)
  | expression (e : SgExpression)
  deriving DecidableEq

/-- What a work-item does: a store, or a call with evaluated actual parameters. -/
inductive Event
  | store (location : Location) (value : Value)
  | call (function : SgFunctionSymbol) (arguments : List Argument)
  deriving DecidableEq

/-- A running work-item: the index of its work-group, its global index, and its integer
variables. -/
structure WorkItem where
  workGroupId : Int
  globalWorkItemId : Int
  integers : VariableName → Option Int

/-- Value of an integer expression. -/
def evalInt (w : WorkItem) : SgExpression → Option Int
  | .SgIntVal v => some v
  | .SgVarRefExp n => w.integers n
  | .SgAddOp a b =>
    match evalInt w a, evalInt w b with
    | some x, some y => some (x + y)
    | _, _ => none
  | .SgMultiplyOp a b =>
    match evalInt w a, evalInt w b with
    | some x, some y => some (x * y)
    | _, _ => none
  | .getWorkGroupIDCall => some w.workGroupId
  | .getGlobalWorkItemIDCall => some w.globalWorkItemId
  | _ => none

/-- The place an expression designates. -/
def evalLocation (w : WorkItem) : SgExpression → Option Location
  | .SgVarRefExp n => some (.variable n)
  | .SgPntrArrRefExp (.SgVarRefExp a) index => (evalInt w index).map (.element a)
  | _ => none

/-- Value of the right-hand side of an assignment. -/
def evalValue (w : WorkItem) : SgExpression → Option Value
  | .SgFloatVal v => some (.float v)
  | .SgDoubleVal v => some (.double v)
  | e => (evalInt w e).map .int

/-- An actual parameter, evaluated. -/
def evalArgument (w : WorkItem) : SgExpression → Argument
  | .SgAddressOfOp e =>
    match evalLocation w e with
    | some location => .address location
    | none => .expression (.SgAddressOfOp e)
  | .SgIntVal v => .integer v
  | e =>
    match evalLocation w e with
    | some location => .reference location
    | none => .expression e

/-- The work-item after a store: an integer stored in a variable becomes its value. -/
def WorkItem.store (w : WorkItem) : Location → Value → WorkItem
  | .variable n, .int v => { w with integers := fun m => if m = n then some v else w.integers m }
  | _, _ => w

/-- Running an expression statement. -/
def execExpression (w : WorkItem) : SgExpression → Option (WorkItem × List Event)
  | .SgAssignOp lhs rhs =>
    match evalLocation w lhs, evalValue w rhs with
    | some location, some v => some (w.store location v, [.store location v])
    | _, _ => none
  | .SgPlusPlusOp (.SgVarRefExp n) =>
    match w.integers n with
    | some v => some (w.store (.variable n) (.int (v + 1)), [.store (.variable n) (.int (v + 1))])
    | none => none
  | .SgFunctionCallExp f args => some (w, [.call f (args.toList.map (evalArgument w))])
  | _ => none

/-- Value of a loop condition. -/
def evalCondition (w : WorkItem) : SgStatement → Option Bool
  | .SgExprStatement (.SgLessThanOp a b) =>
    match evalInt w a, evalInt w b with
    | some x, some y => some (decide (x < y))
    | _, _ => none
  | _ => none

/-- Running statements in order with `exec`. -/
def execList (exec : WorkItem → SgStatement → Option (WorkItem × List Event)) :
    WorkItem → List SgStatement → Option (WorkItem × List Event)
  | w, [] => some (w, [])
  | w, st :: rest =>
    match exec w st with
    | none => none
    | some (w1, trace1) =>
      match execList exec w1 rest with
      | none => none
      | some (w2, trace2) => some (w2, trace1 ++ trace2)

/-- Running a loop: test `condition`, run `step` (body, then increment), again; at most `fuel`
tests. -/
def execLoop (condition : WorkItem → Option Bool)
    (step : WorkItem → Option (WorkItem × List Event)) :
    Nat → WorkItem → Option (WorkItem × List Event)
  | 0, _ => none
  | fuel + 1, w =>
    match condition w with
    | none => none
    | some false => some (w, [])
    | some true =>
      match step w with
      | none => none
      | some (w1, trace1) =>
        match execLoop condition step fuel w1 with
        | none => none
        | some (w2, trace2) => some (w2, trace1 ++ trace2)

/-- Running a statement with `fuel` levels of nesting and loop tests; `none` when the fuel runs
out or the statement is outside the generated fragment. -/
def execStatement : Nat → WorkItem → SgStatement → Option (WorkItem × List Event)
  | 0, _, _ => none
  | _ + 1, w, .SgExprStatement e => execExpression w e
  | fuel + 1, w, .SgBasicBlock statements => execList (execStatement fuel) w statements.toList
  | fuel + 1, w, .SgForStatement init test increment body =>
    match execStatement fuel w init with
    | none => none
    | some (w1, trace1) =>
      match execLoop (fun w2 => evalCondition w2 test)
          (fun w2 =>
            match execStatement fuel w2 body with
            | none => none
            | some (w3, trace3) =>
              match execExpression w3 increment with
              | none => none
              | some (w4, trace4) => some (w4, trace3 ++ trace4))
          fuel w1 with
      | none => none
      | some (w5, trace5) => some (w5, trace1 ++ trace5)
  | _ + 1, _, .SgDeclarationStatement _ => none

/-- The stores of a trace that write an element of an array. -/
def elementStores (trace : List Event) : List Event :=
  trace.filter fun
    | .store (.element _ _) _ => true
    | _ => false

/-- The calls of a trace. -/
def calls (trace : List Event) : List Event :=
  trace.filter fun
    | .call _ _ => true
    | _ => false

/-- The trace of the counted loop from counter value `k`, for `m` more rounds: each round runs
the body event and then stores the incremented counter. -/
def countedRounds (ev : Int → Event) (k m : Nat) : List Event :=
  (List.range' k m).flatMap fun j =>
    [ev j, .store (.variable (.getIterationCounterVariableName 1)) (.int ((j : Int) + 1))]

/-- The routine called by an emitted statement: the callee of a call statement, and the callee
of the one call in the body of a `for` loop. -/
def calledRoutine : SgStatement → Option SgFunctionSymbol
  | .SgExprStatement (.SgFunctionCallExp callee _) => some callee
  | .SgForStatement _ _ _ (.SgBasicBlock (.cons (.SgExprStatement
      (.SgFunctionCallExp callee _)) .nil)) => some callee
  | _ => none

/-- Whether a statement is a `for` loop. -/
def isSgForStatement : SgStatement → Bool
  | .SgForStatement _ _ _ _ => true
  | _ => false

mutual
/-- Whether `sub` occurs in an expression. -/
def SgExpression.occurs (sub : SgExpression) : SgExpression → Bool
  | .SgIntVal v => sub == .SgIntVal v
  | .SgFloatVal v => sub == .SgFloatVal v
  | .SgDoubleVal v => sub == .SgDoubleVal v
  | .SgVarRefExp n => sub == .SgVarRefExp n
  | .SgPntrArrRefExp a b => sub == .SgPntrArrRefExp a b || SgExpression.occurs sub a || SgExpression.occurs sub b
  | .SgAssignOp a b => sub == .SgAssignOp a b || SgExpression.occurs sub a || SgExpression.occurs sub b
  | .SgLessThanOp a b => sub == .SgLessThanOp a b || SgExpression.occurs sub a || SgExpression.occurs sub b
  | .SgPlusPlusOp a => sub == .SgPlusPlusOp a || SgExpression.occurs sub a
  | .SgMultiplyOp a b => sub == .SgMultiplyOp a b || SgExpression.occurs sub a || SgExpression.occurs sub b
  | .SgAddOp a b => sub == .SgAddOp a b || SgExpression.occurs sub a || SgExpression.occurs sub b
  | .SgAddressOfOp a => sub == .SgAddressOfOp a || SgExpression.occurs sub a
  | .SgFunctionCallExp f args => sub == .SgFunctionCallExp f args || SgExprListExp.occurs sub args
  | .getWorkGroupIDCall => sub == .getWorkGroupIDCall
  | .getGlobalWorkItemIDCall => sub == .getGlobalWorkItemIDCall
/-- Whether `sub` occurs in an actual parameter. -/
def SgExprListExp.occurs (sub : SgExpression) : SgExprListExp → Bool
  | .nil => false
  | .cons e rest => SgExpression.occurs sub e || SgExprListExp.occurs sub rest
end

/-- The argument groups `1..n` that require a reduction, in ascending order of the index. -/
def reducibleGroups (parallelLoop : CPPParallelLoop) : List Nat :=
  (List.range' 1 parallelLoop.getNumberOfOpDatArgumentGroups).filter
    parallelLoop.isReductionRequired

mutual
/-- Whether a statement holds a reference to the variable `name`.  A declaration declares its
variable and refers to none. -/
def SgStatement.references (name : VariableName) : SgStatement → Bool
  | .SgExprStatement expression => SgExpression.occurs (.SgVarRefExp name) expression
  | .SgBasicBlock statements => SgStatementList.references name statements
  | .SgForStatement init test increment body =>
    SgStatement.references name init || SgStatement.references name test ||
      SgExpression.occurs (.SgVarRefExp name) increment || SgStatement.references name body
  | .SgDeclarationStatement _ => false
/-- Whether a statement of a block holds a reference to the variable `name`. -/
def SgStatementList.references (name : VariableName) : SgStatementList → Bool
  | .nil => false
  | .cons statement rest =>
    SgStatement.references name statement || SgStatementList.references name rest
end

/-! ## Sample inputs -/

/-- One argument group: an array of three doubles, incremented, not duplicated. -/
def sampleArrayLoop : CPPParallelLoop :=
  { getNumberOfOpDatArgumentGroups := 1
    isReductionRequired := fun _ => true
    isArray := fun _ => true
    isPointer := fun _ => false
    getOpDatBaseType := fun _ => .SgTypeDouble
    getOpDatDimension := fun _ => 3
    isIncremented := fun _ => true
    isMaximised := fun _ => false
    isMinimised := fun _ => false
    isDuplicateOpDat := fun _ => false
    getReductionTuple := fun _ => ⟨.SgTypeDouble, .increment⟩ }

/-- One argument group: an integer scalar, maximised, not duplicated. -/
def sampleScalarLoop : CPPParallelLoop :=
  { getNumberOfOpDatArgumentGroups := 1
    isReductionRequired := fun _ => true
    isArray := fun _ => false
    isPointer := fun _ => false
    getOpDatBaseType := fun _ => .SgTypeInt
    getOpDatDimension := fun _ => 1
    isIncremented := fun _ => false
    isMaximised := fun _ => true
    isMinimised := fun _ => false
    isDuplicateOpDat := fun _ => false
    getReductionTuple := fun _ => ⟨.SgTypeInt, .maximum⟩ }

/-- Two argument groups that need no reduction: the first a duplicated array of an unsupported
base type, the second a scalar. -/
def sampleReadOnlyLoop : CPPParallelLoop :=
  { getNumberOfOpDatArgumentGroups := 2
    isReductionRequired := fun _ => false
    isArray := fun i => i == 1
    isPointer := fun _ => false
    getOpDatBaseType := fun i => if i == 1 then .SgNamedType "long" else .SgTypeFloat
    getOpDatDimension := fun i => if i == 1 then 4 else 1
    isIncremented := fun _ => false
    isMaximised := fun _ => false
    isMinimised := fun _ => false
    isDuplicateOpDat := fun i => i == 1
    getReductionTuple := fun _ => ⟨.SgTypeFloat, .increment⟩ }

/-- Two argument groups that need a reduction; the second duplicates the first. -/
def sampleDuplicateLoop : CPPParallelLoop :=
  { getNumberOfOpDatArgumentGroups := 2
    isReductionRequired := fun _ => true
    isArray := fun _ => true
    isPointer := fun _ => false
    getOpDatBaseType := fun _ => .SgTypeFloat
    getOpDatDimension := fun _ => 2
    isIncremented := fun _ => true
    isMaximised := fun _ => false
    isMinimised := fun _ => false
    isDuplicateOpDat := fun i => i == 2
    getReductionTuple := fun _ => ⟨.SgTypeFloat, .increment⟩ }

/-- One argument group: an array of three `long`, incremented, not duplicated. -/
def sampleLongArrayLoop : CPPParallelLoop :=
  { sampleArrayLoop with getOpDatBaseType := fun _ => .SgNamedType "long" }

/-- One argument group: a `long` scalar, maximised, not duplicated. -/
def sampleLongScalarLoop : CPPParallelLoop :=
  { sampleScalarLoop with getOpDatBaseType := fun _ => .SgNamedType "long" }

/-- Two argument groups that need a reduction: an array of three doubles, then an array of
three `long`. -/
def sampleMixedLoop : CPPParallelLoop :=
  { sampleArrayLoop with
    getNumberOfOpDatArgumentGroups := 2
    getOpDatBaseType := fun i => if i == 1 then .SgTypeDouble else .SgNamedType "long" }

/-- Two argument groups that need a reduction: an incremented integer scalar, then an integer
scalar that is neither incremented, maximised nor minimised. -/
def sampleUnknownOperatorLoop : CPPParallelLoop :=
  { getNumberOfOpDatArgumentGroups := 2
    isReductionRequired := fun _ => true
    isArray := fun _ => false
    isPointer := fun _ => false
    getOpDatBaseType := fun _ => .SgTypeInt
    getOpDatDimension := fun _ => 1
    isIncremented := fun i => i == 1
    isMaximised := fun _ => false
    isMinimised := fun _ => false
    isDuplicateOpDat := fun _ => false
    getReductionTuple := fun _ => ⟨.SgTypeInt, .increment⟩ }

/-- Three argument groups that need a reduction: a double array that is incremented, a double
scalar that is incremented, and a double scalar that is maximised. -/
def sampleThreeLoop : CPPParallelLoop :=
  { getNumberOfOpDatArgumentGroups := 3
    isReductionRequired := fun _ => true
    isArray := fun i => i == 1
    isPointer := fun _ => false
    getOpDatBaseType := fun _ => .SgTypeDouble
    getOpDatDimension := fun i => if i == 1 then 3 else 1
    isIncremented := fun i => i == 1 || i == 2
    isMaximised := fun i => i == 3
    isMinimised := fun _ => false
    isDuplicateOpDat := fun _ => false
    getReductionTuple := fun i =>
      if i == 3 then ⟨.SgTypeDouble, .maximum⟩ else ⟨.SgTypeDouble, .increment⟩ }

/-- A registry with one combiner for each of two keys. -/
def sampleCombinerRegistry : ReductionCombinerRegistry :=
  { entries := [(⟨.SgTypeDouble, .increment⟩, ⟨"reduction_double_increment"⟩),
      (⟨.SgTypeDouble, .maximum⟩, ⟨"reduction_double_maximum"⟩)] }

/-- A registry without any combiner. -/
def sampleEmptyRegistry : CPPReductionSubroutines :=
  fun _ => none

/-- Constant names around `qinf`. -/
def sampleNearQinfReferences : List String :=
  ["Qinf", "qinf", "qinf2"]

/-- The constants referenced by a user subroutine. -/
def sampleOpConstReferences : List String :=
  ["gam", "qinf", "eps"]

/-- The declared types of the constants: `double` for each. -/
def sampleOpConstDefinitionType : String → SgType :=
  fun _ => .SgTypeDouble

/-- Tags of the three operators. -/
def sampleTags : ReductionTags :=
  { INCREMENT := 0, MAXIMUM := 1, MINIMUM := 2 }

/-- A registry with one combiner for every key. -/
def sampleRegistry : CPPReductionSubroutines :=
  fun _ => some ⟨"reduction"⟩

/-- A work-item of work-group 5 with global index 77. -/
def sampleWorkItem : WorkItem :=
  { workGroupId := 5, globalWorkItemId := 77, integers := fun _ => none }

end OP2



namespace OP2

/-! ## The loop over the argument groups -/

theorem forEachArgumentGroup_snoc (body : Nat → Subroutine → Outcome) (count i : Nat)
    (s s1 : Subroutine) (h : forEachArgumentGroup body count i s = ⟨s1, none⟩) :
    forEachArgumentGroup body (count + 1) i s = body (i + count) s1 := by
  induction count generalizing i s with
  | zero =>
    simp only [forEachArgumentGroup] at h
    cases h
    simp only [forEachArgumentGroup, Nat.add_zero]
    rcases hb : body i s1 with ⟨s2, _ | f⟩ <;> rfl
  | succ k ih =>
    rw [forEachArgumentGroup] at h ⊢
    rcases hb : body i s with ⟨s2, _ | f⟩
    · rw [hb] at h
      simp only at h ⊢
      rw [ih (i + 1) s2 h]
      congr 1
      omega
    · rw [hb] at h
      simp at h

theorem forEachArgumentGroup_fault_mono (body : Nat → Subroutine → Outcome) (count i : Nat)
    (s : Subroutine) (h : (forEachArgumentGroup body (count + 1) i s).fault = none) :
    (forEachArgumentGroup body count i s).fault = none := by
  induction count generalizing i s with
  | zero => simp [forEachArgumentGroup]
  | succ k ih =>
    rw [forEachArgumentGroup] at h ⊢
    rcases hb : body i s with ⟨s2, _ | f⟩
    · rw [hb] at h
      simp only at h ⊢
      exact ih (i + 1) s2 h
    · rw [hb] at h
      simp at h

theorem forEachArgumentGroup_fault_le (body : Nat → Subroutine → Outcome) (k count i : Nat)
    (s : Subroutine) (hk : k ≤ count)
    (h : (forEachArgumentGroup body count i s).fault = none) :
    (forEachArgumentGroup body k i s).fault = none := by
  induction count with
  | zero =>
    have : k = 0 := by omega
    subst this
    exact h
  | succ n ih =>
    rcases Nat.eq_or_lt_of_le hk with rfl | hlt
    · exact h
    · exact ih (by omega) (forEachArgumentGroup_fault_mono body n i s h)

/-- One more iteration of a loop whose bodies only append statements extends the scope. -/
theorem forEachArgumentGroup_extends (body : Nat → Subroutine → Outcome)
    (hbody : ∀ i s, s.subroutineScope <+: (body i s).state.subroutineScope)
    (k count i : Nat) (s : Subroutine) (hk : k ≤ count) :
    (forEachArgumentGroup body k i s).state.subroutineScope <+:
      (forEachArgumentGroup body count i s).state.subroutineScope := by
  induction k generalizing count i s with
  | zero =>
    simp only [forEachArgumentGroup]
    induction count generalizing i s with
    | zero => simp [forEachArgumentGroup]
    | succ n ih =>
      rw [forEachArgumentGroup]
      have hb := hbody i s
      rcases hbd : body i s with ⟨s2, _ | f⟩
      · rw [hbd] at hb
        exact hb.trans (ih (i + 1) s2 (by omega))
      · rw [hbd] at hb
        exact hb
  | succ k ih =>
    obtain ⟨n, rfl⟩ : ∃ n, count = n + 1 := ⟨count - 1, by omega⟩
    rw [forEachArgumentGroup, forEachArgumentGroup]
    rcases hbd : body i s with ⟨s2, _ | f⟩
    · exact ih n (i + 1) s2 (by omega)
    · exact List.prefix_refl _

/-! ## Running a counted loop -/

theorem countedRounds_filter (p : Event → Bool) (ev : Int → Event)
    (hvar : ∀ n v, p (.store (.variable n) v) = false) (hev : ∀ j, p (ev j) = true) (k m : Nat) :
    (countedRounds ev k m).filter p = (List.range' k m).map fun j => ev (j : Int) := by
  induction m generalizing k with
  | zero => simp [countedRounds]
  | succ m ih =>
    have h := ih (k + 1)
    simp only [countedRounds, List.range'_succ, List.flatMap_cons, List.map_cons] at h ⊢
    simp [List.filter_cons, hvar, hev, h]

theorem execLoop_counted (d : Nat) (ev : Int → Event) (g gi : Int)
    (condition : WorkItem → Option Bool) (step : WorkItem → Option (WorkItem × List Event))
    (hcond : ∀ (w : WorkItem) (k : Nat),
      w.integers (.getIterationCounterVariableName 1) = some (k : Int) →
      condition w = some (decide ((k : Int) < (d : Int))))
    (hstep : ∀ (w : WorkItem) (k : Nat), w.workGroupId = g → w.globalWorkItemId = gi →
      w.integers (.getIterationCounterVariableName 1) = some (k : Int) →
      step w = some
        (w.store (.variable (.getIterationCounterVariableName 1)) (.int ((k : Int) + 1)),
          [ev k, .store (.variable (.getIterationCounterVariableName 1)) (.int ((k : Int) + 1))]))
    (m : Nat) :
    ∀ (k : Nat) (w : WorkItem) (fuel : Nat), k + m = d → w.workGroupId = g →
      w.globalWorkItemId = gi →
      w.integers (.getIterationCounterVariableName 1) = some (k : Int) → m + 1 ≤ fuel →
      ∃ w1, execLoop condition step fuel w = some (w1, countedRounds ev k m) := by
  induction m with
  | zero =>
    intro k w fuel hk hg hgi hc hfuel
    obtain ⟨f, rfl⟩ : ∃ f, fuel = f + 1 := ⟨fuel - 1, by omega⟩
    refine ⟨w, ?_⟩
    have hkd : k = d := by omega
    subst hkd
    rw [execLoop, hcond w k hc]
    simp [countedRounds]
  | succ m ih =>
    intro k w fuel hk hg hgi hc hfuel
    obtain ⟨f, rfl⟩ : ∃ f, fuel = f + 1 := ⟨fuel - 1, by omega⟩
    have hlt : (k : Int) < (d : Int) := by omega
    obtain ⟨w1, hw1⟩ := ih (k + 1)
      (w.store (.variable (.getIterationCounterVariableName 1)) (.int ((k : Int) + 1))) f
      (by omega) (by simpa [WorkItem.store] using hg) (by simpa [WorkItem.store] using hgi)
      (by simp [WorkItem.store]) (by omega)
    refine ⟨w1, ?_⟩
    rw [execLoop, hcond w k hc, hstep w k hg hgi hc]
    simp only [hlt, decide_True, hw1]
    simp [countedRounds, List.range'_succ]

/-- Running the counted loop around one expression statement `e`, when `e` leaves the
work-item unchanged and performs the event `ev k` at counter value `k`. -/
theorem execStatement_countedLoop (d : Nat) (e : SgExpression) (ev : Int → Event)
    (w : WorkItem)
    (he : ∀ (w1 : WorkItem) (k : Int), w1.workGroupId = w.workGroupId →
      w1.globalWorkItemId = w.globalWorkItemId →
      w1.integers (.getIterationCounterVariableName 1) = some k →
      execExpression w1 e = some (w1, [ev k]))
    (fuel : Nat) (hfuel : d + 3 ≤ fuel) :
    ∃ w1, execStatement fuel w
        (buildCountedLoop d (.SgBasicBlock (.cons (.SgExprStatement e) .nil))) =
      some (w1, .store (.variable (.getIterationCounterVariableName 1)) (.int 0) ::
        countedRounds ev 0 d) := by
  obtain ⟨f, rfl⟩ : ∃ f, fuel = f + 3 := ⟨fuel - 3, by omega⟩
  obtain ⟨w1, hw1⟩ := execLoop_counted d ev w.workGroupId w.globalWorkItemId
    (fun w2 => evalCondition w2 (.SgExprStatement (.SgLessThanOp
      (getReference (.getIterationCounterVariableName 1)) (.SgIntVal d))))
    (fun w2 =>
      match execStatement (f + 2) w2 (.SgBasicBlock (.cons (.SgExprStatement e) .nil)) with
      | none => none
      | some (w3, trace3) =>
        match execExpression w3
            (.SgPlusPlusOp (getReference (.getIterationCounterVariableName 1))) with
        | none => none
        | some (w4, trace4) => some (w4, trace3 ++ trace4))
    (fun w2 k hc => by simp [evalCondition, evalInt, getReference, hc])
    (fun w2 k hg hgi hc => by
      have hb : execStatement (f + 2) w2 (.SgBasicBlock (.cons (.SgExprStatement e) .nil)) =
          some (w2, [ev k]) := by
        rw [execStatement]
        simp only [SgStatementList.toList, execList]
        rw [execStatement, he w2 k hg hgi hc]
        simp
      simp only [hb]
      simp [execExpression, hc, getReference])
    d 0 (w.store (.variable (.getIterationCounterVariableName 1)) (.int 0)) (f + 2)
    (by omega) (by simp [WorkItem.store]) (by simp [WorkItem.store])
    (by simp [WorkItem.store]) (by omega)
  refine ⟨w1, ?_⟩
  have hinit : execStatement (f + 2) w (.SgExprStatement (.SgAssignOp
      (getReference (.getIterationCounterVariableName 1)) (.SgIntVal 0))) =
      some (w.store (.variable (.getIterationCounterVariableName 1)) (.int 0),
        [.store (.variable (.getIterationCounterVariableName 1)) (.int 0)]) := by
    simp [execStatement, execExpression, evalLocation, evalValue, evalInt, getReference]
  unfold buildCountedLoop
  rw [execStatement]
  simp only [hinit, hw1]
  simp

/-! ## The bodies of the three builders -/

theorem prologue_body_extends (parallelLoop : CPPParallelLoop) (i : Nat) (s : Subroutine) :
    s.subroutineScope <+:
      (createReductionPrologueStatements.body parallelLoop i s).state.subroutineScope := by
  unfold createReductionPrologueStatements.body
  repeat' split
  all_goals simp [appendStatement]

theorem epilogue_body_extends (tags : ReductionTags)
    (reductionSubroutines : CPPReductionSubroutines) (uninitialised : Nat → Option Int)
    (parallelLoop : CPPParallelLoop) (i : Nat) (s : Subroutine) :
    s.subroutineScope <+:
      (createReductionEpilogueStatements.body tags reductionSubroutines uninitialised
        parallelLoop i s).state.subroutineScope := by
  unfold createReductionEpilogueStatements.body
  cases uninitialised i
  all_goals repeat' split
  all_goals simp_all [appendStatement]

/-- The prologue body for a reducible array or pointer argument, when it does not stop. -/
theorem prologue_body_array (parallelLoop : CPPParallelLoop) (i : Nat) (s : Subroutine)
    (hred : parallelLoop.isReductionRequired i = true)
    (hshape : (parallelLoop.isArray i || parallelLoop.isPointer i) = true)
    (hok : (createReductionPrologueStatements.body parallelLoop i s).fault = none) :
    ∃ zero zeroValue,
      (zero = .SgIntVal 0 ∧ zeroValue = Value.int 0 ∨
        zero = .SgFloatVal 0 ∧ zeroValue = Value.float 0 ∨
        zero = .SgDoubleVal 0 ∧ zeroValue = Value.double 0) ∧
      (createReductionPrologueStatements.body parallelLoop i s).state =
        appendStatement (buildCountedLoop (parallelLoop.getOpDatDimension i)
          (.SgBasicBlock (.cons (.SgExprStatement (.SgAssignOp
            (.SgPntrArrRefExp (.SgVarRefExp (.getOpDatLocalName i))
              (.SgVarRefExp (.getIterationCounterVariableName 1))) zero)) .nil))) s := by
  unfold createReductionPrologueStatements.body at hok ⊢
  simp only [hred, hshape, if_true] at hok ⊢
  by_cases h1 : isSgTypeInt (parallelLoop.getOpDatBaseType i) = true
  · exact ⟨_, _, Or.inl ⟨rfl, rfl⟩, by simp [h1, SgStatementList.append, buildAssignStatement,
      getReference]⟩
  · by_cases h2 : isSgTypeFloat (parallelLoop.getOpDatBaseType i) = true
    · exact ⟨_, _, Or.inr (Or.inl ⟨rfl, rfl⟩), by simp [h1, h2, SgStatementList.append,
        buildAssignStatement, getReference]⟩
    · by_cases h3 : isSgTypeDouble (parallelLoop.getOpDatBaseType i) = true
      · exact ⟨_, _, Or.inr (Or.inr ⟨rfl, rfl⟩), by simp [h1, h2, h3, SgStatementList.append,
          buildAssignStatement, getReference]⟩
      · simp [h1, h2, h3] at hok

/-- The epilogue body for a reducible array or pointer argument, when it does not stop. -/
theorem epilogue_body_array (tags : ReductionTags)
    (reductionSubroutines : CPPReductionSubroutines) (uninitialised : Nat → Option Int)
    (parallelLoop : CPPParallelLoop) (i : Nat) (s : Subroutine)
    (hred : parallelLoop.isReductionRequired i = true)
    (hshape : (parallelLoop.isArray i || parallelLoop.isPointer i) = true)
    (hok : (createReductionEpilogueStatements.body tags reductionSubroutines uninitialised
      parallelLoop i s).fault = none) :
    ∃ tag callee,
      reductionSubroutines (parallelLoop.getReductionTuple i) = some callee ∧
      (if parallelLoop.isIncremented i then some tags.INCREMENT
        else if parallelLoop.isMaximised i then some tags.MAXIMUM
        else if parallelLoop.isMinimised i then some tags.MINIMUM
        else uninitialised i) = some tag ∧
      (createReductionEpilogueStatements.body tags reductionSubroutines uninitialised
          parallelLoop i s).state =
        appendStatement (buildCountedLoop (parallelLoop.getOpDatDimension i)
          (.SgBasicBlock (.cons (.SgExprStatement (.SgFunctionCallExp callee
            (.cons (.SgAddressOfOp (.SgPntrArrRefExp
                (.SgVarRefExp (.getReductionArrayDeviceName i))
                (.SgAddOp (.SgVarRefExp (.getIterationCounterVariableName 1))
                  (.SgMultiplyOp .getWorkGroupIDCall
                    (.SgIntVal (parallelLoop.getOpDatDimension i))))))
              (.cons (.SgPntrArrRefExp (.SgVarRefExp (.getOpDatLocalName i))
                  (.SgVarRefExp (.getIterationCounterVariableName 1)))
                (.cons (.SgIntVal tag)
                  (.cons (.SgVarRefExp (.getTemporaryReductionArrayName i)) .nil)))))) .nil)))
          s := by
  unfold createReductionEpilogueStatements.body at hok ⊢
  simp only [hred, hshape, if_true] at hok ⊢
  have htag : ∀ o : Option Int,
      (if parallelLoop.isIncremented i = true then some (SgExpression.SgIntVal tags.INCREMENT)
        else if parallelLoop.isMaximised i = true then some (SgExpression.SgIntVal tags.MAXIMUM)
        else if parallelLoop.isMinimised i = true then some (SgExpression.SgIntVal tags.MINIMUM)
        else o.map SgExpression.SgIntVal) =
      (if parallelLoop.isIncremented i = true then some tags.INCREMENT
        else if parallelLoop.isMaximised i = true then some tags.MAXIMUM
        else if parallelLoop.isMinimised i = true then some tags.MINIMUM
        else o).map SgExpression.SgIntVal := by
    intro o
    repeat' split
    all_goals rfl
  rw [htag] at hok ⊢
  rcases ht : (if parallelLoop.isIncremented i = true then some tags.INCREMENT
        else if parallelLoop.isMaximised i = true then some tags.MAXIMUM
        else if parallelLoop.isMinimised i = true then some tags.MINIMUM
        else uninitialised i) with _ | tag
  · rw [ht] at hok
    simp at hok
  · rw [ht] at hok
    rcases hc : reductionSubroutines (parallelLoop.getReductionTuple i) with _ | callee
    · rw [hc] at hok
      simp at hok
    · exact ⟨tag, callee, rfl, rfl, by simp [hc, SgStatementList.append, buildExprListExp,
        getReference]⟩

/-- Running a builder on the first `k` argument groups only is running it on the descriptor
whose number of argument groups is `k`. -/
theorem prologue_upTo (parallelLoop : CPPParallelLoop) (k : Nat) (s : Subroutine) :
    createReductionPrologueStatements
        { parallelLoop with getNumberOfOpDatArgumentGroups := k } s =
      forEachArgumentGroup (createReductionPrologueStatements.body parallelLoop) k 1 s :=
  rfl

theorem epilogue_upTo (tags : ReductionTags) (reductionSubroutines : CPPReductionSubroutines)
    (uninitialised : Nat → Option Int) (parallelLoop : CPPParallelLoop) (k : Nat) (s : Subroutine) :
    createReductionEpilogueStatements tags reductionSubroutines uninitialised
        { parallelLoop with getNumberOfOpDatArgumentGroups := k } s =
      forEachArgumentGroup (createReductionEpilogueStatements.body tags reductionSubroutines
        uninitialised parallelLoop) k 1 s :=
  rfl

/-- The step of a builder for argument group `j + 1`, when the whole run does not stop: the
run on the first `j + 1` groups is the body for `j + 1` applied to the run on the first `j`. -/
theorem forEachArgumentGroup_step (body : Nat → Subroutine → Outcome) (j count : Nat)
    (s : Subroutine) (hj : j + 1 ≤ count)
    (h : (forEachArgumentGroup body count 1 s).fault = none) :
    (forEachArgumentGroup body (j + 1) 1 s).fault = none ∧
      forEachArgumentGroup body (j + 1) 1 s =
        body (j + 1) (forEachArgumentGroup body j 1 s).state := by
  have h1 := forEachArgumentGroup_fault_le body (j + 1) count 1 s hj h
  have h0 := forEachArgumentGroup_fault_le body j count 1 s (by omega) h
  refine ⟨h1, ?_⟩
  rcases hs : forEachArgumentGroup body j 1 s with ⟨s1, f1⟩
  rw [hs] at h0
  simp only at h0
  subst h0
  rw [forEachArgumentGroup_snoc body j 1 s s1 hs, Nat.add_comm]

/-- Stores into array elements and calls in the trace of a counted loop. -/
theorem elementStores_counted (a : VariableName) (v : Value) (d : Nat) :
    elementStores (.store (.variable (.getIterationCounterVariableName 1)) (.int 0) ::
        countedRounds (fun k => .store (.element a k) v) 0 d) =
      (List.range d).map fun k => Event.store (.element a (k : Int)) v := by
  unfold elementStores
  rw [List.filter_cons]
  simp only [Bool.false_eq_true, if_false]
  rw [countedRounds_filter _ _ (fun _ _ => rfl) (fun _ => rfl), List.range_eq_range']

theorem calls_counted (ev : Int → Event) (hev : ∀ k, ∃ f args, ev k = .call f args)
    (d : Nat) :
    calls (.store (.variable (.getIterationCounterVariableName 1)) (.int 0) ::
        countedRounds ev 0 d) =
      (List.range d).map fun k => ev (k : Int) := by
  unfold calls
  rw [List.filter_cons]
  simp only [Bool.false_eq_true, if_false]
  rw [countedRounds_filter _ _ (fun _ _ => rfl)
    (fun k => by obtain ⟨f, args, h⟩ := hev k; rw [h]), List.range_eq_range']

/-! ## The reduction statements -/

/-- C1, refuted as stated: for the descriptor with one reducible array argument of base type
`long`, the prologue stops with `UnsupportedBaseTypeException` and leaves the scope empty, so
no loop is emitted for the argument. -/
theorem unsupported_array_argument_gets_no_loop :
    (1 ≤ 1 ∧ 1 ≤ sampleLongArrayLoop.getNumberOfOpDatArgumentGroups) ∧
    sampleLongArrayLoop.isReductionRequired 1 = true ∧
    (sampleLongArrayLoop.isArray 1 || sampleLongArrayLoop.isPointer 1) = true ∧
    createReductionPrologueStatements sampleLongArrayLoop (Subroutine.new []) =
      ⟨Subroutine.new [], some (.UnsupportedBaseTypeException "Reduction type not supported")⟩ ∧
    (createReductionPrologueStatements sampleLongArrayLoop
      (Subroutine.new [])).state.subroutineScope = [] := by
  decide

/-- C1, amended: for a reducible argument group `i` of array or pointer shape and dimension
`d`: when the prologue does not stop at or before `i`, it appends for `i` exactly one
statement (the run on the first `i` groups is the run on the first `i - 1` groups plus that
statement, and it stays in the final scope), the loop
`for (counter = 0; counter < d; counter++)` whose block holds the single assignment of a zero
literal to `opDatLocal_i[counter]`; when the epilogue does not stop at or before `i`, it
likewise appends exactly one such loop whose block holds a single call of the combiner
registered for `i`.  Run with enough fuel, the first loop stores zero into `opDatLocal_i[k]`
once for each `k = 0 .. d-1` and the second calls the combiner once for each `k = 0 .. d-1`,
and neither does anything else to an array element or calls anything else. -/
theorem reducible_array_argument_one_counted_loop (tags : ReductionTags)
    (reductionSubroutines : CPPReductionSubroutines) (uninitialised : Nat → Option Int)
    (parallelLoop : CPPParallelLoop) (s : Subroutine) (i : Nat)
    (hi : 1 ≤ i ∧ i ≤ parallelLoop.getNumberOfOpDatArgumentGroups)
    (hred : parallelLoop.isReductionRequired i = true)
    (hshape : (parallelLoop.isArray i || parallelLoop.isPointer i) = true) :
    ((createReductionPrologueStatements
        { parallelLoop with getNumberOfOpDatArgumentGroups := i } s).fault = none →
      ∃ (zero : SgExpression) (zeroValue : Value) (prologueLoop : SgStatement),
        (zero = .SgIntVal 0 ∧ zeroValue = .int 0 ∨ zero = .SgFloatVal 0 ∧ zeroValue = .float 0 ∨
          zero = .SgDoubleVal 0 ∧ zeroValue = .double 0) ∧
        prologueLoop = .SgForStatement
          (.SgExprStatement (.SgAssignOp (.SgVarRefExp (.getIterationCounterVariableName 1))
            (.SgIntVal 0)))
          (.SgExprStatement (.SgLessThanOp (.SgVarRefExp (.getIterationCounterVariableName 1))
            (.SgIntVal (parallelLoop.getOpDatDimension i))))
          (.SgPlusPlusOp (.SgVarRefExp (.getIterationCounterVariableName 1)))
          (.SgBasicBlock (.cons (.SgExprStatement (.SgAssignOp
            (.SgPntrArrRefExp (.SgVarRefExp (.getOpDatLocalName i))
              (.SgVarRefExp (.getIterationCounterVariableName 1))) zero)) .nil)) ∧
        (createReductionPrologueStatements
            { parallelLoop with getNumberOfOpDatArgumentGroups := i } s).state.subroutineScope =
          (createReductionPrologueStatements
            { parallelLoop with getNumberOfOpDatArgumentGroups := i - 1 }
            s).state.subroutineScope ++ [prologueLoop] ∧
        (createReductionPrologueStatements
            { parallelLoop with getNumberOfOpDatArgumentGroups := i } s).state.subroutineScope
          <+: (createReductionPrologueStatements parallelLoop s).state.subroutineScope ∧
        ∀ (w : WorkItem) (fuel : Nat), parallelLoop.getOpDatDimension i + 3 ≤ fuel →
          ∃ w1 trace, execStatement fuel w prologueLoop = some (w1, trace) ∧
            calls trace = [] ∧
            elementStores trace = (List.range (parallelLoop.getOpDatDimension i)).map fun k =>
              Event.store (.element (.getOpDatLocalName i) (k : Int)) zeroValue) ∧
    ((createReductionEpilogueStatements tags reductionSubroutines uninitialised
        { parallelLoop with getNumberOfOpDatArgumentGroups := i } s).fault = none →
      ∃ (callee : SgFunctionSymbol) (actualParameters : SgExprListExp) (tag : Int)
        (epilogueLoop : SgStatement),
        reductionSubroutines (parallelLoop.getReductionTuple i) = some callee ∧
        epilogueLoop = .SgForStatement
          (.SgExprStatement (.SgAssignOp (.SgVarRefExp (.getIterationCounterVariableName 1))
            (.SgIntVal 0)))
          (.SgExprStatement (.SgLessThanOp (.SgVarRefExp (.getIterationCounterVariableName 1))
            (.SgIntVal (parallelLoop.getOpDatDimension i))))
          (.SgPlusPlusOp (.SgVarRefExp (.getIterationCounterVariableName 1)))
          (.SgBasicBlock (.cons (.SgExprStatement
            (.SgFunctionCallExp callee actualParameters)) .nil)) ∧
        (createReductionEpilogueStatements tags reductionSubroutines uninitialised
            { parallelLoop with getNumberOfOpDatArgumentGroups := i } s).state.subroutineScope =
          (createReductionEpilogueStatements tags reductionSubroutines uninitialised
            { parallelLoop with getNumberOfOpDatArgumentGroups := i - 1 }
            s).state.subroutineScope ++ [epilogueLoop] ∧
        (createReductionEpilogueStatements tags reductionSubroutines uninitialised
            { parallelLoop with getNumberOfOpDatArgumentGroups := i } s).state.subroutineScope
          <+: (createReductionEpilogueStatements tags reductionSubroutines uninitialised
            parallelLoop s).state.subroutineScope ∧
        ∀ (w : WorkItem) (fuel : Nat), parallelLoop.getOpDatDimension i + 3 ≤ fuel →
          ∃ w1 trace, execStatement fuel w epilogueLoop = some (w1, trace) ∧
            elementStores trace = [] ∧
            calls trace = (List.range (parallelLoop.getOpDatDimension i)).map fun k =>
              Event.call callee
                [.address (.element (.getReductionArrayDeviceName i)
                    ((k : Int) + w.workGroupId * (parallelLoop.getOpDatDimension i : Int))),
                  .reference (.element (.getOpDatLocalName i) (k : Int)),
                  .integer tag,
                  .reference (.variable (.getTemporaryReductionArrayName i))]) := by
  obtain ⟨j, rfl⟩ : ∃ j, i = j + 1 := ⟨i - 1, by omega⟩
  constructor
  · intro hpro
    obtain ⟨hP1, hPstep⟩ := forEachArgumentGroup_step
      (createReductionPrologueStatements.body parallelLoop) j (j + 1) s (Nat.le_refl _) hpro
    rw [hPstep] at hP1
    obtain ⟨zero, zeroValue, hzero, hPstate⟩ := prologue_body_array parallelLoop (j + 1) _
      hred hshape hP1
    refine ⟨zero, zeroValue, _, hzero, rfl, ?_, ?_, ?_⟩
    · rw [prologue_upTo, prologue_upTo, hPstep, hPstate]
      rfl
    · rw [prologue_upTo]
      exact forEachArgumentGroup_extends _ (prologue_body_extends parallelLoop) _ _ 1 s hi.2
    · intro w fuel hfuel
      obtain ⟨w1, hw1⟩ := execStatement_countedLoop (parallelLoop.getOpDatDimension (j + 1))
        (.SgAssignOp (.SgPntrArrRefExp (.SgVarRefExp (.getOpDatLocalName (j + 1)))
          (.SgVarRefExp (.getIterationCounterVariableName 1))) zero)
        (fun k => .store (.element (.getOpDatLocalName (j + 1)) k) zeroValue) w
        (fun w1 k _ _ hc => by
          rcases hzero with ⟨rfl, rfl⟩ | ⟨rfl, rfl⟩ | ⟨rfl, rfl⟩ <;>
            simp [execExpression, evalLocation, evalInt, evalValue, hc, WorkItem.store])
        fuel hfuel
      refine ⟨w1, _, hw1, ?_, elementStores_counted _ _ _⟩
      unfold calls
      rw [List.filter_cons]
      simp only [Bool.false_eq_true, if_false]
      rw [List.filter_eq_nil_iff]
      intro ev hev
      simp only [countedRounds, List.mem_flatMap, List.mem_cons, List.mem_singleton,
        List.not_mem_nil, or_false] at hev
      obtain ⟨k, -, rfl | rfl⟩ := hev <;> simp
  · intro hepi
    obtain ⟨hE1, hEstep⟩ := forEachArgumentGroup_step
      (createReductionEpilogueStatements.body tags reductionSubroutines uninitialised
        parallelLoop) j (j + 1) s (Nat.le_refl _) hepi
    rw [hEstep] at hE1
    obtain ⟨tag, callee, hcallee, -, hEstate⟩ := epilogue_body_array tags reductionSubroutines
      uninitialised parallelLoop (j + 1) _ hred hshape hE1
    refine ⟨callee,
      .cons (.SgAddressOfOp (.SgPntrArrRefExp
          (.SgVarRefExp (.getReductionArrayDeviceName (j + 1)))
          (.SgAddOp (.SgVarRefExp (.getIterationCounterVariableName 1))
            (.SgMultiplyOp .getWorkGroupIDCall
              (.SgIntVal (parallelLoop.getOpDatDimension (j + 1)))))))
        (.cons (.SgPntrArrRefExp (.SgVarRefExp (.getOpDatLocalName (j + 1)))
            (.SgVarRefExp (.getIterationCounterVariableName 1)))
          (.cons (.SgIntVal tag)
            (.cons (.SgVarRefExp (.getTemporaryReductionArrayName (j + 1))) .nil))),
      tag, _, hcallee, rfl, ?_, ?_, ?_⟩
    · rw [epilogue_upTo, epilogue_upTo, hEstep, hEstate]
      rfl
    · rw [epilogue_upTo]
      exact forEachArgumentGroup_extends _
        (epilogue_body_extends tags reductionSubroutines uninitialised parallelLoop) _ _ 1 s
        hi.2
    · intro w fuel hfuel
      obtain ⟨w1, hw1⟩ := execStatement_countedLoop (parallelLoop.getOpDatDimension (j + 1))
        (.SgFunctionCallExp callee
          (.cons (.SgAddressOfOp (.SgPntrArrRefExp
              (.SgVarRefExp (.getReductionArrayDeviceName (j + 1)))
              (.SgAddOp (.SgVarRefExp (.getIterationCounterVariableName 1))
                (.SgMultiplyOp .getWorkGroupIDCall
                  (.SgIntVal (parallelLoop.getOpDatDimension (j + 1)))))))
            (.cons (.SgPntrArrRefExp (.SgVarRefExp (.getOpDatLocalName (j + 1)))
                (.SgVarRefExp (.getIterationCounterVariableName 1)))
              (.cons (.SgIntVal tag)
                (.cons (.SgVarRefExp (.getTemporaryReductionArrayName (j + 1))) .nil)))))
        (fun k => .call callee
          [.address (.element (.getReductionArrayDeviceName (j + 1))
              (k + w.workGroupId * (parallelLoop.getOpDatDimension (j + 1) : Int))),
            .reference (.element (.getOpDatLocalName (j + 1)) k),
            .integer tag,
            .reference (.variable (.getTemporaryReductionArrayName (j + 1)))]) w
        (fun w1 k hg _ hc => by
          simp [execExpression, SgExprListExp.toList, evalArgument, evalLocation, evalInt, hc,
            hg])
        fuel hfuel
      refine ⟨w1, _, hw1, ?_, calls_counted _ (fun k => ⟨_, _, rfl⟩) _⟩
      unfold elementStores
      rw [List.filter_cons]
      simp only [Bool.false_eq_true, if_false]
      rw [List.filter_eq_nil_iff]
      intro ev hev
      simp only [countedRounds, List.mem_flatMap, List.mem_cons, List.mem_singleton,
        List.not_mem_nil, or_false] at hev
      obtain ⟨k, -, rfl | rfl⟩ := hev <;> simp

theorem reducible_array_argument_one_counted_loop_witness :
    (1 ≤ 1 ∧ 1 ≤ sampleArrayLoop.getNumberOfOpDatArgumentGroups) ∧
    sampleArrayLoop.isReductionRequired 1 = true ∧
    (sampleArrayLoop.isArray 1 || sampleArrayLoop.isPointer 1) = true ∧
    (createReductionPrologueStatements sampleArrayLoop (Subroutine.new [])).fault = none ∧
    (createReductionEpilogueStatements sampleTags sampleRegistry (fun _ => none)
      sampleArrayLoop (Subroutine.new [])).fault = none ∧
    ∃ prologueLoop epilogueLoop,
      (createReductionPrologueStatements sampleArrayLoop
        (Subroutine.new [])).state.subroutineScope = [prologueLoop] ∧
      (createReductionEpilogueStatements sampleTags sampleRegistry (fun _ => none)
        sampleArrayLoop (Subroutine.new [])).state.subroutineScope = [epilogueLoop] ∧
      (∃ w1 trace, execStatement 6 sampleWorkItem prologueLoop = some (w1, trace) ∧
        (elementStores trace).length = 3) ∧
      (∃ w1 trace, execStatement 6 sampleWorkItem epilogueLoop = some (w1, trace) ∧
        (calls trace).length = 3) := by
  obtain ⟨hprologue, hepilogue⟩ :=
    reducible_array_argument_one_counted_loop sampleTags sampleRegistry (fun _ => none)
      sampleArrayLoop (Subroutine.new []) 1 (by decide) (by decide) (by decide)
  obtain ⟨zero, zeroValue, pL, -, -, hP, -, hrunP⟩ := hprologue (by decide)
  obtain ⟨callee, args, tag, eL, -, -, hE, -, hrunE⟩ := hepilogue (by decide)
  refine ⟨by decide, by decide, by decide, by decide, by decide, pL, eL, hP, hE, ?_, ?_⟩
  · obtain ⟨w1, trace, h1, -, h2⟩ := hrunP sampleWorkItem 6 (by decide)
    exact ⟨w1, trace, h1, by rw [h2]; rfl⟩
  · obtain ⟨w1, trace, h1, -, h2⟩ := hrunE sampleWorkItem 6 (by decide)
    exact ⟨w1, trace, h1, by rw [h2]; rfl⟩

/-- The prologue body for a reducible scalar argument, when it does not stop. -/
theorem prologue_body_scalar (parallelLoop : CPPParallelLoop) (i : Nat) (s : Subroutine)
    (hred : parallelLoop.isReductionRequired i = true)
    (hshape : (parallelLoop.isArray i || parallelLoop.isPointer i) = false)
    (hok : (createReductionPrologueStatements.body parallelLoop i s).fault = none) :
    ∃ zero,
      (zero = .SgIntVal 0 ∨ zero = .SgFloatVal 0 ∨ zero = .SgDoubleVal 0) ∧
      (createReductionPrologueStatements.body parallelLoop i s).state =
        appendStatement (.SgExprStatement (.SgAssignOp
          (.SgVarRefExp (.getOpDatLocalName i)) zero)) s := by
  unfold createReductionPrologueStatements.body at hok ⊢
  simp only [hred, hshape, if_true] at hok ⊢
  by_cases h1 : isSgTypeInt (parallelLoop.getOpDatBaseType i) = true
  · exact ⟨_, Or.inl rfl, by simp [h1, buildAssignStatement, getReference]⟩
  · by_cases h2 : isSgTypeFloat (parallelLoop.getOpDatBaseType i) = true
    · exact ⟨_, Or.inr (Or.inl rfl), by simp [h1, h2, buildAssignStatement, getReference]⟩
    · by_cases h3 : isSgTypeDouble (parallelLoop.getOpDatBaseType i) = true
      · exact ⟨_, Or.inr (Or.inr rfl), by simp [h1, h2, h3, buildAssignStatement,
          getReference]⟩
      · simp [h1, h2, h3] at hok

/-- The epilogue body for a reducible scalar argument, when it does not stop. -/
theorem epilogue_body_scalar (tags : ReductionTags)
    (reductionSubroutines : CPPReductionSubroutines) (uninitialised : Nat → Option Int)
    (parallelLoop : CPPParallelLoop) (i : Nat) (s : Subroutine)
    (hred : parallelLoop.isReductionRequired i = true)
    (hshape : (parallelLoop.isArray i || parallelLoop.isPointer i) = false)
    (hok : (createReductionEpilogueStatements.body tags reductionSubroutines uninitialised
      parallelLoop i s).fault = none) :
    ∃ tag callee,
      reductionSubroutines (parallelLoop.getReductionTuple i) = some callee ∧
      (if parallelLoop.isIncremented i then some tags.INCREMENT
        else if parallelLoop.isMaximised i then some tags.MAXIMUM
        else if parallelLoop.isMinimised i then some tags.MINIMUM
        else uninitialised i) = some tag ∧
      (createReductionEpilogueStatements.body tags reductionSubroutines uninitialised
          parallelLoop i s).state =
        appendStatement (.SgExprStatement (.SgFunctionCallExp callee
          (.cons (.SgAddressOfOp (.SgPntrArrRefExp
              (.SgVarRefExp (.getReductionArrayDeviceName i))
              (.SgMultiplyOp .getGlobalWorkItemIDCall
                (.SgIntVal (parallelLoop.getOpDatDimension i)))))
            (.cons (.SgVarRefExp (.getOpDatLocalName i))
              (.cons (.SgIntVal tag)
                (.cons (.SgVarRefExp (.getTemporaryReductionArrayName i)) .nil)))))) s := by
  unfold createReductionEpilogueStatements.body at hok ⊢
  simp only [hred, hshape, if_true] at hok ⊢
  have htag : ∀ o : Option Int,
      (if parallelLoop.isIncremented i = true then some (SgExpression.SgIntVal tags.INCREMENT)
        else if parallelLoop.isMaximised i = true then some (SgExpression.SgIntVal tags.MAXIMUM)
        else if parallelLoop.isMinimised i = true then some (SgExpression.SgIntVal tags.MINIMUM)
        else o.map SgExpression.SgIntVal) =
      (if parallelLoop.isIncremented i = true then some tags.INCREMENT
        else if parallelLoop.isMaximised i = true then some tags.MAXIMUM
        else if parallelLoop.isMinimised i = true then some tags.MINIMUM
        else o).map SgExpression.SgIntVal := by
    intro o
    repeat' split
    all_goals rfl
  simp only [Bool.false_eq_true, if_false] at hok ⊢
  rw [htag] at hok ⊢
  rcases ht : (if parallelLoop.isIncremented i = true then some tags.INCREMENT
        else if parallelLoop.isMaximised i = true then some tags.MAXIMUM
        else if parallelLoop.isMinimised i = true then some tags.MINIMUM
        else uninitialised i) with _ | tag
  · rw [ht] at hok
    simp at hok
  · rw [ht] at hok
    rcases hc : reductionSubroutines (parallelLoop.getReductionTuple i) with _ | callee
    · rw [hc] at hok
      simp at hok
    · exact ⟨tag, callee, rfl, rfl, by simp [hc, buildExprListExp, getReference]⟩

/-- C2, refuted as stated: for the descriptor with one reducible scalar argument of base type
`long`, the prologue stops with `UnsupportedBaseTypeException` and leaves the scope empty, so
no zero-assignment is emitted for the argument. -/
theorem unsupported_scalar_argument_gets_no_assignment :
    (1 ≤ 1 ∧ 1 ≤ sampleLongScalarLoop.getNumberOfOpDatArgumentGroups) ∧
    sampleLongScalarLoop.isReductionRequired 1 = true ∧
    (sampleLongScalarLoop.isArray 1 || sampleLongScalarLoop.isPointer 1) = false ∧
    createReductionPrologueStatements sampleLongScalarLoop (Subroutine.new []) =
      ⟨Subroutine.new [], some (.UnsupportedBaseTypeException "Reduction type not supported")⟩ ∧
    (createReductionPrologueStatements sampleLongScalarLoop
      (Subroutine.new [])).state.subroutineScope = [] := by
  decide

/-- C2, amended: for a reducible argument group `i` that is neither array nor pointer: when
the prologue does not stop at or before `i`, it appends for `i` exactly one statement, the
assignment of a zero literal to `opDatLocal_i`; when the epilogue does not stop at or before
`i`, it appends for `i` exactly one statement, a call of the combiner registered for `i`;
neither statement is a loop. -/
theorem reducible_scalar_argument_one_statement (tags : ReductionTags)
    (reductionSubroutines : CPPReductionSubroutines) (uninitialised : Nat → Option Int)
    (parallelLoop : CPPParallelLoop) (s : Subroutine) (i : Nat)
    (hi : 1 ≤ i ∧ i ≤ parallelLoop.getNumberOfOpDatArgumentGroups)
    (hred : parallelLoop.isReductionRequired i = true)
    (hshape : (parallelLoop.isArray i || parallelLoop.isPointer i) = false) :
    ((createReductionPrologueStatements
        { parallelLoop with getNumberOfOpDatArgumentGroups := i } s).fault = none →
      ∃ (zero : SgExpression) (zeroAssignment : SgStatement),
        (zero = .SgIntVal 0 ∨ zero = .SgFloatVal 0 ∨ zero = .SgDoubleVal 0) ∧
        zeroAssignment =
          .SgExprStatement (.SgAssignOp (.SgVarRefExp (.getOpDatLocalName i)) zero) ∧
        isSgForStatement zeroAssignment = false ∧
        (createReductionPrologueStatements
            { parallelLoop with getNumberOfOpDatArgumentGroups := i } s).state.subroutineScope =
          (createReductionPrologueStatements
            { parallelLoop with getNumberOfOpDatArgumentGroups := i - 1 }
            s).state.subroutineScope ++ [zeroAssignment] ∧
        (createReductionPrologueStatements
            { parallelLoop with getNumberOfOpDatArgumentGroups := i } s).state.subroutineScope
          <+: (createReductionPrologueStatements parallelLoop s).state.subroutineScope) ∧
    ((createReductionEpilogueStatements tags reductionSubroutines uninitialised
        { parallelLoop with getNumberOfOpDatArgumentGroups := i } s).fault = none →
      ∃ (callee : SgFunctionSymbol) (actualParameters : SgExprListExp)
        (combinerCall : SgStatement),
        reductionSubroutines (parallelLoop.getReductionTuple i) = some callee ∧
        combinerCall = .SgExprStatement (.SgFunctionCallExp callee actualParameters) ∧
        isSgForStatement combinerCall = false ∧
        (createReductionEpilogueStatements tags reductionSubroutines uninitialised
            { parallelLoop with getNumberOfOpDatArgumentGroups := i } s).state.subroutineScope =
          (createReductionEpilogueStatements tags reductionSubroutines uninitialised
            { parallelLoop with getNumberOfOpDatArgumentGroups := i - 1 }
            s).state.subroutineScope ++ [combinerCall] ∧
        (createReductionEpilogueStatements tags reductionSubroutines uninitialised
            { parallelLoop with getNumberOfOpDatArgumentGroups := i } s).state.subroutineScope
          <+: (createReductionEpilogueStatements tags reductionSubroutines uninitialised
            parallelLoop s).state.subroutineScope) := by
  obtain ⟨j, rfl⟩ : ∃ j, i = j + 1 := ⟨i - 1, by omega⟩
  constructor
  · intro hpro
    obtain ⟨hP1, hPstep⟩ := forEachArgumentGroup_step
      (createReductionPrologueStatements.body parallelLoop) j (j + 1) s (Nat.le_refl _) hpro
    rw [hPstep] at hP1
    obtain ⟨zero, hzero, hPstate⟩ := prologue_body_scalar parallelLoop (j + 1) _ hred hshape
      hP1
    refine ⟨zero, _, hzero, rfl, rfl, ?_, ?_⟩
    · rw [prologue_upTo, prologue_upTo, hPstep, hPstate]
      rfl
    · rw [prologue_upTo]
      exact forEachArgumentGroup_extends _ (prologue_body_extends parallelLoop) _ _ 1 s hi.2
  · intro hepi
    obtain ⟨hE1, hEstep⟩ := forEachArgumentGroup_step
      (createReductionEpilogueStatements.body tags reductionSubroutines uninitialised
        parallelLoop) j (j + 1) s (Nat.le_refl _) hepi
    rw [hEstep] at hE1
    obtain ⟨tag, callee, hcallee, -, hEstate⟩ := epilogue_body_scalar tags reductionSubroutines
      uninitialised parallelLoop (j + 1) _ hred hshape hE1
    refine ⟨callee,
      .cons (.SgAddressOfOp (.SgPntrArrRefExp
          (.SgVarRefExp (.getReductionArrayDeviceName (j + 1)))
          (.SgMultiplyOp .getGlobalWorkItemIDCall
            (.SgIntVal (parallelLoop.getOpDatDimension (j + 1))))))
        (.cons (.SgVarRefExp (.getOpDatLocalName (j + 1)))
          (.cons (.SgIntVal tag)
            (.cons (.SgVarRefExp (.getTemporaryReductionArrayName (j + 1))) .nil))),
      _, hcallee, rfl, rfl, ?_, ?_⟩
    · rw [epilogue_upTo, epilogue_upTo, hEstep, hEstate]
      rfl
    · rw [epilogue_upTo]
      exact forEachArgumentGroup_extends _
        (epilogue_body_extends tags reductionSubroutines uninitialised parallelLoop) _ _ 1 s
        hi.2

theorem reducible_scalar_argument_one_statement_witness :
    (1 ≤ 1 ∧ 1 ≤ sampleScalarLoop.getNumberOfOpDatArgumentGroups) ∧
    sampleScalarLoop.isReductionRequired 1 = true ∧
    (sampleScalarLoop.isArray 1 || sampleScalarLoop.isPointer 1) = false ∧
    (createReductionPrologueStatements sampleScalarLoop (Subroutine.new [])).fault = none ∧
    (createReductionEpilogueStatements sampleTags sampleRegistry (fun _ => none)
      sampleScalarLoop (Subroutine.new [])).fault = none ∧
    ∃ zeroAssignment combinerCall,
      isSgForStatement zeroAssignment = false ∧ isSgForStatement combinerCall = false ∧
      (createReductionPrologueStatements sampleScalarLoop
        (Subroutine.new [])).state.subroutineScope = [zeroAssignment] ∧
      (createReductionEpilogueStatements sampleTags sampleRegistry (fun _ => none)
        sampleScalarLoop (Subroutine.new [])).state.subroutineScope = [combinerCall] := by
  obtain ⟨hprologue, hepilogue⟩ :=
    reducible_scalar_argument_one_statement sampleTags sampleRegistry (fun _ => none)
      sampleScalarLoop (Subroutine.new []) 1 (by decide) (by decide) (by decide)
  obtain ⟨zero, zA, -, -, h1, hP, -⟩ := hprologue (by decide)
  obtain ⟨callee, args, cC, -, -, h2, hE, -⟩ := hepilogue (by decide)
  exact ⟨by decide, by decide, by decide, by decide, by decide, zA, cC, h1, h2, hP, hE⟩

theorem forEachArgumentGroup_skip (body : Nat → Subroutine → Outcome) (count i : Nat)
    (s : Subroutine) (h : ∀ j, i ≤ j → j < i + count → body j s = ⟨s, none⟩) :
    forEachArgumentGroup body count i s = ⟨s, none⟩ := by
  induction count generalizing i with
  | zero => rfl
  | succ n ih =>
    rw [forEachArgumentGroup, h i (Nat.le_refl i) (by omega)]
    exact ih (i + 1) fun j h1 h2 => h j (by omega) (by omega)

/-- C3: when no argument group of the descriptor requires a reduction, each of the three
builders returns without a fault and leaves the subroutine as it was: no statement is appended
to the scope and no entry is added to the variable declarations, whatever the number, types,
shapes and duplicate flags of the argument groups. -/
theorem no_reduction_no_statement (tags : ReductionTags)
    (reductionSubroutines : CPPReductionSubroutines) (uninitialised : Nat → Option Int)
    (parallelLoop : CPPParallelLoop) (s : Subroutine)
    (hnone : ∀ i, 1 ≤ i → i ≤ parallelLoop.getNumberOfOpDatArgumentGroups →
      parallelLoop.isReductionRequired i = false) :
    createReductionVariableDeclarations parallelLoop s = ⟨s, none⟩ ∧
    createReductionPrologueStatements parallelLoop s = ⟨s, none⟩ ∧
    createReductionEpilogueStatements tags reductionSubroutines uninitialised parallelLoop s =
      ⟨s, none⟩ := by
  refine ⟨?_, ?_, ?_⟩
  · apply forEachArgumentGroup_skip
    intro j h1 h2
    simp [createReductionVariableDeclarations.body, hnone j h1 (by omega)]
  · apply forEachArgumentGroup_skip
    intro j h1 h2
    simp [createReductionPrologueStatements.body, hnone j h1 (by omega)]
  · apply forEachArgumentGroup_skip
    intro j h1 h2
    simp [createReductionEpilogueStatements.body, hnone j h1 (by omega)]

theorem no_reduction_no_statement_witness :
    (createReductionVariableDeclarations sampleReadOnlyLoop (Subroutine.new [])).state =
      Subroutine.new [] ∧
    (createReductionPrologueStatements sampleReadOnlyLoop (Subroutine.new [])).state =
      Subroutine.new [] ∧
    (createReductionEpilogueStatements sampleTags (fun _ => none) (fun _ => none) sampleReadOnlyLoop
      (Subroutine.new [])).state = Subroutine.new [] := by
  obtain ⟨h1, h2, h3⟩ := no_reduction_no_statement sampleTags (fun _ => none)
    (fun _ => none) sampleReadOnlyLoop (Subroutine.new []) (fun _ _ _ => rfl)
  rw [h1, h2, h3]
  exact ⟨rfl, rfl, rfl⟩

/-- What the declaration body appends: statements and entries, none of which carries a name
generated for the duplicated argument group `i`. -/
theorem declarations_body_appends (parallelLoop : CPPParallelLoop) (i j : Nat) (s : Subroutine)
    (hdup : parallelLoop.isDuplicateOpDat i = true) :
    ∃ statements entries,
      createReductionVariableDeclarations.body parallelLoop j s =
        ⟨{ s with subroutineScope := s.subroutineScope ++ statements
                  variableDeclarations := s.variableDeclarations ++ entries }, none⟩ ∧
      (∀ declaration, SgStatement.SgDeclarationStatement declaration ∈ statements →
        declaration.name ≠ .getOpDatLocalName i ∧
        declaration.name ≠ .getTemporaryReductionArrayName i) ∧
      (∀ entry ∈ entries, entry.1 ≠ .getOpDatLocalName i ∧
        entry.1 ≠ .getTemporaryReductionArrayName i) := by
  unfold createReductionVariableDeclarations.body
  by_cases hj : parallelLoop.isDuplicateOpDat j = true
  · exact ⟨[], [], by simp [hj], by simp, by simp⟩
  · have hji : j ≠ i := fun h => hj (h ▸ hdup)
    by_cases hr : parallelLoop.isReductionRequired j = true
    · refine ⟨[.SgDeclarationStatement ⟨.getOpDatLocalName j,
          .SgArrayType (parallelLoop.getOpDatBaseType j) (parallelLoop.getOpDatDimension j),
          .unspecified, .unspecified⟩,
        .SgDeclarationStatement ⟨.getTemporaryReductionArrayName j,
          .SgArrayType (parallelLoop.getOpDatBaseType j) 2048, .openclLocal, .unspecified⟩],
        [(.getOpDatLocalName j, ⟨.getOpDatLocalName j,
          .SgArrayType (parallelLoop.getOpDatBaseType j) (parallelLoop.getOpDatDimension j),
          .unspecified, .unspecified⟩),
        (.getTemporaryReductionArrayName j, ⟨.getTemporaryReductionArrayName j,
          .SgArrayType (parallelLoop.getOpDatBaseType j) 2048, .openclLocal, .unspecified⟩)],
        ?_, ?_, ?_⟩
      · simp [hj, hr, appendVariableDeclaration, appendStatement, ScopedVariableDeclarations.add,
          setOpenclLocalOnLast, List.dropLast_append_of_ne_nil]
      · intro declaration hmem
        simp only [List.mem_cons, SgStatement.SgDeclarationStatement.injEq, List.mem_singleton,
          List.not_mem_nil, or_false] at hmem
        rcases hmem with rfl | rfl <;> simp [hji]
      · intro entry hmem
        simp only [List.mem_cons, List.mem_singleton, List.not_mem_nil, or_false] at hmem
        rcases hmem with rfl | rfl <;> simp [hji]
    · exact ⟨[], [], by simp [hj, hr], by simp, by simp⟩

theorem declarations_loop_appends (parallelLoop : CPPParallelLoop) (i : Nat)
    (hdup : parallelLoop.isDuplicateOpDat i = true) (count k : Nat) (s : Subroutine) :
    ∃ statements entries,
      forEachArgumentGroup (createReductionVariableDeclarations.body parallelLoop) count k s =
        ⟨{ s with subroutineScope := s.subroutineScope ++ statements
                  variableDeclarations := s.variableDeclarations ++ entries }, none⟩ ∧
      (∀ declaration, SgStatement.SgDeclarationStatement declaration ∈ statements →
        declaration.name ≠ .getOpDatLocalName i ∧
        declaration.name ≠ .getTemporaryReductionArrayName i) ∧
      (∀ entry ∈ entries, entry.1 ≠ .getOpDatLocalName i ∧
        entry.1 ≠ .getTemporaryReductionArrayName i) := by
  induction count generalizing k s with
  | zero => exact ⟨[], [], by simp [forEachArgumentGroup], by simp, by simp⟩
  | succ n ih =>
    obtain ⟨st1, en1, h1, hs1, he1⟩ := declarations_body_appends parallelLoop i k s hdup
    obtain ⟨st2, en2, h2, hs2, he2⟩ := ih (k + 1)
      { s with subroutineScope := s.subroutineScope ++ st1
               variableDeclarations := s.variableDeclarations ++ en1 }
    refine ⟨st1 ++ st2, en1 ++ en2, ?_, ?_, ?_⟩
    · rw [forEachArgumentGroup, h1]
      simp only [h2, List.append_assoc]
    · intro declaration hmem
      rcases List.mem_append.1 hmem with h | h
      · exact hs1 declaration h
      · exact hs2 declaration h
    · intro entry hmem
      rcases List.mem_append.1 hmem with h | h
      · exact he1 entry h
      · exact he2 entry h

theorem declarations_upTo (parallelLoop : CPPParallelLoop) (k : Nat) (s : Subroutine) :
    createReductionVariableDeclarations
        { parallelLoop with getNumberOfOpDatArgumentGroups := k } s =
      forEachArgumentGroup (createReductionVariableDeclarations.body parallelLoop) k 1 s :=
  rfl

/-- C4: for an argument group `i` with `isDuplicateOpDat (i)` true,
`createReductionVariableDeclarations` declares nothing for `i`, whether or not `i` requires a
reduction: the run on the first `i` groups equals the run on the first `i - 1` groups; the
statements appended and the entries added by the whole run contain no declaration named
`opDatLocal_i` or `reductionTemp_i`; and the result equals that for the same descriptor with
the reduction of `i` removed. -/
theorem duplicated_argument_declares_nothing (parallelLoop : CPPParallelLoop) (s : Subroutine)
    (i : Nat) (hdup : parallelLoop.isDuplicateOpDat i = true) :
    (1 ≤ i →
      createReductionVariableDeclarations
          { parallelLoop with getNumberOfOpDatArgumentGroups := i } s =
        createReductionVariableDeclarations
          { parallelLoop with getNumberOfOpDatArgumentGroups := i - 1 } s) ∧
    (∃ statements entries,
      createReductionVariableDeclarations parallelLoop s =
        ⟨{ s with subroutineScope := s.subroutineScope ++ statements
                  variableDeclarations := s.variableDeclarations ++ entries }, none⟩ ∧
      (∀ declaration, SgStatement.SgDeclarationStatement declaration ∈ statements →
        declaration.name ≠ .getOpDatLocalName i ∧
        declaration.name ≠ .getTemporaryReductionArrayName i) ∧
      (∀ entry ∈ entries, entry.1 ≠ .getOpDatLocalName i ∧
        entry.1 ≠ .getTemporaryReductionArrayName i)) ∧
    createReductionVariableDeclarations parallelLoop s =
      createReductionVariableDeclarations
        { parallelLoop with
          isReductionRequired := fun j =>
            if j = i then false else parallelLoop.isReductionRequired j } s := by
  refine ⟨?_, declarations_loop_appends parallelLoop i hdup _ 1 s, ?_⟩
  · intro hi
    obtain ⟨j, rfl⟩ : ∃ j, i = j + 1 := ⟨i - 1, by omega⟩
    rw [declarations_upTo, declarations_upTo]
    obtain ⟨st, en, h, -, -⟩ := declarations_loop_appends parallelLoop (j + 1) hdup j 1 s
    rw [forEachArgumentGroup_snoc _ j 1 s _ h, Nat.add_sub_cancel, h, Nat.add_comm 1 j]
    simp [createReductionVariableDeclarations.body, hdup]
  · have hbody : createReductionVariableDeclarations.body
        { parallelLoop with
          isReductionRequired := fun j =>
            if j = i then false else parallelLoop.isReductionRequired j } =
        createReductionVariableDeclarations.body parallelLoop := by
      funext j s1
      unfold createReductionVariableDeclarations.body
      by_cases hj : j = i
      · subst hj
        simp [hdup]
      · simp [hj]
    unfold createReductionVariableDeclarations
    rw [hbody]

theorem duplicated_argument_declares_nothing_witness :
    sampleDuplicateLoop.isDuplicateOpDat 2 = true ∧
    sampleDuplicateLoop.isReductionRequired 2 = true ∧
    createReductionVariableDeclarations sampleDuplicateLoop (Subroutine.new []) =
      createReductionVariableDeclarations
        { sampleDuplicateLoop with getNumberOfOpDatArgumentGroups := 1 }
        (Subroutine.new []) ∧
    (createReductionVariableDeclarations sampleDuplicateLoop
      (Subroutine.new [])).state.subroutineScope.length = 2 :=
  ⟨by decide, by decide,
    (duplicated_argument_declares_nothing sampleDuplicateLoop (Subroutine.new []) 2
      (by decide)).1 (by decide),
    by decide⟩

theorem forEachArgumentGroup_stopped (body : Nat → Subroutine → Outcome) (count i : Nat)
    (s : Subroutine) (h : (forEachArgumentGroup body count i s).fault ≠ none) :
    forEachArgumentGroup body (count + 1) i s = forEachArgumentGroup body count i s := by
  induction count generalizing i s with
  | zero => simp [forEachArgumentGroup] at h
  | succ k ih =>
    rcases hb : body i s with ⟨s2, _ | f⟩
    · have e2 : forEachArgumentGroup body (k + 1) i s =
          forEachArgumentGroup body k (i + 1) s2 := by
        rw [forEachArgumentGroup, hb]
      have e1 : forEachArgumentGroup body (k + 1 + 1) i s =
          forEachArgumentGroup body (k + 1) (i + 1) s2 := by
        rw [forEachArgumentGroup, hb]
      rw [e2] at h
      rw [e1, e2]
      exact ih (i + 1) s2 h
    · have e2 : forEachArgumentGroup body (k + 1) i s = ⟨s2, some f⟩ := by
        rw [forEachArgumentGroup, hb]
      have e1 : forEachArgumentGroup body (k + 1 + 1) i s = ⟨s2, some f⟩ := by
        rw [forEachArgumentGroup, hb]
      rw [e1, e2]

theorem epilogue_body_stopped (tags : ReductionTags)
    (reductionSubroutines : CPPReductionSubroutines) (uninitialised : Nat → Option Int)
    (parallelLoop : CPPParallelLoop) (i : Nat) (s : Subroutine)
    (h : (createReductionEpilogueStatements.body tags reductionSubroutines uninitialised
      parallelLoop i s).fault ≠ none) :
    (createReductionEpilogueStatements.body tags reductionSubroutines uninitialised
      parallelLoop i s).state = s := by
  unfold createReductionEpilogueStatements.body at h ⊢
  rcases hu : uninitialised i with _ | v
  all_goals rw [hu] at h
  all_goals repeat' split
  all_goals simp_all

/-- What the epilogue appends for argument group `j + 1`: nothing when it stops at or before
that group, and otherwise what the body appends. -/
theorem epilogue_appended (tags : ReductionTags)
    (reductionSubroutines : CPPReductionSubroutines) (uninitialised : Nat → Option Int)
    (parallelLoop : CPPParallelLoop) (s : Subroutine) (j : Nat) :
    (createReductionEpilogueStatements tags reductionSubroutines uninitialised
        { parallelLoop with getNumberOfOpDatArgumentGroups := j + 1 } s).fault ≠ none ∧
      (createReductionEpilogueStatements tags reductionSubroutines uninitialised
        { parallelLoop with getNumberOfOpDatArgumentGroups := j + 1 } s).state =
      (createReductionEpilogueStatements tags reductionSubroutines uninitialised
        { parallelLoop with getNumberOfOpDatArgumentGroups := j } s).state ∨
    (createReductionEpilogueStatements tags reductionSubroutines uninitialised
        { parallelLoop with getNumberOfOpDatArgumentGroups := j + 1 } s).fault = none ∧
      createReductionEpilogueStatements tags reductionSubroutines uninitialised
        { parallelLoop with getNumberOfOpDatArgumentGroups := j + 1 } s =
      createReductionEpilogueStatements.body tags reductionSubroutines uninitialised
        parallelLoop (j + 1)
        (createReductionEpilogueStatements tags reductionSubroutines uninitialised
          { parallelLoop with getNumberOfOpDatArgumentGroups := j } s).state := by
  rw [epilogue_upTo, epilogue_upTo]
  rcases hj : forEachArgumentGroup (createReductionEpilogueStatements.body tags
      reductionSubroutines uninitialised parallelLoop) j 1 s with ⟨s1, _ | f⟩
  · have hstep := forEachArgumentGroup_snoc _ j 1 s s1 hj
    rw [Nat.add_comm 1 j] at hstep
    rw [hstep]
    rcases hb : (createReductionEpilogueStatements.body tags reductionSubroutines uninitialised
        parallelLoop (j + 1) s1).fault with _ | f
    · exact Or.inr ⟨rfl, rfl⟩
    · refine Or.inl ⟨by simp, ?_⟩
      exact epilogue_body_stopped tags reductionSubroutines uninitialised parallelLoop (j + 1)
        s1 (by simp [hb])
  · have hstop := forEachArgumentGroup_stopped (createReductionEpilogueStatements.body tags
      reductionSubroutines uninitialised parallelLoop) j 1 s (by simp [hj])
    rw [hstop, hj]
    exact Or.inl ⟨by simp, rfl⟩

/-- C5: for a reducible array or pointer argument group `i` of dimension `d`, whatever the
epilogue appends for `i` is the counted loop around one call whose first actual parameter, the
destination, is `&reductionArrayDevice_i[counter + get_group_id * d]`, and the epilogue appends
that loop whenever it does not stop at or before `i`; at loop counter `k` the destination is
the address of element `workGroupId * d + k`, and the global work-item index does not occur in
it. -/
theorem array_destination_by_work_group (tags : ReductionTags)
    (reductionSubroutines : CPPReductionSubroutines) (uninitialised : Nat → Option Int)
    (parallelLoop : CPPParallelLoop) (s : Subroutine) (i : Nat)
    (hi : 1 ≤ i ∧ i ≤ parallelLoop.getNumberOfOpDatArgumentGroups)
    (hred : parallelLoop.isReductionRequired i = true)
    (hshape : (parallelLoop.isArray i || parallelLoop.isPointer i) = true) :
    ∃ (destination : SgExpression) (appended : List SgStatement),
      destination = .SgAddressOfOp (.SgPntrArrRefExp
        (.SgVarRefExp (.getReductionArrayDeviceName i))
        (.SgAddOp (.SgVarRefExp (.getIterationCounterVariableName 1))
          (.SgMultiplyOp .getWorkGroupIDCall (.SgIntVal (parallelLoop.getOpDatDimension i))))) ∧
      (createReductionEpilogueStatements tags reductionSubroutines uninitialised
          { parallelLoop with getNumberOfOpDatArgumentGroups := i } s).state.subroutineScope =
        (createReductionEpilogueStatements tags reductionSubroutines uninitialised
          { parallelLoop with getNumberOfOpDatArgumentGroups := i - 1 } s).state.subroutineScope
          ++ appended ∧
      ((createReductionEpilogueStatements tags reductionSubroutines uninitialised
          { parallelLoop with getNumberOfOpDatArgumentGroups := i } s).fault = none →
        appended.length = 1) ∧
      (∀ statement ∈ appended, ∃ (callee : SgFunctionSymbol) (others : SgExprListExp)
        (init test : SgStatement) (increment : SgExpression),
        statement = .SgForStatement init test increment (.SgBasicBlock (.cons (.SgExprStatement
          (.SgFunctionCallExp callee (.cons destination others))) .nil))) ∧
      SgExpression.occurs .getGlobalWorkItemIDCall destination = false ∧
      ∀ (w : WorkItem) (k : Int),
        w.integers (.getIterationCounterVariableName 1) = some k →
        evalArgument w destination = .address (.element (.getReductionArrayDeviceName i)
          (w.workGroupId * (parallelLoop.getOpDatDimension i : Int) + k)) := by
  obtain ⟨j, rfl⟩ : ∃ j, i = j + 1 := ⟨i - 1, by omega⟩
  have heval : ∀ (w : WorkItem) (k : Int),
      w.integers (.getIterationCounterVariableName 1) = some k →
      evalArgument w (.SgAddressOfOp (.SgPntrArrRefExp
        (.SgVarRefExp (.getReductionArrayDeviceName (j + 1)))
        (.SgAddOp (.SgVarRefExp (.getIterationCounterVariableName 1))
          (.SgMultiplyOp .getWorkGroupIDCall
            (.SgIntVal (parallelLoop.getOpDatDimension (j + 1))))))) =
        .address (.element (.getReductionArrayDeviceName (j + 1))
          (w.workGroupId * (parallelLoop.getOpDatDimension (j + 1) : Int) + k)) := by
    intro w k hk
    simp [evalArgument, evalLocation, evalInt, hk, Int.add_comm]
  rcases epilogue_appended tags reductionSubroutines uninitialised parallelLoop s j with
    ⟨hfault, hstate⟩ | ⟨hfault, hrun⟩
  · refine ⟨_, [], rfl, ?_, fun h => (hfault h).elim, ?_, by simp [SgExpression.occurs], heval⟩
    · rw [hstate]
      simp
    · intro statement hmem
      simp at hmem
  · have hbody := hfault
    rw [hrun] at hbody
    obtain ⟨tag, callee, -, -, hEstate⟩ := epilogue_body_array tags reductionSubroutines
      uninitialised parallelLoop (j + 1) _ hred hshape hbody
    refine ⟨_, [buildCountedLoop (parallelLoop.getOpDatDimension (j + 1))
      (.SgBasicBlock (.cons (.SgExprStatement (.SgFunctionCallExp callee
        (.cons (.SgAddressOfOp (.SgPntrArrRefExp
            (.SgVarRefExp (.getReductionArrayDeviceName (j + 1)))
            (.SgAddOp (.SgVarRefExp (.getIterationCounterVariableName 1))
              (.SgMultiplyOp .getWorkGroupIDCall
                (.SgIntVal (parallelLoop.getOpDatDimension (j + 1)))))))
          (.cons (.SgPntrArrRefExp (.SgVarRefExp (.getOpDatLocalName (j + 1)))
              (.SgVarRefExp (.getIterationCounterVariableName 1)))
            (.cons (.SgIntVal tag)
              (.cons (.SgVarRefExp (.getTemporaryReductionArrayName (j + 1)))
                .nil)))))) .nil))],
      rfl, ?_, fun _ => rfl, ?_, by simp [SgExpression.occurs], heval⟩
    · rw [hrun, hEstate]
      rfl
    · intro statement hmem
      rw [List.mem_singleton] at hmem
      exact ⟨callee, _, _, _, _, hmem⟩

theorem array_destination_by_work_group_witness :
    (createReductionEpilogueStatements sampleTags sampleRegistry (fun _ => none)
      sampleArrayLoop (Subroutine.new [])).fault = none ∧
    ∃ (destination : SgExpression) (callee : SgFunctionSymbol) (others : SgExprListExp)
      (init test : SgStatement) (increment : SgExpression),
      (createReductionEpilogueStatements sampleTags sampleRegistry (fun _ => none)
          sampleArrayLoop (Subroutine.new [])).state.subroutineScope =
        [.SgForStatement init test increment (.SgBasicBlock (.cons (.SgExprStatement
          (.SgFunctionCallExp callee (.cons destination others))) .nil))] ∧
      evalArgument { sampleWorkItem with
          integers := fun _ => some 2 } destination =
        .address (.element (.getReductionArrayDeviceName 1) 17) := by
  obtain ⟨destination, appended, -, h1, h2, h3, -, h4⟩ :=
    array_destination_by_work_group sampleTags sampleRegistry (fun _ => none) sampleArrayLoop
      (Subroutine.new []) 1 (by decide) (by decide) (by decide)
  have hlen := h2 (by decide)
  obtain ⟨statement, rfl⟩ := List.length_eq_one.1 hlen
  obtain ⟨callee, others, init, test, increment, rfl⟩ := h3 statement (List.mem_singleton_self _)
  exact ⟨by decide, destination, callee, others, init, test, increment, h1,
    h4 { sampleWorkItem with integers := fun _ => some 2 } 2 rfl⟩

/-- C6: for a reducible scalar argument group `i`, whatever the epilogue appends for `i` is one
call whose first actual parameter, the destination, is
`&reductionArrayDevice_i[get_global_id * d]`, and the epilogue appends that call whenever it
does not stop at or before `i`; the destination is the address of the element indexed by the
global index of the running work-item times the dimension, and neither the work-group index
nor any iteration counter occurs in it. -/
theorem scalar_destination_by_work_item (tags : ReductionTags)
    (reductionSubroutines : CPPReductionSubroutines) (uninitialised : Nat → Option Int)
    (parallelLoop : CPPParallelLoop) (s : Subroutine) (i : Nat)
    (hi : 1 ≤ i ∧ i ≤ parallelLoop.getNumberOfOpDatArgumentGroups)
    (hred : parallelLoop.isReductionRequired i = true)
    (hshape : (parallelLoop.isArray i || parallelLoop.isPointer i) = false) :
    ∃ (destination : SgExpression) (appended : List SgStatement),
      destination = .SgAddressOfOp (.SgPntrArrRefExp
        (.SgVarRefExp (.getReductionArrayDeviceName i))
        (.SgMultiplyOp .getGlobalWorkItemIDCall
          (.SgIntVal (parallelLoop.getOpDatDimension i)))) ∧
      (createReductionEpilogueStatements tags reductionSubroutines uninitialised
          { parallelLoop with getNumberOfOpDatArgumentGroups := i } s).state.subroutineScope =
        (createReductionEpilogueStatements tags reductionSubroutines uninitialised
          { parallelLoop with getNumberOfOpDatArgumentGroups := i - 1 } s).state.subroutineScope
          ++ appended ∧
      ((createReductionEpilogueStatements tags reductionSubroutines uninitialised
          { parallelLoop with getNumberOfOpDatArgumentGroups := i } s).fault = none →
        appended.length = 1) ∧
      (∀ statement ∈ appended, ∃ (callee : SgFunctionSymbol) (others : SgExprListExp),
        statement = .SgExprStatement (.SgFunctionCallExp callee (.cons destination others))) ∧
      SgExpression.occurs .getWorkGroupIDCall destination = false ∧
      (∀ k, SgExpression.occurs (.SgVarRefExp (.getIterationCounterVariableName k))
        destination = false) ∧
      ∀ w : WorkItem,
        evalArgument w destination = .address (.element (.getReductionArrayDeviceName i)
          (w.globalWorkItemId * (parallelLoop.getOpDatDimension i : Int))) := by
  obtain ⟨j, rfl⟩ : ∃ j, i = j + 1 := ⟨i - 1, by omega⟩
  have heval : ∀ w : WorkItem,
      evalArgument w (.SgAddressOfOp (.SgPntrArrRefExp
        (.SgVarRefExp (.getReductionArrayDeviceName (j + 1)))
        (.SgMultiplyOp .getGlobalWorkItemIDCall
          (.SgIntVal (parallelLoop.getOpDatDimension (j + 1)))))) =
        .address (.element (.getReductionArrayDeviceName (j + 1))
          (w.globalWorkItemId * (parallelLoop.getOpDatDimension (j + 1) : Int))) := by
    intro w
    simp [evalArgument, evalLocation, evalInt]
  rcases epilogue_appended tags reductionSubroutines uninitialised parallelLoop s j with
    ⟨hfault, hstate⟩ | ⟨hfault, hrun⟩
  · refine ⟨_, [], rfl, ?_, fun h => (hfault h).elim, ?_, by simp [SgExpression.occurs],
      fun k => by simp [SgExpression.occurs], heval⟩
    · rw [hstate]
      simp
    · intro statement hmem
      simp at hmem
  · have hbody := hfault
    rw [hrun] at hbody
    obtain ⟨tag, callee, -, -, hEstate⟩ := epilogue_body_scalar tags reductionSubroutines
      uninitialised parallelLoop (j + 1) _ hred hshape hbody
    refine ⟨_, [.SgExprStatement (.SgFunctionCallExp callee
        (.cons (.SgAddressOfOp (.SgPntrArrRefExp
            (.SgVarRefExp (.getReductionArrayDeviceName (j + 1)))
            (.SgMultiplyOp .getGlobalWorkItemIDCall
              (.SgIntVal (parallelLoop.getOpDatDimension (j + 1))))))
          (.cons (.SgVarRefExp (.getOpDatLocalName (j + 1)))
            (.cons (.SgIntVal tag)
              (.cons (.SgVarRefExp (.getTemporaryReductionArrayName (j + 1))) .nil)))))],
      rfl, ?_, fun _ => rfl, ?_, by simp [SgExpression.occurs],
      fun k => by simp [SgExpression.occurs], heval⟩
    · rw [hrun, hEstate]
      rfl
    · intro statement hmem
      rw [List.mem_singleton] at hmem
      exact ⟨callee, _, hmem⟩

theorem scalar_destination_by_work_item_witness :
    (createReductionEpilogueStatements sampleTags sampleRegistry (fun _ => none)
      sampleScalarLoop (Subroutine.new [])).fault = none ∧
    ∃ (destination : SgExpression) (callee : SgFunctionSymbol) (others : SgExprListExp),
      (createReductionEpilogueStatements sampleTags sampleRegistry (fun _ => none)
          sampleScalarLoop (Subroutine.new [])).state.subroutineScope =
        [.SgExprStatement (.SgFunctionCallExp callee (.cons destination others))] ∧
      evalArgument sampleWorkItem destination =
        .address (.element (.getReductionArrayDeviceName 1) 77) := by
  obtain ⟨destination, appended, -, h1, h2, h3, -, -, h4⟩ :=
    scalar_destination_by_work_item sampleTags sampleRegistry (fun _ => none) sampleScalarLoop
      (Subroutine.new []) 1 (by decide) (by decide) (by decide)
  have hlen := h2 (by decide)
  obtain ⟨statement, rfl⟩ := List.length_eq_one.1 hlen
  obtain ⟨callee, others, rfl⟩ := h3 statement (List.mem_singleton_self _)
  exact ⟨by decide, destination, callee, others, h1, h4 sampleWorkItem⟩

/-! ## CRC-32 -/

theorem crcBit_lt (c : Nat) (h : c < 2 ^ 32) : crcBit c < 2 ^ 32 := by
  unfold crcBit
  split
  · exact Nat.xor_lt_two_pow (by omega) (by norm_num)
  · omega

theorem crcBit_inj (a b : Nat) (ha : a < 2 ^ 32) (hb : b < 2 ^ 32)
    (h : crcBit a = crcBit b) : a = b := by
  unfold crcBit at h
  have hmixed : ∀ x y : Nat, x < 2 ^ 32 → y < 2 ^ 32 → (x / 2) ^^^ 0xEDB88320 = y / 2 →
      False := by
    intro x y hx hy hxy
    have h1 : 0xEDB88320 = (x / 2) ^^^ (y / 2) := by rw [← hxy, Nat.xor_cancel_left]
    have h2 := Nat.xor_lt_two_pow (x := x / 2) (y := y / 2) (n := 31) (by omega) (by omega)
    omega
  split at h <;> split at h
  · have h1 : a / 2 = b / 2 := Nat.xor_left_injective h
    omega
  · exact (hmixed a b ha hb h).elim
  · exact (hmixed b a hb ha h.symm).elim
  · omega

theorem crcBit_iterate_lt (k c : Nat) (h : c < 2 ^ 32) : Nat.iterate crcBit k c < 2 ^ 32 := by
  induction k generalizing c with
  | zero => exact h
  | succ k ih => exact ih (crcBit c) (crcBit_lt c h)

theorem crcBit_iterate_inj (k a b : Nat) (ha : a < 2 ^ 32) (hb : b < 2 ^ 32)
    (h : Nat.iterate crcBit k a = Nat.iterate crcBit k b) : a = b := by
  induction k generalizing a b with
  | zero => exact h
  | succ k ih =>
    exact crcBit_inj a b ha hb (ih (crcBit a) (crcBit b) (crcBit_lt a ha) (crcBit_lt b hb) h)

theorem xor_byte_lt (c : Nat) (b : Byte) (h : c < 2 ^ 32) : c ^^^ b.val < 2 ^ 32 :=
  Nat.xor_lt_two_pow h (by have := b.isLt; omega)

theorem crcByte_lt (c : Nat) (b : Byte) (h : c < 2 ^ 32) : crcByte c b < 2 ^ 32 :=
  crcBit_iterate_lt 8 _ (xor_byte_lt c b h)

/-- Two registers that differ stay different after the same byte. -/
theorem crcByte_inj_register (c1 c2 : Nat) (b : Byte) (h1 : c1 < 2 ^ 32) (h2 : c2 < 2 ^ 32)
    (h : crcByte c1 b = crcByte c2 b) : c1 = c2 :=
  Nat.xor_left_injective
    (crcBit_iterate_inj 8 _ _ (xor_byte_lt c1 b h1) (xor_byte_lt c2 b h2) h)

/-- Two different bytes fed to the same register give different registers. -/
theorem crcByte_inj_byte (c : Nat) (b1 b2 : Byte) (hc : c < 2 ^ 32)
    (h : crcByte c b1 = crcByte c b2) : b1 = b2 :=
  Fin.ext (Nat.xor_right_injective
    (crcBit_iterate_inj 8 _ _ (xor_byte_lt c b1 hc) (xor_byte_lt c b2 hc) h))

theorem process_bytes_lt (bytes : StdString) (c : Nat) (h : c < 2 ^ 32) :
    process_bytes c bytes < 2 ^ 32 := by
  induction bytes generalizing c with
  | nil => exact h
  | cons b rest ih => exact ih (crcByte c b) (crcByte_lt c b h)

theorem process_bytes_inj_register (bytes : StdString) (c1 c2 : Nat) (h1 : c1 < 2 ^ 32)
    (h2 : c2 < 2 ^ 32) (h : process_bytes c1 bytes = process_bytes c2 bytes) : c1 = c2 := by
  induction bytes generalizing c1 c2 with
  | nil => exact h
  | cons b rest ih =>
    exact crcByte_inj_register c1 c2 b h1 h2
      (ih (crcByte c1 b) (crcByte c2 b) (crcByte_lt c1 b h1) (crcByte_lt c2 b h2) h)

theorem crc_32_lt (bytes : StdString) : crc_32 bytes < 2 ^ 32 :=
  Nat.xor_lt_two_pow (process_bytes_lt bytes _ (by norm_num)) (by norm_num)

/-- The CRC-32 detects the change of one byte. -/
theorem crc_32_one_byte (before after : StdString) (x y : Byte) (hxy : x ≠ y) :
    crc_32 (before ++ x :: after) ≠ crc_32 (before ++ y :: after) := by
  intro h
  have h1 : process_bytes 0xFFFFFFFF (before ++ x :: after) =
      process_bytes 0xFFFFFFFF (before ++ y :: after) := Nat.xor_left_injective h
  simp only [process_bytes, List.foldl_append, List.foldl_cons] at h1
  have hc : List.foldl crcByte 0xFFFFFFFF before < 2 ^ 32 :=
    process_bytes_lt before _ (by norm_num)
  exact hxy (crcByte_inj_byte _ x y hc
    (process_bytes_inj_register after _ _ (crcByte_lt _ x hc) (crcByte_lt _ y hc) h1))

/-- The check value of CRC-32: the checksum of the nine characters `123456789`. -/
theorem crc_32_check_value : crc_32 [49, 50, 51, 52, 53, 54, 55, 56, 57] = 0xCBF43926 := by
  decide!

/-! ## Decimal rendering -/

theorem decimalDigits_eq (fuel n : Nat) (acc : StdString) (h : n < fuel) :
    decimalDigits fuel n acc =
      ((if n = 0 then [0] else Nat.digits 10 n).reverse.map digitByte) ++ acc := by
  induction fuel generalizing n acc with
  | zero => omega
  | succ f ih =>
    rw [decimalDigits]
    by_cases hn : n / 10 = 0
    · have hlt : n < 10 := by omega
      rw [if_pos hn]
      by_cases h0 : n = 0
      · simp [h0]
      · simp [h0, Nat.digits_of_lt 10 n h0 hlt]
    · have hn0 : n ≠ 0 := by omega
      have hdig : Nat.digits 10 n = n % 10 :: Nat.digits 10 (n / 10) :=
        Nat.digits_def' (by norm_num) (by omega)
      have hd : digitByte (n % 10) = digitByte n := by
        simp [digitByte]
      rw [if_neg hn, ih (n / 10) _ (by omega), if_neg hn, if_neg hn0, hdig]
      simp [hd]

theorem lexical_cast_eq (n : Nat) :
    lexical_cast n = (if n = 0 then [0] else Nat.digits 10 n).reverse.map digitByte :=
  (decimalDigits_eq (n + 1) n [] (by omega)).trans (List.append_nil _)

theorem digitByte_inj (d e : Nat) (hd : d < 10) (he : e < 10) (h : digitByte d = digitByte e) :
    d = e := by
  have := congrArg Fin.val h
  simp only [digitByte] at this
  omega

theorem map_digitByte_inj (l1 l2 : List Nat) (h1 : ∀ d ∈ l1, d < 10) (h2 : ∀ d ∈ l2, d < 10)
    (h : l1.map digitByte = l2.map digitByte) : l1 = l2 := by
  induction l1 generalizing l2 with
  | nil =>
    cases l2 with
    | nil => rfl
    | cons e l2 => simp at h
  | cons d l1 ih =>
    cases l2 with
    | nil => simp at h
    | cons e l2 =>
      simp only [List.map_cons, List.cons.injEq] at h
      rw [digitByte_inj d e (h1 d (List.mem_cons_self _ _)) (h2 e (List.mem_cons_self _ _)) h.1,
        ih l2 (fun x hx => h1 x (List.mem_cons_of_mem _ hx))
          (fun x hx => h2 x (List.mem_cons_of_mem _ hx)) h.2]

theorem decimal_digits_lt (n : Nat) :
    ∀ d ∈ (if n = 0 then [0] else Nat.digits 10 n), d < 10 := by
  intro d hd
  split at hd
  · simp at hd
    omega
  · exact Nat.digits_lt_base (by norm_num) hd

/-- Different numbers have different decimal renderings. -/
theorem lexical_cast_inj (n m : Nat) (h : lexical_cast n = lexical_cast m) : n = m := by
  rw [lexical_cast_eq, lexical_cast_eq] at h
  have h1 := map_digitByte_inj _ _
    (fun d hd => decimal_digits_lt n d (List.mem_reverse.1 hd))
    (fun d hd => decimal_digits_lt m d (List.mem_reverse.1 hd)) h
  have h2 := List.reverse_injective h1
  have key : ∀ (l : List Nat) (hl : l ≠ []), l.getLast hl ≠ 0 → l ≠ [0] := by
    intro l hl hlast e
    subst e
    simp at hlast
  by_cases hn : n = 0 <;> by_cases hm : m = 0
  · rw [hn, hm]
  · rw [if_pos hn, if_neg hm] at h2
    exact (key _ _ (Nat.getLast_digit_ne_zero 10 hm) h2.symm).elim
  · rw [if_neg hn, if_pos hm] at h2
    exact (key _ _ (Nat.getLast_digit_ne_zero 10 hn) h2).elim
  · rw [if_neg hn, if_neg hm] at h2
    exact Nat.digits_inj_iff.1 h2

/-- A 32-bit number has between one and ten decimal digits. -/
theorem lexical_cast_length (n : Nat) (h : n < 2 ^ 32) :
    1 ≤ (lexical_cast n).length ∧ (lexical_cast n).length ≤ 10 := by
  rw [lexical_cast_eq, List.length_map, List.length_reverse]
  by_cases hn : n = 0
  · simp [hn]
  · rw [if_neg hn]
    constructor
    · exact List.length_pos.2 (Nat.digits_ne_nil_iff_ne_zero.2 hn)
    · have h1 := Nat.base_pow_length_digits_le 10 n (by norm_num) hn
      have h2 : 10 ^ (Nat.digits 10 n).length < 10 ^ 11 := by
        calc 10 ^ (Nat.digits 10 n).length ≤ 10 * n := h1
          _ < 10 ^ 11 := by omega
      have h3 := (Nat.pow_lt_pow_iff_right (by norm_num : 1 < 10)).1 h2
      omega

/-! ## The subroutine name -/

theorem getSubroutineName_long (subroutineName : StdString) (h : 20 < subroutineName.length) :
    (Subroutine.new subroutineName).getSubroutineName =
      (115 : Byte) :: lexical_cast (crc_32 subroutineName) := by
  simp [Subroutine.new, Subroutine.getSubroutineName, h]

theorem getSubroutineName_short (subroutineName : StdString) (h : subroutineName.length ≤ 20) :
    (Subroutine.new subroutineName).getSubroutineName = subroutineName := by
  simp [Subroutine.new, Subroutine.getSubroutineName, Nat.not_lt.2 h]

/-- C7: the constructor of `Subroutine` gives a logical name of more than 20 characters the
final name made of the letter `s` (byte 115) followed by the decimal rendering of the CRC-32
checksum of the bytes of the name, and keeps every other name, also one of exactly 20
characters and the empty one, unchanged; `getSubroutineName` returns that final name.  The
checksum is below `2 ^ 32`, and its rendering consists of one to ten characters `0` to `9`
that denote the checksum in base ten. -/
theorem final_name_rule (subroutineName : StdString) :
    (Subroutine.new subroutineName).getSubroutineName =
      (if 20 < subroutineName.length then
        (115 : Byte) :: lexical_cast (crc_32 subroutineName)
      else subroutineName) ∧
    (115 : Byte).val = Char.toNat 's' ∧
    crc_32 subroutineName < 2 ^ 32 ∧
    1 ≤ (lexical_cast (crc_32 subroutineName)).length ∧
    (lexical_cast (crc_32 subroutineName)).length ≤ 10 ∧
    (∀ b ∈ lexical_cast (crc_32 subroutineName),
      Char.toNat '0' ≤ b.val ∧ b.val ≤ Char.toNat '9') ∧
    Nat.ofDigits 10 ((lexical_cast (crc_32 subroutineName)).reverse.map
      fun b => b.val - Char.toNat '0') = crc_32 subroutineName := by
  have hlen := lexical_cast_length _ (crc_32_lt subroutineName)
  refine ⟨?_, rfl, crc_32_lt subroutineName, hlen.1, hlen.2, ?_, ?_⟩
  · by_cases h : 20 < subroutineName.length
    · rw [if_pos h, getSubroutineName_long _ h]
    · rw [if_neg h, getSubroutineName_short _ (by omega)]
  · intro b hb
    rw [lexical_cast_eq, List.mem_map] at hb
    obtain ⟨d, -, rfl⟩ := hb
    have h0 : Char.toNat '0' = 48 := rfl
    have h9 : Char.toNat '9' = 57 := rfl
    simp only [digitByte, h0, h9]
    omega
  · have h0 : Char.toNat '0' = 48 := rfl
    rw [lexical_cast_eq, h0, ← List.map_reverse, List.reverse_reverse, List.map_map]
    have hid : ∀ l : List Nat, (∀ d ∈ l, d < 10) →
        l.map ((fun b : Byte => b.val - 48) ∘ digitByte) = l := by
      intro l hl
      induction l with
      | nil => rfl
      | cons d l ih =>
        have hd := hl d (List.mem_cons_self _ _)
        simp only [List.map_cons, Function.comp, digitByte]
        rw [ih fun x hx => hl x (List.mem_cons_of_mem _ hx)]
        congr 1
        omega
    rw [hid _ (decimal_digits_lt _)]
    by_cases hn : crc_32 subroutineName = 0
    · simp [hn]
    · rw [if_neg hn, Nat.ofDigits_digits]

/-- C8, refuted as stated: two logical names of more than 20 characters, 21 and 25 times the
letter `a`, get final names of different lengths, 11 and 9. -/
theorem final_name_length_not_fixed :
    20 < (List.replicate 21 (97 : Byte)).length ∧ 20 < (List.replicate 25 (97 : Byte)).length ∧
    (Subroutine.new (List.replicate 21 97)).getSubroutineName =
      [115, 50, 52, 56, 56, 48, 57, 48, 50, 51, 57] ∧
    (Subroutine.new (List.replicate 25 97)).getSubroutineName =
      [115, 52, 50, 50, 54, 57, 52, 52, 48] ∧
    (Subroutine.new (List.replicate 21 97)).getSubroutineName.length ≠
      (Subroutine.new (List.replicate 25 97)).getSubroutineName.length := by
  decide!

/-- C8, amended: for a logical name of more than 20 characters the final name is the letter
`s` followed by the decimal digits of the checksum, so its length is one more than the number
of those digits, between 2 and 11, and it is determined by the checksum of the name alone. -/
theorem final_name_length_bounded (subroutineName : StdString)
    (h : 20 < subroutineName.length) :
    2 ≤ (Subroutine.new subroutineName).getSubroutineName.length ∧
    (Subroutine.new subroutineName).getSubroutineName.length ≤ 11 ∧
    (Subroutine.new subroutineName).getSubroutineName.length =
      1 + (lexical_cast (crc_32 subroutineName)).length ∧
    ∀ other : StdString, 20 < other.length → crc_32 other = crc_32 subroutineName →
      (Subroutine.new other).getSubroutineName =
        (Subroutine.new subroutineName).getSubroutineName := by
  have hlen := lexical_cast_length _ (crc_32_lt subroutineName)
  rw [getSubroutineName_long _ h, List.length_cons]
  refine ⟨by omega, by omega, by omega, ?_⟩
  intro other ho hcrc
  rw [getSubroutineName_long _ ho, hcrc]

theorem final_name_length_bounded_witness :
    20 < (List.replicate 21 (97 : Byte)).length ∧
    2 ≤ (Subroutine.new (List.replicate 21 97)).getSubroutineName.length ∧
    (Subroutine.new (List.replicate 21 97)).getSubroutineName.length ≤ 11 :=
  ⟨by decide,
    (final_name_length_bounded (List.replicate 21 97) (by decide)).1,
    (final_name_length_bounded (List.replicate 21 97) (by decide)).2.1⟩

/-- C9, refuted as stated: the name `s2488090239`, of 11 characters, is kept unchanged, and the
name of 21 letters `a`, whose checksum is 2488090239, gets the same final name; the two names
differ and so do their checksums. -/
theorem short_name_collides_without_checksum_collision :
    ([115, 50, 52, 56, 56, 48, 57, 48, 50, 51, 57] : StdString) ≠ List.replicate 21 97 ∧
    (Subroutine.new [115, 50, 52, 56, 56, 48, 57, 48, 50, 51, 57]).getSubroutineName =
      (Subroutine.new (List.replicate 21 97)).getSubroutineName ∧
    crc_32 [115, 50, 52, 56, 56, 48, 57, 48, 50, 51, 57] = 182000645 ∧
    crc_32 (List.replicate 21 97) = 2488090239 ∧
    crc_32 [115, 50, 52, 56, 56, 48, 57, 48, 50, 51, 57] ≠ crc_32 (List.replicate 21 97) := by
  decide!

/-- C9, amended: two different logical names that are both longer than 20 characters or both
at most 20 characters long get the same final name only if their checksums are equal (and
then both are longer than 20 characters: two names of at most 20 characters never share a
final name). -/
theorem collision_needs_checksum_collision (a b : StdString)
    (hclass : 20 < a.length ↔ 20 < b.length) (hne : a ≠ b)
    (hsame : (Subroutine.new a).getSubroutineName = (Subroutine.new b).getSubroutineName) :
    crc_32 a = crc_32 b ∧ 20 < a.length ∧ 20 < b.length := by
  by_cases ha : 20 < a.length
  · have hb := hclass.1 ha
    rw [getSubroutineName_long _ ha, getSubroutineName_long _ hb] at hsame
    exact ⟨lexical_cast_inj _ _ (List.cons.inj hsame).2, ha, hb⟩
  · have hb : ¬ 20 < b.length := fun h => ha (hclass.2 h)
    rw [getSubroutineName_short _ (by omega), getSubroutineName_short _ (by omega)] at hsame
    exact (hne hsame).elim

theorem collision_needs_checksum_collision_witness :
    (List.replicate 21 (97 : Byte)) ≠ [32, 103, 16, 186, 96] ++ List.replicate 16 97 ∧
    (Subroutine.new (List.replicate 21 97)).getSubroutineName =
      (Subroutine.new ([32, 103, 16, 186, 96] ++ List.replicate 16 97)).getSubroutineName ∧
    crc_32 (List.replicate 21 97) = crc_32 ([32, 103, 16, 186, 96] ++ List.replicate 16 97) :=
  ⟨by decide, by decide!,
    (collision_needs_checksum_collision (List.replicate 21 97)
      ([32, 103, 16, 186, 96] ++ List.replicate 16 97) (by decide) (by decide)
      (by decide!)).1⟩

/-- C10: two logical names of the same length, greater than 20, that differ at exactly one
position `i` have different CRC-32 checksums, hence different decimal suffixes, hence
different final names. -/
theorem one_character_change_changes_name (a b : StdString) (i : Nat)
    (hlen : a.length = b.length) (hlong : 20 < a.length)
    (hdiff : a[i]? ≠ b[i]?) (hsame : ∀ j, j ≠ i → a[j]? = b[j]?) :
    crc_32 a ≠ crc_32 b ∧
    lexical_cast (crc_32 a) ≠ lexical_cast (crc_32 b) ∧
    (Subroutine.new a).getSubroutineName ≠ (Subroutine.new b).getSubroutineName := by
  have hia : i < a.length := by
    by_contra hcon
    exact hdiff (by rw [List.getElem?_eq_none (by omega), List.getElem?_eq_none (by omega)])
  have hib : i < b.length := by omega
  have htake : a.take i = b.take i := by
    apply List.ext_getElem?
    intro j
    rw [List.getElem?_take, List.getElem?_take]
    split
    · exact hsame j (by omega)
    · rfl
  have hdrop : a.drop (i + 1) = b.drop (i + 1) := by
    apply List.ext_getElem?
    intro j
    rw [List.getElem?_drop, List.getElem?_drop]
    exact hsame _ (by omega)
  have hxy : a[i] ≠ b[i] := by
    intro h
    exact hdiff (by rw [List.getElem?_eq_getElem hia, List.getElem?_eq_getElem hib, h])
  have ha : a = a.take i ++ a[i] :: a.drop (i + 1) := by
    rw [← List.drop_eq_getElem_cons hia, List.take_append_drop]
  have hb : b = a.take i ++ b[i] :: a.drop (i + 1) := by
    rw [htake, hdrop, ← List.drop_eq_getElem_cons hib, List.take_append_drop]
  have hcrc : crc_32 a ≠ crc_32 b := by
    rw [ha, hb]
    exact crc_32_one_byte _ _ _ _ hxy
  refine ⟨hcrc, fun h => hcrc (lexical_cast_inj _ _ h), ?_⟩
  rw [getSubroutineName_long _ hlong, getSubroutineName_long _ (by omega)]
  intro h
  exact hcrc (lexical_cast_inj _ _ (List.cons.inj h).2)

theorem one_character_change_changes_name_witness :
    ((97 : Byte) :: List.replicate 20 97).length = ((98 : Byte) :: List.replicate 20 97).length ∧
    20 < ((97 : Byte) :: List.replicate 20 97).length ∧
    (Subroutine.new (97 :: List.replicate 20 97)).getSubroutineName ≠
      (Subroutine.new (98 :: List.replicate 20 97)).getSubroutineName :=
  ⟨by decide, by decide,
    (one_character_change_changes_name (97 :: List.replicate 20 97)
      (98 :: List.replicate 20 97) 0 (by decide) (by decide) (by decide)
      (fun j hj => by
        cases j with
        | zero => exact (hj rfl).elim
        | succ k => rfl)).2.2⟩

/-! ## Faults of the prologue -/

/-- A loop that stops has a first argument group at which its body stops: the groups before it
ran without a fault, and the loop ends with what the body leaves there. -/
theorem forEachArgumentGroup_first_fault (body : Nat → Subroutine → Outcome) (count i : Nat)
    (s : Subroutine) (h : (forEachArgumentGroup body count i s).fault ≠ none) :
    ∃ k, k < count ∧ (forEachArgumentGroup body k i s).fault = none ∧
      (body (i + k) (forEachArgumentGroup body k i s).state).fault ≠ none ∧
      forEachArgumentGroup body count i s =
        body (i + k) (forEachArgumentGroup body k i s).state := by
  induction count with
  | zero => simp [forEachArgumentGroup] at h
  | succ n ih =>
    by_cases hn : (forEachArgumentGroup body n i s).fault = none
    · rcases hs : forEachArgumentGroup body n i s with ⟨s1, f1⟩
      rw [hs] at hn
      simp only at hn
      subst hn
      have hstep := forEachArgumentGroup_snoc body n i s s1 hs
      refine ⟨n, by omega, by rw [hs], ?_, ?_⟩
      · rw [hs, ← hstep]
        exact h
      · rw [hs, hstep]
    · obtain ⟨k, hk, h1, h2, h3⟩ := ih hn
      refine ⟨k, by omega, h1, h2, ?_⟩
      rw [forEachArgumentGroup_stopped body n i s hn, h3]

/-- The prologue body stops only at a reducible argument group whose base type is neither
`int`, `float` nor `double`; it then throws and leaves the subroutine as it was. -/
theorem prologue_body_fault (parallelLoop : CPPParallelLoop) (i : Nat) (s : Subroutine)
    (h : (createReductionPrologueStatements.body parallelLoop i s).fault ≠ none) :
    parallelLoop.isReductionRequired i = true ∧
    isSgTypeInt (parallelLoop.getOpDatBaseType i) = false ∧
    isSgTypeFloat (parallelLoop.getOpDatBaseType i) = false ∧
    isSgTypeDouble (parallelLoop.getOpDatBaseType i) = false ∧
    createReductionPrologueStatements.body parallelLoop i s =
      ⟨s, some (.UnsupportedBaseTypeException "Reduction type not supported")⟩ := by
  unfold createReductionPrologueStatements.body at h ⊢
  by_cases hred : parallelLoop.isReductionRequired i = true
  · by_cases h1 : isSgTypeInt (parallelLoop.getOpDatBaseType i) = true
    · by_cases hshape : (parallelLoop.isArray i || parallelLoop.isPointer i) = true <;>
        simp [hred, hshape, h1] at h
    · by_cases h2 : isSgTypeFloat (parallelLoop.getOpDatBaseType i) = true
      · by_cases hshape : (parallelLoop.isArray i || parallelLoop.isPointer i) = true <;>
          simp [hred, hshape, h1, h2] at h
      · by_cases h3 : isSgTypeDouble (parallelLoop.getOpDatBaseType i) = true
        · by_cases hshape : (parallelLoop.isArray i || parallelLoop.isPointer i) = true <;>
            simp [hred, hshape, h1, h2, h3] at h
        · refine ⟨hred, by simpa using h1, by simpa using h2, by simpa using h3, ?_⟩
          by_cases hshape : (parallelLoop.isArray i || parallelLoop.isPointer i) = true <;>
            simp [hred, hshape, h1, h2, h3]
  · simp [hred] at h

/-- The prologue body throws at a reducible argument group of unsupported base type, whatever
its shape. -/
theorem prologue_body_unsupported (parallelLoop : CPPParallelLoop) (i : Nat) (s : Subroutine)
    (hred : parallelLoop.isReductionRequired i = true)
    (h1 : isSgTypeInt (parallelLoop.getOpDatBaseType i) = false)
    (h2 : isSgTypeFloat (parallelLoop.getOpDatBaseType i) = false)
    (h3 : isSgTypeDouble (parallelLoop.getOpDatBaseType i) = false) :
    createReductionPrologueStatements.body parallelLoop i s =
      ⟨s, some (.UnsupportedBaseTypeException "Reduction type not supported")⟩ := by
  unfold createReductionPrologueStatements.body
  by_cases hshape : (parallelLoop.isArray i || parallelLoop.isPointer i) = true <;>
    simp [hred, hshape, h1, h2, h3]

theorem isSgTypeInt_eq_false (t : SgType) : isSgTypeInt t = false ↔ t ≠ .SgTypeInt := by
  cases t <;> simp [isSgTypeInt]

theorem isSgTypeFloat_eq_false (t : SgType) : isSgTypeFloat t = false ↔ t ≠ .SgTypeFloat := by
  cases t <;> simp [isSgTypeFloat]

theorem isSgTypeDouble_eq_false (t : SgType) : isSgTypeDouble t = false ↔ t ≠ .SgTypeDouble := by
  cases t <;> simp [isSgTypeDouble]

/-- A stopped prologue: the first offending argument group, and what the prologue leaves. -/
theorem prologue_fault (parallelLoop : CPPParallelLoop) (s : Subroutine)
    (h : (createReductionPrologueStatements parallelLoop s).fault ≠ none) :
    ∃ i, 1 ≤ i ∧ i ≤ parallelLoop.getNumberOfOpDatArgumentGroups ∧
      parallelLoop.isReductionRequired i = true ∧
      parallelLoop.getOpDatBaseType i ≠ .SgTypeInt ∧
      parallelLoop.getOpDatBaseType i ≠ .SgTypeFloat ∧
      parallelLoop.getOpDatBaseType i ≠ .SgTypeDouble ∧
      (createReductionPrologueStatements
        { parallelLoop with getNumberOfOpDatArgumentGroups := i - 1 } s).fault = none ∧
      createReductionPrologueStatements parallelLoop s =
        ⟨(createReductionPrologueStatements
            { parallelLoop with getNumberOfOpDatArgumentGroups := i - 1 } s).state,
          some (.UnsupportedBaseTypeException "Reduction type not supported")⟩ := by
  obtain ⟨k, hk, h1, h2, h3⟩ := forEachArgumentGroup_first_fault _ _ 1 s h
  obtain ⟨hred, hi, hf, hd, hbody⟩ := prologue_body_fault parallelLoop (1 + k) _ h2
  refine ⟨1 + k, by omega, by omega, hred, (isSgTypeInt_eq_false _).1 hi,
    (isSgTypeFloat_eq_false _).1 hf, (isSgTypeDouble_eq_false _).1 hd, ?_, ?_⟩
  · rw [Nat.add_sub_cancel_left]
    exact h1
  · rw [Nat.add_sub_cancel_left]
    exact h3.trans hbody

/-- C11, refuted as stated: for the descriptor of two reducible arrays, the first of doubles
and the second of `long`, the prologue throws `UnsupportedBaseTypeException` at the second
argument group, and the loop appended for the first is in the scope, which was empty. -/
theorem failed_prologue_leaves_statements :
    (createReductionPrologueStatements sampleMixedLoop (Subroutine.new [])).fault =
      some (.UnsupportedBaseTypeException "Reduction type not supported") ∧
    (Subroutine.new []).subroutineScope = [] ∧
    (createReductionPrologueStatements sampleMixedLoop
      (Subroutine.new [])).state.subroutineScope =
      (createReductionPrologueStatements sampleArrayLoop
        (Subroutine.new [])).state.subroutineScope ∧
    (createReductionPrologueStatements sampleMixedLoop
      (Subroutine.new [])).state.subroutineScope.length = 1 ∧
    (createReductionPrologueStatements sampleMixedLoop
      (Subroutine.new [])).state.subroutineScope ≠ (Subroutine.new []).subroutineScope := by
  decide

/-- C11, amended: when `createReductionPrologueStatements` fails, it fails at a reducible
argument group `i` of unsupported base type; the argument groups before `i` were processed
without a fault and their statements stay appended: the subroutine is left as the run on the
first `i - 1` groups leaves it, so the scope on entry is extended by those statements, and
nothing is appended for `i` or for a later argument group. -/
theorem failed_prologue_keeps_earlier_statements (parallelLoop : CPPParallelLoop)
    (s : Subroutine) (h : (createReductionPrologueStatements parallelLoop s).fault ≠ none) :
    ∃ i, 1 ≤ i ∧ i ≤ parallelLoop.getNumberOfOpDatArgumentGroups ∧
      parallelLoop.isReductionRequired i = true ∧
      parallelLoop.getOpDatBaseType i ≠ .SgTypeInt ∧
      parallelLoop.getOpDatBaseType i ≠ .SgTypeFloat ∧
      parallelLoop.getOpDatBaseType i ≠ .SgTypeDouble ∧
      (createReductionPrologueStatements
        { parallelLoop with getNumberOfOpDatArgumentGroups := i - 1 } s).fault = none ∧
      (createReductionPrologueStatements parallelLoop s).state =
        (createReductionPrologueStatements
          { parallelLoop with getNumberOfOpDatArgumentGroups := i - 1 } s).state ∧
      s.subroutineScope <+:
        (createReductionPrologueStatements parallelLoop s).state.subroutineScope := by
  obtain ⟨i, h1, h2, h3, h4, h5, h6, h7, h8⟩ := prologue_fault parallelLoop s h
  refine ⟨i, h1, h2, h3, h4, h5, h6, h7, by rw [h8], ?_⟩
  have := forEachArgumentGroup_extends _ (prologue_body_extends parallelLoop) 0
    parallelLoop.getNumberOfOpDatArgumentGroups 1 s (Nat.zero_le _)
  exact this

theorem failed_prologue_keeps_earlier_statements_witness :
    (createReductionPrologueStatements sampleMixedLoop (Subroutine.new [])).fault ≠ none ∧
    ∃ i, 1 ≤ i ∧ i ≤ sampleMixedLoop.getNumberOfOpDatArgumentGroups ∧
      (createReductionPrologueStatements sampleMixedLoop (Subroutine.new [])).state =
        (createReductionPrologueStatements
          { sampleMixedLoop with getNumberOfOpDatArgumentGroups := i - 1 }
          (Subroutine.new [])).state := by
  obtain ⟨i, h1, h2, -, -, -, -, -, h3, -⟩ :=
    failed_prologue_keeps_earlier_statements sampleMixedLoop (Subroutine.new []) (by decide)
  exact ⟨by decide, i, h1, h2, h3⟩

/-- C13: `createReductionPrologueStatements` raises `UnsupportedBaseTypeException` if and only
if some argument group `1 .. n` that requires a reduction has a base type other than `int`,
`float` and `double`; it raises nothing else, so an unsupported base type on an argument that
requires no reduction never raises; and the fault does not depend on which arguments are
arrays or pointers. -/
theorem prologue_raises_iff_unsupported_reducible (parallelLoop : CPPParallelLoop)
    (s : Subroutine) :
    ((createReductionPrologueStatements parallelLoop s).fault =
        some (.UnsupportedBaseTypeException "Reduction type not supported") ↔
      ∃ i, 1 ≤ i ∧ i ≤ parallelLoop.getNumberOfOpDatArgumentGroups ∧
        parallelLoop.isReductionRequired i = true ∧
        parallelLoop.getOpDatBaseType i ≠ .SgTypeInt ∧
        parallelLoop.getOpDatBaseType i ≠ .SgTypeFloat ∧
        parallelLoop.getOpDatBaseType i ≠ .SgTypeDouble) ∧
    ((createReductionPrologueStatements parallelLoop s).fault = none ∨
      (createReductionPrologueStatements parallelLoop s).fault =
        some (.UnsupportedBaseTypeException "Reduction type not supported")) ∧
    ∀ isArray isPointer : Nat → Bool,
      (createReductionPrologueStatements
        { parallelLoop with isArray := isArray, isPointer := isPointer } s).fault =
      (createReductionPrologueStatements parallelLoop s).fault := by
  have hdir : ∀ pl : CPPParallelLoop,
      (createReductionPrologueStatements pl s).fault ≠ none →
      (createReductionPrologueStatements pl s).fault =
          some (.UnsupportedBaseTypeException "Reduction type not supported") ∧
        ∃ i, 1 ≤ i ∧ i ≤ pl.getNumberOfOpDatArgumentGroups ∧
          pl.isReductionRequired i = true ∧ pl.getOpDatBaseType i ≠ .SgTypeInt ∧
          pl.getOpDatBaseType i ≠ .SgTypeFloat ∧ pl.getOpDatBaseType i ≠ .SgTypeDouble := by
    intro pl h
    obtain ⟨i, h1, h2, h3, h4, h5, h6, -, h8⟩ := prologue_fault pl s h
    exact ⟨by rw [h8], i, h1, h2, h3, h4, h5, h6⟩
  have hrev : ∀ pl : CPPParallelLoop,
      (∃ i, 1 ≤ i ∧ i ≤ pl.getNumberOfOpDatArgumentGroups ∧
        pl.isReductionRequired i = true ∧ pl.getOpDatBaseType i ≠ .SgTypeInt ∧
        pl.getOpDatBaseType i ≠ .SgTypeFloat ∧ pl.getOpDatBaseType i ≠ .SgTypeDouble) →
      (createReductionPrologueStatements pl s).fault ≠ none := by
    intro pl ⟨i, h1, h2, h3, h4, h5, h6⟩ hnone
    obtain ⟨j, rfl⟩ : ∃ j, i = j + 1 := ⟨i - 1, by omega⟩
    obtain ⟨hf, hstep⟩ := forEachArgumentGroup_step
      (createReductionPrologueStatements.body pl) j _ s h2 hnone
    rw [hstep, prologue_body_unsupported pl (j + 1) _ h3
      ((isSgTypeInt_eq_false _).2 h4) ((isSgTypeFloat_eq_false _).2 h5)
      ((isSgTypeDouble_eq_false _).2 h6)] at hf
    simp at hf
  refine ⟨⟨fun h => (hdir parallelLoop (by rw [h]; simp)).2,
    fun h => (hdir parallelLoop (hrev parallelLoop h)).1⟩, ?_, ?_⟩
  · by_cases h : (createReductionPrologueStatements parallelLoop s).fault = none
    · exact Or.inl h
    · exact Or.inr (hdir parallelLoop h).1
  · intro isArray isPointer
    by_cases h : (createReductionPrologueStatements parallelLoop s).fault = none
    · rw [h]
      by_contra hne
      exact hrev parallelLoop (hdir _ hne).2 h
    · rw [(hdir parallelLoop h).1]
      exact (hdir _ (hrev
        { parallelLoop with isArray := isArray, isPointer := isPointer }
        (hdir parallelLoop h).2)).1

/-! ## The combiner call of the epilogue -/

/-- The epilogue body at a reducible argument group that is neither incremented, maximised nor
minimised: it fails the assertion when the unassigned pointer `reductionType` is null, and
otherwise goes on as if the pointer had been assigned. -/
theorem epilogue_body_unknown_operator (tags : ReductionTags)
    (reductionSubroutines : CPPReductionSubroutines) (uninitialised : Nat → Option Int)
    (parallelLoop : CPPParallelLoop) (i : Nat) (s : Subroutine)
    (hred : parallelLoop.isReductionRequired i = true)
    (hinc : parallelLoop.isIncremented i = false) (hmax : parallelLoop.isMaximised i = false)
    (hmin : parallelLoop.isMinimised i = false) :
    (uninitialised i = none →
      createReductionEpilogueStatements.body tags reductionSubroutines uninitialised
        parallelLoop i s = ⟨s, some .assertionFailure⟩) ∧
    (∀ v callee, uninitialised i = some v →
      reductionSubroutines (parallelLoop.getReductionTuple i) = some callee →
      (createReductionEpilogueStatements.body tags reductionSubroutines uninitialised
        parallelLoop i s).fault = none ∧
      (createReductionEpilogueStatements.body tags reductionSubroutines uninitialised
        parallelLoop i s).state.subroutineScope.length = s.subroutineScope.length + 1) := by
  constructor
  · intro hu
    unfold createReductionEpilogueStatements.body
    by_cases hshape : (parallelLoop.isArray i || parallelLoop.isPointer i) = true <;>
      simp [hred, hshape, hinc, hmax, hmin, hu]
  · intro v callee hu hc
    unfold createReductionEpilogueStatements.body
    by_cases hshape : (parallelLoop.isArray i || parallelLoop.isPointer i) = true <;>
      simp [hred, hshape, hinc, hmax, hmin, hu, hc, appendStatement]

/-- C12, the code at the failing input: the second argument group requires a reduction and is
neither incremented, maximised nor minimised; the pointer `reductionType`, never assigned in
its iteration, still designates the `SgIntVal` of the first iteration.  The epilogue does not
abort: it returns without a fault, and the scope holds a combiner call for the second argument
group, tagged `INCREMENT`. -/
theorem unknown_operator_call_emitted :
    sampleUnknownOperatorLoop.isReductionRequired 2 = true ∧
    sampleUnknownOperatorLoop.isIncremented 2 = false ∧
    sampleUnknownOperatorLoop.isMaximised 2 = false ∧
    sampleUnknownOperatorLoop.isMinimised 2 = false ∧
    createReductionEpilogueStatements sampleTags sampleRegistry
        (fun _ => some sampleTags.INCREMENT) sampleUnknownOperatorLoop (Subroutine.new []) =
      ⟨{ Subroutine.new [] with
          subroutineScope :=
            [.SgExprStatement (.SgFunctionCallExp ⟨"reduction"⟩
              (buildExprListExp
                (.SgAddressOfOp (.SgPntrArrRefExp (.SgVarRefExp (.getReductionArrayDeviceName 1))
                  (.SgMultiplyOp .getGlobalWorkItemIDCall (.SgIntVal 1))))
                (.SgVarRefExp (.getOpDatLocalName 1)) (.SgIntVal sampleTags.INCREMENT)
                (.SgVarRefExp (.getTemporaryReductionArrayName 1)))),
             .SgExprStatement (.SgFunctionCallExp ⟨"reduction"⟩
              (buildExprListExp
                (.SgAddressOfOp (.SgPntrArrRefExp (.SgVarRefExp (.getReductionArrayDeviceName 2))
                  (.SgMultiplyOp .getGlobalWorkItemIDCall (.SgIntVal 1))))
                (.SgVarRefExp (.getOpDatLocalName 2)) (.SgIntVal sampleTags.INCREMENT)
                (.SgVarRefExp (.getTemporaryReductionArrayName 2))))] },
        none⟩ := by
  decide

/-- C14: whatever the epilogue appends for a reducible argument group `i` holds one call whose
callee is the routine the registry returns for `getReductionTuple (i)` and whose actual
parameters are exactly four, in this order: the address of an element of
`reductionArrayDevice_i`; the accumulator, `opDatLocal_i[counter]` inside the counted loop of
an array or pointer argument and `opDatLocal_i` in the plain call of a scalar one; the integer
tag, `INCREMENT` for an incremented argument, else `MAXIMUM` for a maximised one, else
`MINIMUM` for a minimised one; and a reference to `reductionTemp_i`.  The epilogue appends one
such statement whenever it does not stop at or before `i`. -/
theorem combiner_call_parameters (tags : ReductionTags)
    (reductionSubroutines : CPPReductionSubroutines) (uninitialised : Nat → Option Int)
    (parallelLoop : CPPParallelLoop) (s : Subroutine) (i : Nat)
    (hi : 1 ≤ i ∧ i ≤ parallelLoop.getNumberOfOpDatArgumentGroups)
    (hred : parallelLoop.isReductionRequired i = true) :
    ∃ appended : List SgStatement,
      (createReductionEpilogueStatements tags reductionSubroutines uninitialised
          { parallelLoop with getNumberOfOpDatArgumentGroups := i } s).state.subroutineScope =
        (createReductionEpilogueStatements tags reductionSubroutines uninitialised
          { parallelLoop with getNumberOfOpDatArgumentGroups := i - 1 } s).state.subroutineScope
          ++ appended ∧
      ((createReductionEpilogueStatements tags reductionSubroutines uninitialised
          { parallelLoop with getNumberOfOpDatArgumentGroups := i } s).fault = none →
        appended.length = 1) ∧
      ∀ statement ∈ appended,
        ∃ (callee : SgFunctionSymbol) (index source : SgExpression) (tag : Int)
          (actualParameters : SgExprListExp),
          reductionSubroutines (parallelLoop.getReductionTuple i) = some callee ∧
          actualParameters =
            .cons (.SgAddressOfOp (.SgPntrArrRefExp
                (.SgVarRefExp (.getReductionArrayDeviceName i)) index))
              (.cons source (.cons (.SgIntVal tag)
                (.cons (.SgVarRefExp (.getTemporaryReductionArrayName i)) .nil))) ∧
          actualParameters.toList.length = 4 ∧
          (parallelLoop.isIncremented i = true → tag = tags.INCREMENT) ∧
          (parallelLoop.isIncremented i = false → parallelLoop.isMaximised i = true →
            tag = tags.MAXIMUM) ∧
          (parallelLoop.isIncremented i = false → parallelLoop.isMaximised i = false →
            parallelLoop.isMinimised i = true → tag = tags.MINIMUM) ∧
          ((parallelLoop.isArray i || parallelLoop.isPointer i) = true →
            source = .SgPntrArrRefExp (.SgVarRefExp (.getOpDatLocalName i))
              (.SgVarRefExp (.getIterationCounterVariableName 1)) ∧
            ∃ (init test : SgStatement) (increment : SgExpression),
              statement = .SgForStatement init test increment (.SgBasicBlock
                (.cons (.SgExprStatement (.SgFunctionCallExp callee actualParameters)) .nil))) ∧
          ((parallelLoop.isArray i || parallelLoop.isPointer i) = false →
            source = .SgVarRefExp (.getOpDatLocalName i) ∧
            statement = .SgExprStatement (.SgFunctionCallExp callee actualParameters)) := by
  obtain ⟨j, rfl⟩ : ∃ j, i = j + 1 := ⟨i - 1, by omega⟩
  have htagOf : ∀ tag : Int,
      (if parallelLoop.isIncremented (j + 1) = true then some tags.INCREMENT
        else if parallelLoop.isMaximised (j + 1) = true then some tags.MAXIMUM
        else if parallelLoop.isMinimised (j + 1) = true then some tags.MINIMUM
        else uninitialised (j + 1)) = some tag →
      (parallelLoop.isIncremented (j + 1) = true → tag = tags.INCREMENT) ∧
      (parallelLoop.isIncremented (j + 1) = false → parallelLoop.isMaximised (j + 1) = true →
        tag = tags.MAXIMUM) ∧
      (parallelLoop.isIncremented (j + 1) = false → parallelLoop.isMaximised (j + 1) = false →
        parallelLoop.isMinimised (j + 1) = true → tag = tags.MINIMUM) := by
    intro tag htag
    refine ⟨fun h => ?_, fun h1 h2 => ?_, fun h1 h2 h3 => ?_⟩
    · simpa [h] using htag.symm
    · simpa [h1, h2] using htag.symm
    · simpa [h1, h2, h3] using htag.symm
  rcases epilogue_appended tags reductionSubroutines uninitialised parallelLoop s j with
    ⟨hfault, hstate⟩ | ⟨hfault, hrun⟩
  · refine ⟨[], ?_, fun h => (hfault h).elim, ?_⟩
    · rw [hstate]
      simp
    · intro statement hmem
      simp at hmem
  · have hbody := hfault
    rw [hrun] at hbody
    by_cases hshape : (parallelLoop.isArray (j + 1) || parallelLoop.isPointer (j + 1)) = true
    · obtain ⟨tag, callee, hcallee, htag, hEstate⟩ := epilogue_body_array tags
        reductionSubroutines uninitialised parallelLoop (j + 1) _ hred hshape hbody
      obtain ⟨ht1, ht2, ht3⟩ := htagOf tag htag
      exact ⟨[_], by rw [hrun, hEstate]; rfl, fun _ => rfl, fun statement hmem => by
        rw [List.mem_singleton] at hmem
        exact ⟨callee, _, _, tag, _, hcallee, rfl, rfl, ht1, ht2, ht3,
          fun _ => ⟨rfl, _, _, _, hmem⟩, fun h => by rw [hshape] at h; cases h⟩⟩
    · have hshape2 : (parallelLoop.isArray (j + 1) || parallelLoop.isPointer (j + 1)) = false := by
        simpa using hshape
      obtain ⟨tag, callee, hcallee, htag, hEstate⟩ := epilogue_body_scalar tags
        reductionSubroutines uninitialised parallelLoop (j + 1) _ hred hshape2 hbody
      obtain ⟨ht1, ht2, ht3⟩ := htagOf tag htag
      exact ⟨[_], by rw [hrun, hEstate]; rfl, fun _ => rfl, fun statement hmem => by
        rw [List.mem_singleton] at hmem
        exact ⟨callee, _, _, tag, _, hcallee, rfl, rfl, ht1, ht2, ht3,
          fun h => (by rw [hshape2] at h; cases h), fun _ => ⟨rfl, hmem⟩⟩⟩

theorem combiner_call_parameters_witness :
    (1 ≤ 1 ∧ 1 ≤ sampleScalarLoop.getNumberOfOpDatArgumentGroups) ∧
    sampleScalarLoop.isReductionRequired 1 = true ∧
    ∃ (callee : SgFunctionSymbol) (actualParameters : SgExprListExp),
      (createReductionEpilogueStatements sampleTags sampleRegistry (fun _ => none)
        sampleScalarLoop (Subroutine.new [])).state.subroutineScope =
        [.SgExprStatement (.SgFunctionCallExp callee actualParameters)] ∧
      actualParameters.toList.length = 4 ∧
      sampleRegistry (sampleScalarLoop.getReductionTuple 1) = some callee := by
  obtain ⟨appended, h1, h2, h3⟩ := combiner_call_parameters sampleTags sampleRegistry
    (fun _ => none) sampleScalarLoop (Subroutine.new []) 1 (by decide) (by decide)
  have hlen := h2 (by decide)
  obtain ⟨statement, rfl⟩ := List.length_eq_one.1 hlen
  obtain ⟨callee, index, source, tag, args, hc, -, hl, -, -, -, -, hs⟩ :=
    h3 statement (List.mem_singleton_self _)
  obtain ⟨-, rfl⟩ := hs (by decide)
  exact ⟨by decide, by decide, callee, args, h1, hl, hc⟩

/-! ## The zero literal of the prologue -/

/-- What the prologue appends for argument group `j + 1`: nothing when it stops at or before
that group, and otherwise what the body appends. -/
theorem prologue_appended (parallelLoop : CPPParallelLoop) (s : Subroutine) (j : Nat) :
    (createReductionPrologueStatements
        { parallelLoop with getNumberOfOpDatArgumentGroups := j + 1 } s).fault ≠ none ∧
      (createReductionPrologueStatements
        { parallelLoop with getNumberOfOpDatArgumentGroups := j + 1 } s).state =
      (createReductionPrologueStatements
        { parallelLoop with getNumberOfOpDatArgumentGroups := j } s).state ∨
    (createReductionPrologueStatements
        { parallelLoop with getNumberOfOpDatArgumentGroups := j } s).fault = none ∧
    (createReductionPrologueStatements
        { parallelLoop with getNumberOfOpDatArgumentGroups := j + 1 } s).fault = none ∧
      createReductionPrologueStatements
        { parallelLoop with getNumberOfOpDatArgumentGroups := j + 1 } s =
      createReductionPrologueStatements.body parallelLoop (j + 1)
        (createReductionPrologueStatements
          { parallelLoop with getNumberOfOpDatArgumentGroups := j } s).state := by
  rw [prologue_upTo, prologue_upTo]
  rcases hj : forEachArgumentGroup (createReductionPrologueStatements.body parallelLoop) j 1 s
    with ⟨s1, _ | f⟩
  · have hstep := forEachArgumentGroup_snoc _ j 1 s s1 hj
    rw [Nat.add_comm 1 j] at hstep
    rw [hstep]
    by_cases hb : (createReductionPrologueStatements.body parallelLoop (j + 1) s1).fault = none
    · exact Or.inr ⟨rfl, hb, rfl⟩
    · refine Or.inl ⟨hb, ?_⟩
      rw [(prologue_body_fault parallelLoop (j + 1) s1 hb).2.2.2.2]
  · have hstop := forEachArgumentGroup_stopped (createReductionPrologueStatements.body
      parallelLoop) j 1 s (by simp [hj])
    rw [hstop, hj]
    exact Or.inl ⟨by simp, rfl⟩

/-- The prologue body at a reducible argument group of supported base type appends one
statement and does not stop; `zero` is the literal of the base type. -/
theorem prologue_body_supported (parallelLoop : CPPParallelLoop) (i : Nat) (s : Subroutine)
    (zero : SgExpression) (hred : parallelLoop.isReductionRequired i = true)
    (hzero : parallelLoop.getOpDatBaseType i = .SgTypeInt ∧ zero = .SgIntVal 0 ∨
      parallelLoop.getOpDatBaseType i = .SgTypeFloat ∧ zero = .SgFloatVal 0 ∨
      parallelLoop.getOpDatBaseType i = .SgTypeDouble ∧ zero = .SgDoubleVal 0) :
    createReductionPrologueStatements.body parallelLoop i s =
      ⟨appendStatement
        (if (parallelLoop.isArray i || parallelLoop.isPointer i) = true then
          .SgForStatement
            (.SgExprStatement (.SgAssignOp (.SgVarRefExp (.getIterationCounterVariableName 1))
              (.SgIntVal 0)))
            (.SgExprStatement (.SgLessThanOp (.SgVarRefExp (.getIterationCounterVariableName 1))
              (.SgIntVal (parallelLoop.getOpDatDimension i))))
            (.SgPlusPlusOp (.SgVarRefExp (.getIterationCounterVariableName 1)))
            (.SgBasicBlock (.cons (.SgExprStatement (.SgAssignOp
              (.SgPntrArrRefExp (.SgVarRefExp (.getOpDatLocalName i))
                (.SgVarRefExp (.getIterationCounterVariableName 1))) zero)) .nil))
        else .SgExprStatement (.SgAssignOp (.SgVarRefExp (.getOpDatLocalName i)) zero)) s,
        none⟩ := by
  unfold createReductionPrologueStatements.body
  by_cases hshape : (parallelLoop.isArray i || parallelLoop.isPointer i) = true
  · rcases hzero with ⟨ht, rfl⟩ | ⟨ht, rfl⟩ | ⟨ht, rfl⟩ <;>
      simp [hred, hshape, ht, isSgTypeInt, isSgTypeFloat, isSgTypeDouble,
        SgStatementList.append, buildAssignStatement, getReference, buildCountedLoop]
  · rcases hzero with ⟨ht, rfl⟩ | ⟨ht, rfl⟩ | ⟨ht, rfl⟩ <;>
      simp [hred, hshape, ht, isSgTypeInt, isSgTypeFloat, isSgTypeDouble,
        buildAssignStatement, getReference]

/-- C15: for a reducible argument group `i` whose base type is `int`, `float` or `double`,
whatever the prologue appends for `i` assigns the zero literal of that base type, the integer
literal `0` for `int`, the single-precision literal of value zero for `float` and the
double-precision literal of value zero for `double`, to `opDatLocal_i[counter]` inside the
counted loop of an array or pointer argument and to `opDatLocal_i` for a scalar one; the
prologue appends that one statement whenever it does not stop before `i`. -/
theorem zero_literal_matches_base_type (parallelLoop : CPPParallelLoop) (s : Subroutine)
    (i : Nat) (hi : 1 ≤ i ∧ i ≤ parallelLoop.getNumberOfOpDatArgumentGroups)
    (hred : parallelLoop.isReductionRequired i = true)
    (hsupported : parallelLoop.getOpDatBaseType i = .SgTypeInt ∨
      parallelLoop.getOpDatBaseType i = .SgTypeFloat ∨
      parallelLoop.getOpDatBaseType i = .SgTypeDouble) :
    ∃ (zero : SgExpression) (appended : List SgStatement),
      (parallelLoop.getOpDatBaseType i = .SgTypeInt →
        zero = .SgIntVal 0 ∧ ∀ w, evalValue w zero = some (.int 0)) ∧
      (parallelLoop.getOpDatBaseType i = .SgTypeFloat →
        zero = .SgFloatVal 0 ∧ ∀ w, evalValue w zero = some (.float 0)) ∧
      (parallelLoop.getOpDatBaseType i = .SgTypeDouble →
        zero = .SgDoubleVal 0 ∧ ∀ w, evalValue w zero = some (.double 0)) ∧
      (createReductionPrologueStatements
          { parallelLoop with getNumberOfOpDatArgumentGroups := i } s).state.subroutineScope =
        (createReductionPrologueStatements
          { parallelLoop with getNumberOfOpDatArgumentGroups := i - 1 } s).state.subroutineScope
          ++ appended ∧
      ((createReductionPrologueStatements
          { parallelLoop with getNumberOfOpDatArgumentGroups := i - 1 } s).fault = none →
        appended.length = 1) ∧
      ∀ statement ∈ appended,
        ((parallelLoop.isArray i || parallelLoop.isPointer i) = true →
          ∃ (init test : SgStatement) (increment : SgExpression),
            statement = .SgForStatement init test increment (.SgBasicBlock (.cons
              (.SgExprStatement (.SgAssignOp
                (.SgPntrArrRefExp (.SgVarRefExp (.getOpDatLocalName i))
                  (.SgVarRefExp (.getIterationCounterVariableName 1))) zero)) .nil))) ∧
        ((parallelLoop.isArray i || parallelLoop.isPointer i) = false →
          statement =
            .SgExprStatement (.SgAssignOp (.SgVarRefExp (.getOpDatLocalName i)) zero)) := by
  obtain ⟨j, rfl⟩ : ∃ j, i = j + 1 := ⟨i - 1, by omega⟩
  obtain ⟨zero, hzero⟩ : ∃ zero : SgExpression,
      parallelLoop.getOpDatBaseType (j + 1) = .SgTypeInt ∧ zero = .SgIntVal 0 ∨
      parallelLoop.getOpDatBaseType (j + 1) = .SgTypeFloat ∧ zero = .SgFloatVal 0 ∨
      parallelLoop.getOpDatBaseType (j + 1) = .SgTypeDouble ∧ zero = .SgDoubleVal 0 := by
    rcases hsupported with h | h | h
    · exact ⟨_, Or.inl ⟨h, rfl⟩⟩
    · exact ⟨_, Or.inr (Or.inl ⟨h, rfl⟩)⟩
    · exact ⟨_, Or.inr (Or.inr ⟨h, rfl⟩)⟩
  have hkind : (parallelLoop.getOpDatBaseType (j + 1) = .SgTypeInt →
        zero = .SgIntVal 0 ∧ ∀ w, evalValue w zero = some (.int 0)) ∧
      (parallelLoop.getOpDatBaseType (j + 1) = .SgTypeFloat →
        zero = .SgFloatVal 0 ∧ ∀ w, evalValue w zero = some (.float 0)) ∧
      (parallelLoop.getOpDatBaseType (j + 1) = .SgTypeDouble →
        zero = .SgDoubleVal 0 ∧ ∀ w, evalValue w zero = some (.double 0)) := by
    rcases hzero with ⟨ht, rfl⟩ | ⟨ht, rfl⟩ | ⟨ht, rfl⟩ <;>
      simp [ht, evalValue, evalInt]
  have hbody := fun s1 => prologue_body_supported parallelLoop (j + 1) s1 zero hred hzero
  refine ⟨zero, ?_⟩
  rcases prologue_appended parallelLoop s j with ⟨hfault, hstate⟩ | ⟨hprev, hfault, hrun⟩
  · have hprev : (createReductionPrologueStatements
        { parallelLoop with getNumberOfOpDatArgumentGroups := j } s).fault ≠ none := by
      intro hprev
      apply hfault
      rw [prologue_upTo] at hprev ⊢
      rcases hs : forEachArgumentGroup (createReductionPrologueStatements.body parallelLoop)
        j 1 s with ⟨s1, f1⟩
      rw [hs] at hprev
      simp only at hprev
      subst hprev
      rw [forEachArgumentGroup_snoc _ j 1 s s1 hs, Nat.add_comm 1 j, hbody]
    refine ⟨[], hkind.1, hkind.2.1, hkind.2.2, ?_, fun h => (hprev h).elim, ?_⟩
    · rw [hstate]
      simp
    · intro statement hmem
      simp at hmem
  · exact ⟨[_], hkind.1, hkind.2.1, hkind.2.2, by rw [hrun, hbody]; rfl, fun _ => rfl,
      fun statement hmem => by
        rw [List.mem_singleton] at hmem
        subst hmem
        exact ⟨fun h => ⟨_, _, _, by rw [if_pos h]⟩, fun h => by rw [if_neg (by simp [h])]⟩⟩

theorem zero_literal_matches_base_type_witness :
    (1 ≤ 1 ∧ 1 ≤ sampleArrayLoop.getNumberOfOpDatArgumentGroups) ∧
    sampleArrayLoop.isReductionRequired 1 = true ∧
    sampleArrayLoop.getOpDatBaseType 1 = .SgTypeDouble ∧
    ∃ (init test : SgStatement) (increment : SgExpression),
      (createReductionPrologueStatements sampleArrayLoop
        (Subroutine.new [])).state.subroutineScope =
        [.SgForStatement init test increment (.SgBasicBlock (.cons
          (.SgExprStatement (.SgAssignOp
            (.SgPntrArrRefExp (.SgVarRefExp (.getOpDatLocalName 1))
              (.SgVarRefExp (.getIterationCounterVariableName 1))) (.SgDoubleVal 0))) .nil))] := by
  obtain ⟨zero, appended, -, -, hd, h1, h2, h3⟩ := zero_literal_matches_base_type
    sampleArrayLoop (Subroutine.new []) 1 (by decide) (by decide) (Or.inr (Or.inr rfl))
  obtain ⟨rfl, -⟩ := hd rfl
  have hlen := h2 (by decide)
  obtain ⟨statement, rfl⟩ := List.length_eq_one.1 hlen
  obtain ⟨init, test, increment, rfl⟩ := (h3 statement (List.mem_singleton_self _)).1 (by decide)
  exact ⟨by decide, by decide, rfl, init, test, increment, h1⟩

/-! ## The declarations of a reducible argument -/

/-- The declaration body at a reducible argument group that is not a duplicate: the two
declarations it appends and registers. -/
theorem declarations_body_declares (parallelLoop : CPPParallelLoop) (i : Nat) (s : Subroutine)
    (hdup : parallelLoop.isDuplicateOpDat i = false)
    (hred : parallelLoop.isReductionRequired i = true) :
    createReductionVariableDeclarations.body parallelLoop i s =
      ⟨{ s with
          subroutineScope := s.subroutineScope ++
            [.SgDeclarationStatement ⟨.getOpDatLocalName i,
                .SgArrayType (parallelLoop.getOpDatBaseType i) (parallelLoop.getOpDatDimension i),
                .unspecified, .unspecified⟩,
              .SgDeclarationStatement ⟨.getTemporaryReductionArrayName i,
                .SgArrayType (parallelLoop.getOpDatBaseType i) 2048, .openclLocal,
                .unspecified⟩]
          variableDeclarations := s.variableDeclarations ++
            [(.getOpDatLocalName i, ⟨.getOpDatLocalName i,
                .SgArrayType (parallelLoop.getOpDatBaseType i) (parallelLoop.getOpDatDimension i),
                .unspecified, .unspecified⟩),
              (.getTemporaryReductionArrayName i, ⟨.getTemporaryReductionArrayName i,
                .SgArrayType (parallelLoop.getOpDatBaseType i) 2048, .openclLocal,
                .unspecified⟩)] }, none⟩ := by
  unfold createReductionVariableDeclarations.body
  simp [hdup, hred, appendVariableDeclaration, appendStatement, ScopedVariableDeclarations.add,
    setOpenclLocalOnLast, List.dropLast_append_of_ne_nil]

theorem declarations_body_fault (parallelLoop : CPPParallelLoop) (i : Nat) (s : Subroutine) :
    (createReductionVariableDeclarations.body parallelLoop i s).fault = none := by
  unfold createReductionVariableDeclarations.body
  repeat' split
  all_goals rfl

theorem declarations_body_extends (parallelLoop : CPPParallelLoop) (i : Nat) (s : Subroutine) :
    s.subroutineScope <+:
      (createReductionVariableDeclarations.body parallelLoop i s).state.subroutineScope := by
  by_cases hdup : parallelLoop.isDuplicateOpDat i = false
  · by_cases hred : parallelLoop.isReductionRequired i = true
    · rw [declarations_body_declares parallelLoop i s hdup hred]
      simp
    · simp [createReductionVariableDeclarations.body, hred]
  · simp [createReductionVariableDeclarations.body, hdup]

theorem forEachArgumentGroup_no_fault (body : Nat → Subroutine → Outcome)
    (hbody : ∀ i s, (body i s).fault = none) (count i : Nat) (s : Subroutine) :
    (forEachArgumentGroup body count i s).fault = none := by
  induction count generalizing i s with
  | zero => rfl
  | succ n ih =>
    rw [forEachArgumentGroup]
    rcases hb : body i s with ⟨s1, _ | f⟩
    · exact ih (i + 1) s1
    · have := hbody i s
      rw [hb] at this
      cases this

/-- C16: for an argument group `i` that is not a duplicate and requires a reduction, with base
type `T` and dimension `d`, `createReductionVariableDeclarations` appends for `i` exactly two
declarations, in this order: `opDatLocal_i` of type array of `T` with index `d`, whatever the
shape of the argument, and `reductionTemp_i` of type array of `T` with index 2048 carrying the
OpenCL local storage modifier; it enters both in the variable declarations under those names;
the builder never stops, and the declarations stay in the final scope.  For the one argument
of three doubles that is incremented, the scope holds an accumulator of 3 elements and a local
staging buffer of 2048. -/
theorem reducible_argument_two_declarations (parallelLoop : CPPParallelLoop) (s : Subroutine)
    (i : Nat) (hi : 1 ≤ i ∧ i ≤ parallelLoop.getNumberOfOpDatArgumentGroups)
    (hdup : parallelLoop.isDuplicateOpDat i = false)
    (hred : parallelLoop.isReductionRequired i = true) :
    ∃ accumulator staging : SgVariableDeclaration,
      accumulator = ⟨.getOpDatLocalName i,
        .SgArrayType (parallelLoop.getOpDatBaseType i) (parallelLoop.getOpDatDimension i),
        .unspecified, .unspecified⟩ ∧
      staging = ⟨.getTemporaryReductionArrayName i,
        .SgArrayType (parallelLoop.getOpDatBaseType i) 2048, .openclLocal, .unspecified⟩ ∧
      createReductionVariableDeclarations
          { parallelLoop with getNumberOfOpDatArgumentGroups := i } s =
        ⟨{ (createReductionVariableDeclarations
              { parallelLoop with getNumberOfOpDatArgumentGroups := i - 1 } s).state with
            subroutineScope := (createReductionVariableDeclarations
                { parallelLoop with getNumberOfOpDatArgumentGroups := i - 1 }
                s).state.subroutineScope ++
              [.SgDeclarationStatement accumulator, .SgDeclarationStatement staging]
            variableDeclarations := (createReductionVariableDeclarations
                { parallelLoop with getNumberOfOpDatArgumentGroups := i - 1 }
                s).state.variableDeclarations ++
              [(.getOpDatLocalName i, accumulator),
                (.getTemporaryReductionArrayName i, staging)] }, none⟩ ∧
      (createReductionVariableDeclarations
          { parallelLoop with getNumberOfOpDatArgumentGroups := i } s).state.subroutineScope <+:
        (createReductionVariableDeclarations parallelLoop s).state.subroutineScope ∧
      (createReductionVariableDeclarations parallelLoop s).fault = none ∧
      (createReductionVariableDeclarations sampleArrayLoop
          (Subroutine.new [])).state.subroutineScope =
        [.SgDeclarationStatement ⟨.getOpDatLocalName 1, .SgArrayType .SgTypeDouble 3,
            .unspecified, .unspecified⟩,
          .SgDeclarationStatement ⟨.getTemporaryReductionArrayName 1,
            .SgArrayType .SgTypeDouble 2048, .openclLocal, .unspecified⟩] := by
  obtain ⟨j, rfl⟩ : ∃ j, i = j + 1 := ⟨i - 1, by omega⟩
  refine ⟨_, _, rfl, rfl, ?_, ?_, ?_, by decide⟩
  · rw [declarations_upTo, declarations_upTo, Nat.add_sub_cancel]
    rcases hs : forEachArgumentGroup (createReductionVariableDeclarations.body parallelLoop)
      j 1 s with ⟨s1, f1⟩
    have hf := forEachArgumentGroup_no_fault _ (declarations_body_fault parallelLoop) j 1 s
    rw [hs] at hf
    simp only at hf
    subst hf
    rw [forEachArgumentGroup_snoc _ j 1 s s1 hs, Nat.add_comm 1 j,
      declarations_body_declares parallelLoop (j + 1) s1 hdup hred]
  · rw [declarations_upTo]
    exact forEachArgumentGroup_extends _ (declarations_body_extends parallelLoop) _ _ 1 s hi.2
  · exact forEachArgumentGroup_no_fault _ (declarations_body_fault parallelLoop) _ 1 s

theorem reducible_argument_two_declarations_witness :
    (1 ≤ 1 ∧ 1 ≤ sampleDuplicateLoop.getNumberOfOpDatArgumentGroups) ∧
    sampleDuplicateLoop.isDuplicateOpDat 1 = false ∧
    sampleDuplicateLoop.isReductionRequired 1 = true ∧
    (createReductionVariableDeclarations
      { sampleDuplicateLoop with getNumberOfOpDatArgumentGroups := 1 }
      (Subroutine.new [])).state.variableDeclarations =
      [(.getOpDatLocalName 1, ⟨.getOpDatLocalName 1, .SgArrayType .SgTypeFloat 2,
          .unspecified, .unspecified⟩),
        (.getTemporaryReductionArrayName 1, ⟨.getTemporaryReductionArrayName 1,
          .SgArrayType .SgTypeFloat 2048, .openclLocal, .unspecified⟩)] := by
  obtain ⟨accumulator, staging, rfl, rfl, h, -, -, -⟩ :=
    reducible_argument_two_declarations sampleDuplicateLoop (Subroutine.new []) 1 (by decide)
      (by decide) (by decide)
  refine ⟨by decide, by decide, by decide, ?_⟩
  rw [h]
  rfl

/-! ## Offsets of the work-groups -/

theorem offset_determines_group (d g1 g2 k1 k2 : Int) (hk1 : 0 ≤ k1 ∧ k1 < d)
    (hk2 : 0 ≤ k2 ∧ k2 < d) (h : g1 * d + k1 = g2 * d + k2) : g1 = g2 := by
  have hmul : ∀ a b : Int, a < b → (a + 1) * d ≤ b * d := fun a b hab =>
    Int.mul_le_mul_of_nonneg_right (by omega) (by omega)
  rcases lt_trichotomy g1 g2 with hlt | heq | hgt
  · have h1 := hmul g1 g2 hlt
    rw [Int.add_mul, Int.one_mul] at h1
    omega
  · exact heq
  · have h1 := hmul g2 g1 hgt
    rw [Int.add_mul, Int.one_mul] at h1
    omega

/-- C17: for a reducible array or pointer argument group `i` of dimension `d`, whatever the
epilogue appends for `i` is the counted loop around one call whose destination is an element of
`reductionArrayDevice_i`; evaluated by work-items of two different work-groups at counters in
`[0, d)` the destinations differ, so no element is the destination of two groups, and within
one work-group the offset `g * d + k` grows strictly with the counter `k`. -/
theorem array_destinations_do_not_collide (tags : ReductionTags)
    (reductionSubroutines : CPPReductionSubroutines) (uninitialised : Nat → Option Int)
    (parallelLoop : CPPParallelLoop) (s : Subroutine) (i : Nat)
    (hi : 1 ≤ i ∧ i ≤ parallelLoop.getNumberOfOpDatArgumentGroups)
    (hred : parallelLoop.isReductionRequired i = true)
    (hshape : (parallelLoop.isArray i || parallelLoop.isPointer i) = true) :
    ∃ (destination : SgExpression) (appended : List SgStatement),
      (createReductionEpilogueStatements tags reductionSubroutines uninitialised
          { parallelLoop with getNumberOfOpDatArgumentGroups := i } s).state.subroutineScope =
        (createReductionEpilogueStatements tags reductionSubroutines uninitialised
          { parallelLoop with getNumberOfOpDatArgumentGroups := i - 1 } s).state.subroutineScope
          ++ appended ∧
      ((createReductionEpilogueStatements tags reductionSubroutines uninitialised
          { parallelLoop with getNumberOfOpDatArgumentGroups := i } s).fault = none →
        appended.length = 1) ∧
      (∀ statement ∈ appended, ∃ (callee : SgFunctionSymbol) (others : SgExprListExp)
        (init test : SgStatement) (increment : SgExpression),
        statement = .SgForStatement init test increment (.SgBasicBlock (.cons (.SgExprStatement
          (.SgFunctionCallExp callee (.cons destination others))) .nil))) ∧
      (∀ (w1 w2 : WorkItem) (k1 k2 : Int),
        w1.integers (.getIterationCounterVariableName 1) = some k1 →
        w2.integers (.getIterationCounterVariableName 1) = some k2 →
        0 ≤ k1 ∧ k1 < (parallelLoop.getOpDatDimension i : Int) →
        0 ≤ k2 ∧ k2 < (parallelLoop.getOpDatDimension i : Int) →
        w1.workGroupId ≠ w2.workGroupId →
        evalArgument w1 destination ≠ evalArgument w2 destination) ∧
      ∀ (w1 w2 : WorkItem) (k1 k2 : Int),
        w1.integers (.getIterationCounterVariableName 1) = some k1 →
        w2.integers (.getIterationCounterVariableName 1) = some k2 →
        w1.workGroupId = w2.workGroupId → k1 < k2 →
        ∃ offset1 offset2 : Int,
          evalArgument w1 destination =
            .address (.element (.getReductionArrayDeviceName i) offset1) ∧
          evalArgument w2 destination =
            .address (.element (.getReductionArrayDeviceName i) offset2) ∧
          offset1 = w1.workGroupId * (parallelLoop.getOpDatDimension i : Int) + k1 ∧
          offset2 = w2.workGroupId * (parallelLoop.getOpDatDimension i : Int) + k2 ∧
          offset1 < offset2 := by
  obtain ⟨j, rfl⟩ : ∃ j, i = j + 1 := ⟨i - 1, by omega⟩
  have heval : ∀ (w : WorkItem) (k : Int),
      w.integers (.getIterationCounterVariableName 1) = some k →
      evalArgument w (.SgAddressOfOp (.SgPntrArrRefExp
        (.SgVarRefExp (.getReductionArrayDeviceName (j + 1)))
        (.SgAddOp (.SgVarRefExp (.getIterationCounterVariableName 1))
          (.SgMultiplyOp .getWorkGroupIDCall
            (.SgIntVal (parallelLoop.getOpDatDimension (j + 1))))))) =
        .address (.element (.getReductionArrayDeviceName (j + 1))
          (w.workGroupId * (parallelLoop.getOpDatDimension (j + 1) : Int) + k)) := by
    intro w k hk
    simp [evalArgument, evalLocation, evalInt, hk, Int.add_comm]
  have hdistinct : ∀ (w1 w2 : WorkItem) (k1 k2 : Int),
      w1.integers (.getIterationCounterVariableName 1) = some k1 →
      w2.integers (.getIterationCounterVariableName 1) = some k2 →
      0 ≤ k1 ∧ k1 < (parallelLoop.getOpDatDimension (j + 1) : Int) →
      0 ≤ k2 ∧ k2 < (parallelLoop.getOpDatDimension (j + 1) : Int) →
      w1.workGroupId ≠ w2.workGroupId →
      evalArgument w1 (.SgAddressOfOp (.SgPntrArrRefExp
        (.SgVarRefExp (.getReductionArrayDeviceName (j + 1)))
        (.SgAddOp (.SgVarRefExp (.getIterationCounterVariableName 1))
          (.SgMultiplyOp .getWorkGroupIDCall
            (.SgIntVal (parallelLoop.getOpDatDimension (j + 1))))))) ≠
      evalArgument w2 (.SgAddressOfOp (.SgPntrArrRefExp
        (.SgVarRefExp (.getReductionArrayDeviceName (j + 1)))
        (.SgAddOp (.SgVarRefExp (.getIterationCounterVariableName 1))
          (.SgMultiplyOp .getWorkGroupIDCall
            (.SgIntVal (parallelLoop.getOpDatDimension (j + 1))))))) := by
    intro w1 w2 k1 k2 hc1 hc2 hk1 hk2 hg heq
    rw [heval w1 k1 hc1, heval w2 k2 hc2] at heq
    simp only [Argument.address.injEq, Location.element.injEq, true_and] at heq
    exact hg (offset_determines_group _ _ _ _ _ hk1 hk2 heq)
  have hgrow : ∀ (w1 w2 : WorkItem) (k1 k2 : Int),
      w1.integers (.getIterationCounterVariableName 1) = some k1 →
      w2.integers (.getIterationCounterVariableName 1) = some k2 →
      w1.workGroupId = w2.workGroupId → k1 < k2 →
      ∃ offset1 offset2 : Int,
        evalArgument w1 (.SgAddressOfOp (.SgPntrArrRefExp
          (.SgVarRefExp (.getReductionArrayDeviceName (j + 1)))
          (.SgAddOp (.SgVarRefExp (.getIterationCounterVariableName 1))
            (.SgMultiplyOp .getWorkGroupIDCall
              (.SgIntVal (parallelLoop.getOpDatDimension (j + 1))))))) =
          .address (.element (.getReductionArrayDeviceName (j + 1)) offset1) ∧
        evalArgument w2 (.SgAddressOfOp (.SgPntrArrRefExp
          (.SgVarRefExp (.getReductionArrayDeviceName (j + 1)))
          (.SgAddOp (.SgVarRefExp (.getIterationCounterVariableName 1))
            (.SgMultiplyOp .getWorkGroupIDCall
              (.SgIntVal (parallelLoop.getOpDatDimension (j + 1))))))) =
          .address (.element (.getReductionArrayDeviceName (j + 1)) offset2) ∧
        offset1 = w1.workGroupId * (parallelLoop.getOpDatDimension (j + 1) : Int) + k1 ∧
        offset2 = w2.workGroupId * (parallelLoop.getOpDatDimension (j + 1) : Int) + k2 ∧
        offset1 < offset2 := by
    intro w1 w2 k1 k2 hc1 hc2 hg hk
    exact ⟨_, _, heval w1 k1 hc1, heval w2 k2 hc2, rfl, rfl, by rw [hg]; omega⟩
  rcases epilogue_appended tags reductionSubroutines uninitialised parallelLoop s j with
    ⟨hfault, hstate⟩ | ⟨hfault, hrun⟩
  · refine ⟨_, [], ?_, fun h => (hfault h).elim, ?_, hdistinct, hgrow⟩
    · rw [hstate]
      simp
    · intro statement hmem
      simp at hmem
  · have hbody := hfault
    rw [hrun] at hbody
    obtain ⟨tag, callee, -, -, hEstate⟩ := epilogue_body_array tags reductionSubroutines
      uninitialised parallelLoop (j + 1) _ hred hshape hbody
    exact ⟨_, [_], by rw [hrun, hEstate]; rfl, fun _ => rfl,
      fun statement hmem => by
        rw [List.mem_singleton] at hmem
        exact ⟨callee, _, _, _, _, hmem⟩,
      hdistinct, hgrow⟩

theorem array_destinations_do_not_collide_witness :
    (1 ≤ 1 ∧ 1 ≤ sampleArrayLoop.getNumberOfOpDatArgumentGroups) ∧
    sampleArrayLoop.isReductionRequired 1 = true ∧
    (sampleArrayLoop.isArray 1 || sampleArrayLoop.isPointer 1) = true ∧
    ∃ (destination : SgExpression) (callee : SgFunctionSymbol) (others : SgExprListExp)
      (init test : SgStatement) (increment : SgExpression),
      (createReductionEpilogueStatements sampleTags sampleRegistry (fun _ => none)
          sampleArrayLoop (Subroutine.new [])).state.subroutineScope =
        [.SgForStatement init test increment (.SgBasicBlock (.cons (.SgExprStatement
          (.SgFunctionCallExp callee (.cons destination others))) .nil))] ∧
      evalArgument { sampleWorkItem with integers := fun _ => some 2 } destination ≠
        evalArgument { sampleWorkItem with workGroupId := 4, integers := fun _ => some 0 }
          destination := by
  obtain ⟨destination, appended, h1, h2, h3, h4, -⟩ :=
    array_destinations_do_not_collide sampleTags sampleRegistry (fun _ => none)
      sampleArrayLoop (Subroutine.new []) 1 (by decide) (by decide) (by decide)
  have hlen := h2 (by decide)
  obtain ⟨statement, rfl⟩ := List.length_eq_one.1 hlen
  obtain ⟨callee, others, init, test, increment, rfl⟩ := h3 statement (List.mem_singleton_self _)
  exact ⟨by decide, by decide, by decide, destination, callee, others, init, test, increment, h1,
    h4 { sampleWorkItem with integers := fun _ => some 2 }
      { sampleWorkItem with workGroupId := 4, integers := fun _ => some 0 } 2 0 rfl rfl
      (by decide) (by decide) (by decide)⟩

/-! ## The length of the final name -/

/-- C18: the final name the constructor of `Subroutine` gives to a logical name is at most 20
characters long, and when the logical name is longer than 20 characters it is at most 11
characters long, the letter `s` and at most ten decimal digits. -/
theorem final_name_at_most_twenty (subroutineName : StdString) :
    (Subroutine.new subroutineName).getSubroutineName.length ≤ 20 ∧
    (subroutineName.length ≤ 20 ∨
      (Subroutine.new subroutineName).getSubroutineName.length ≤ 11 ∧
      (Subroutine.new subroutineName).getSubroutineName.length =
        1 + (lexical_cast (crc_32 subroutineName)).length ∧
      (lexical_cast (crc_32 subroutineName)).length ≤ 10) := by
  by_cases h : 20 < subroutineName.length
  · have hlen := lexical_cast_length _ (crc_32_lt subroutineName)
    rw [getSubroutineName_long _ h, List.length_cons]
    exact ⟨by omega, Or.inr ⟨by omega, by omega, hlen.2⟩⟩
  · rw [getSubroutineName_short _ (by omega)]
    exact ⟨by omega, Or.inl (by omega)⟩

/-! ## The formal parameters of the constants -/

theorem constants_body_appends (getOpConstDefinitionType : String → SgType)
    (variableName : String) (s : Subroutine) :
    createOpDeclConstFormalParameterDeclarations.body getOpConstDefinitionType variableName s =
      { s with
        formalParameters := s.formalParameters ++
          [⟨.constant variableName,
            .SgPointerType (if variableName = "qinf" then .SgTypeOpaqueNamed "float "
              else getOpConstDefinitionType variableName), .unspecified, .openclConstant⟩]
        variableDeclarations := s.variableDeclarations ++
          [(.constant variableName, ⟨.constant variableName,
            .SgPointerType (if variableName = "qinf" then .SgTypeOpaqueNamed "float "
              else getOpConstDefinitionType variableName), .unspecified, .openclConstant⟩)] } := by
  simp [createOpDeclConstFormalParameterDeclarations.body,
    appendVariableDeclarationAsFormalParameter, setOpenclConstantOnLast,
    ScopedVariableDeclarations.add, List.dropLast_append_of_ne_nil]

/-- C19: `createOpDeclConstFormalParameterDeclarations` appends to the formal parameters one
parameter for each constant referenced by the user subroutine, in the order of the references,
and nothing else: the parameter of a constant has the name of the constant, a pointer type,
to the opaque type `float ` for the constant `qinf` and to the declared type of the constant
otherwise, and the OpenCL constant storage modifier on its variable; the same declaration is
entered in the variable declarations under the name of the constant; the statements of the
scope and the name of the subroutine are left as they were. -/
theorem one_constant_parameter_per_reference (opConstReferences : List String)
    (getOpConstDefinitionType : String → SgType) (s : Subroutine) :
    (createOpDeclConstFormalParameterDeclarations opConstReferences getOpConstDefinitionType
        s).formalParameters =
      s.formalParameters ++ opConstReferences.map (fun variableName =>
        (⟨.constant variableName,
          .SgPointerType (if variableName = "qinf" then .SgTypeOpaqueNamed "float "
            else getOpConstDefinitionType variableName), .unspecified, .openclConstant⟩ :
          SgVariableDeclaration)) ∧
    (createOpDeclConstFormalParameterDeclarations opConstReferences getOpConstDefinitionType
        s).variableDeclarations =
      s.variableDeclarations ++ opConstReferences.map (fun variableName =>
        (VariableName.constant variableName,
          (⟨.constant variableName,
            .SgPointerType (if variableName = "qinf" then .SgTypeOpaqueNamed "float "
              else getOpConstDefinitionType variableName), .unspecified, .openclConstant⟩ :
            SgVariableDeclaration))) ∧
    (createOpDeclConstFormalParameterDeclarations opConstReferences getOpConstDefinitionType
        s).formalParameters.length = s.formalParameters.length + opConstReferences.length ∧
    (createOpDeclConstFormalParameterDeclarations opConstReferences getOpConstDefinitionType
        s).subroutineScope = s.subroutineScope ∧
    (createOpDeclConstFormalParameterDeclarations opConstReferences getOpConstDefinitionType
        s).subroutineName = s.subroutineName := by
  induction opConstReferences generalizing s with
  | nil => simp [createOpDeclConstFormalParameterDeclarations]
  | cons variableName rest ih =>
    have h := ih (createOpDeclConstFormalParameterDeclarations.body getOpConstDefinitionType
      variableName s)
    rw [constants_body_appends] at h
    simp only [createOpDeclConstFormalParameterDeclarations, List.foldl_cons] at h ⊢
    rw [constants_body_appends]
    obtain ⟨h1, h2, h3, h4, h5⟩ := h
    refine ⟨?_, ?_, ?_, h4, h5⟩
    · rw [h1]
      simp
    · rw [h2]
      simp
    · rw [h3]
      simp
      omega

/-! ## The selection of the combiner -/

theorem lookup_mem {α β : Type} [BEq α] [LawfulBEq α] (entries : List (α × β)) (key : α)
    (value : β) (h : entries.lookup key = some value) : (key, value) ∈ entries := by
  induction entries with
  | nil => simp at h
  | cons entry rest ih =>
    obtain ⟨a, b⟩ := entry
    rw [List.lookup_cons] at h
    by_cases hk : (key == a) = true
    · rw [hk] at h
      have ha : key = a := by simpa using hk
      simp only [Option.some.injEq] at h
      subst ha
      subst h
      exact List.mem_cons_self _ _
    · have hk2 : (key == a) = false := by simpa using hk
      rw [hk2] at h
      exact List.mem_cons_of_mem _ (ih h)

/-- In a registry that defines each combiner once, one handle is registered for one key. -/
theorem getHeader_injective (registry : ReductionCombinerRegistry)
    (honce : registry.definedOnce) (key1 key2 : Reduction) (callee : SgFunctionSymbol)
    (h1 : registry.getHeader key1 = some callee) (h2 : registry.getHeader key2 = some callee) :
    key1 = key2 := by
  have m1 := lookup_mem registry.entries key1 callee h1
  have m2 := lookup_mem registry.entries key2 callee h2
  have := List.inj_on_of_nodup_map honce m1 m2 rfl
  exact congrArg Prod.fst this

/-- What the epilogue appends for a reducible argument group `j + 1`, when it does not stop at
or before that group: one statement, calling the routine registered for the tuple. -/
theorem epilogue_called_routine (tags : ReductionTags)
    (reductionSubroutines : CPPReductionSubroutines) (uninitialised : Nat → Option Int)
    (parallelLoop : CPPParallelLoop) (s : Subroutine) (j : Nat)
    (hred : parallelLoop.isReductionRequired (j + 1) = true) :
    ∃ appended : List SgStatement,
      (createReductionEpilogueStatements tags reductionSubroutines uninitialised
          { parallelLoop with getNumberOfOpDatArgumentGroups := j + 1 } s).state.subroutineScope =
        (createReductionEpilogueStatements tags reductionSubroutines uninitialised
          { parallelLoop with getNumberOfOpDatArgumentGroups := j } s).state.subroutineScope
          ++ appended ∧
      ((createReductionEpilogueStatements tags reductionSubroutines uninitialised
          { parallelLoop with getNumberOfOpDatArgumentGroups := j + 1 } s).fault = none →
        appended.length = 1) ∧
      ∀ statement ∈ appended, ∃ callee : SgFunctionSymbol,
        calledRoutine statement = some callee ∧
        reductionSubroutines (parallelLoop.getReductionTuple (j + 1)) = some callee := by
  rcases epilogue_appended tags reductionSubroutines uninitialised parallelLoop s j with
    ⟨hfault, hstate⟩ | ⟨hfault, hrun⟩
  · refine ⟨[], ?_, fun h => (hfault h).elim, ?_⟩
    · rw [hstate]
      simp
    · intro statement hmem
      simp at hmem
  · have hbody := hfault
    rw [hrun] at hbody
    by_cases hshape : (parallelLoop.isArray (j + 1) || parallelLoop.isPointer (j + 1)) = true
    · obtain ⟨tag, callee, hcallee, -, hEstate⟩ := epilogue_body_array tags
        reductionSubroutines uninitialised parallelLoop (j + 1) _ hred hshape hbody
      exact ⟨[_], by rw [hrun, hEstate]; rfl, fun _ => rfl, fun statement hmem => by
        rw [List.mem_singleton] at hmem
        subst hmem
        exact ⟨callee, rfl, hcallee⟩⟩
    · have hshape2 : (parallelLoop.isArray (j + 1) || parallelLoop.isPointer (j + 1)) = false := by
        simpa using hshape
      obtain ⟨tag, callee, hcallee, -, hEstate⟩ := epilogue_body_scalar tags
        reductionSubroutines uninitialised parallelLoop (j + 1) _ hred hshape2 hbody
      exact ⟨[_], by rw [hrun, hEstate]; rfl, fun _ => rfl, fun statement hmem => by
        rw [List.mem_singleton] at hmem
        subst hmem
        exact ⟨callee, rfl, hcallee⟩⟩

/-- C20: let the registry define each combiner once, and let the tuple of a reducible argument
group be its base type with its reduction operator.  Then for two reducible argument groups `i`
and `j` of one descriptor, whatever their indices, dimensions and shapes, the routines called
by the statements the epilogue appends for them are the same routine exactly when the two
groups have the same base type and the same reduction operator; the epilogue appends one such
statement for a group whenever it does not stop at or before it. -/
theorem combiner_selected_by_type_and_operator (tags : ReductionTags)
    (registry : ReductionCombinerRegistry) (uninitialised : Nat → Option Int)
    (parallelLoop : CPPParallelLoop) (s : Subroutine) (i j : Nat)
    (operatori operatorj : ReductionOperator)
    (hi : 1 ≤ i ∧ i ≤ parallelLoop.getNumberOfOpDatArgumentGroups)
    (hj : 1 ≤ j ∧ j ≤ parallelLoop.getNumberOfOpDatArgumentGroups)
    (hredi : parallelLoop.isReductionRequired i = true)
    (hredj : parallelLoop.isReductionRequired j = true)
    (honce : registry.definedOnce)
    (hoperatori : reductionOperator parallelLoop i = some operatori)
    (hoperatorj : reductionOperator parallelLoop j = some operatorj)
    (htuplei : parallelLoop.getReductionTuple i = ⟨parallelLoop.getOpDatBaseType i, operatori⟩)
    (htuplej : parallelLoop.getReductionTuple j = ⟨parallelLoop.getOpDatBaseType j, operatorj⟩) :
    ∃ appendedi appendedj : List SgStatement,
      (createReductionEpilogueStatements tags registry.getHeader uninitialised
          { parallelLoop with getNumberOfOpDatArgumentGroups := i } s).state.subroutineScope =
        (createReductionEpilogueStatements tags registry.getHeader uninitialised
          { parallelLoop with getNumberOfOpDatArgumentGroups := i - 1 } s).state.subroutineScope
          ++ appendedi ∧
      (createReductionEpilogueStatements tags registry.getHeader uninitialised
          { parallelLoop with getNumberOfOpDatArgumentGroups := j } s).state.subroutineScope =
        (createReductionEpilogueStatements tags registry.getHeader uninitialised
          { parallelLoop with getNumberOfOpDatArgumentGroups := j - 1 } s).state.subroutineScope
          ++ appendedj ∧
      ((createReductionEpilogueStatements tags registry.getHeader uninitialised
          { parallelLoop with getNumberOfOpDatArgumentGroups := i } s).fault = none →
        appendedi.length = 1) ∧
      ((createReductionEpilogueStatements tags registry.getHeader uninitialised
          { parallelLoop with getNumberOfOpDatArgumentGroups := j } s).fault = none →
        appendedj.length = 1) ∧
      ∀ statementi ∈ appendedi, ∀ statementj ∈ appendedj,
        ∃ calleei calleej : SgFunctionSymbol,
          calledRoutine statementi = some calleei ∧
          calledRoutine statementj = some calleej ∧
          (calleei = calleej ↔
            parallelLoop.getOpDatBaseType i = parallelLoop.getOpDatBaseType j ∧
            operatori = operatorj) := by
  obtain ⟨i, rfl⟩ : ∃ k, i = k + 1 := ⟨i - 1, by omega⟩
  obtain ⟨j, rfl⟩ : ∃ k, j = k + 1 := ⟨j - 1, by omega⟩
  obtain ⟨appendedi, hi1, hi2, hi3⟩ := epilogue_called_routine tags registry.getHeader
    uninitialised parallelLoop s i hredi
  obtain ⟨appendedj, hj1, hj2, hj3⟩ := epilogue_called_routine tags registry.getHeader
    uninitialised parallelLoop s j hredj
  refine ⟨appendedi, appendedj, hi1, hj1, hi2, hj2, ?_⟩
  intro statementi hmemi statementj hmemj
  obtain ⟨calleei, hci, hri⟩ := hi3 statementi hmemi
  obtain ⟨calleej, hcj, hrj⟩ := hj3 statementj hmemj
  refine ⟨calleei, calleej, hci, hcj, ?_, ?_⟩
  · intro heq
    subst heq
    have hkey := getHeader_injective registry honce _ _ calleei hri hrj
    rw [htuplei, htuplej] at hkey
    simpa using hkey
  · rintro ⟨htype, hoperator⟩
    have hkey : parallelLoop.getReductionTuple (i + 1) =
        parallelLoop.getReductionTuple (j + 1) := by
      rw [htuplei, htuplej, htype, hoperator]
    rw [hkey, hrj] at hri
    exact (Option.some.inj hri).symm

theorem combiner_selected_by_type_and_operator_witness :
    (∃ statement1 statement2 statement3 : SgStatement,
      (createReductionEpilogueStatements sampleTags sampleCombinerRegistry.getHeader
        (fun _ => none) sampleThreeLoop (Subroutine.new [])).state.subroutineScope =
        [statement1, statement2, statement3] ∧
      calledRoutine statement1 = calledRoutine statement2 ∧
      calledRoutine statement2 ≠ calledRoutine statement3) := by
  have hsame := combiner_selected_by_type_and_operator sampleTags sampleCombinerRegistry
    (fun _ => none) sampleThreeLoop (Subroutine.new []) 1 2 .increment .increment
    (by decide) (by decide) (by decide) (by decide) (by decide) (by decide) (by decide)
    (by decide) (by decide)
  have hother := combiner_selected_by_type_and_operator sampleTags sampleCombinerRegistry
    (fun _ => none) sampleThreeLoop (Subroutine.new []) 2 3 .increment .maximum
    (by decide) (by decide) (by decide) (by decide) (by decide) (by decide) (by decide)
    (by decide) (by decide)
  obtain ⟨a1, a2, h1, h2, l1, l2, hsel⟩ := hsame
  obtain ⟨b2, b3, g2, g3, m2, m3, hsel2⟩ := hother
  obtain ⟨statement1, rfl⟩ := List.length_eq_one.1 (l1 (by decide))
  obtain ⟨statement2, rfl⟩ := List.length_eq_one.1 (l2 (by decide))
  obtain ⟨statement2b, rfl⟩ := List.length_eq_one.1 (m2 (by decide))
  obtain ⟨statement3, rfl⟩ := List.length_eq_one.1 (m3 (by decide))
  have e2 : statement2b = statement2 := by
    rw [h2] at g2
    simpa using g2.symm
  subst e2
  obtain ⟨c1, c2, hc1, hc2, hiff⟩ := hsel statement1 (List.mem_singleton_self _)
    statement2b (List.mem_singleton_self _)
  obtain ⟨d2, d3, hd2, hd3, hiff2⟩ := hsel2 statement2b (List.mem_singleton_self _)
    statement3 (List.mem_singleton_self _)
  refine ⟨statement1, statement2b, statement3, ?_, ?_, ?_⟩
  · have e3 : (createReductionEpilogueStatements sampleTags sampleCombinerRegistry.getHeader
        (fun _ => none) sampleThreeLoop (Subroutine.new [])).state.subroutineScope =
        (createReductionEpilogueStatements sampleTags sampleCombinerRegistry.getHeader
          (fun _ => none) { sampleThreeLoop with getNumberOfOpDatArgumentGroups := 3 }
          (Subroutine.new [])).state.subroutineScope := rfl
    have e0 : (createReductionEpilogueStatements sampleTags sampleCombinerRegistry.getHeader
        (fun _ => none) { sampleThreeLoop with getNumberOfOpDatArgumentGroups := 1 - 1 }
        (Subroutine.new [])).state.subroutineScope = [] := by decide
    rw [e3, g3, h2, h1, e0]
    rfl
  · rw [hc1, hc2, hiff.2 ⟨rfl, rfl⟩]
  · rw [hd2, hd3]
    intro h
    have := (hiff2.1 (Option.some.inj h)).2
    cases this

/-! ## The statements of all the argument groups -/

/-- A loop over the argument groups whose body appends one statement at the groups selected by
`p`, and nothing at the others, appends the statements of the selected groups in ascending
order and does not stop. -/
theorem forEachArgumentGroup_appends (body : Nat → Subroutine → Outcome) (p : Nat → Bool)
    (f : Nat → SgStatement) (count start : Nat) (s : Subroutine)
    (hbody : ∀ i, start ≤ i → i < start + count → ∀ s1,
      body i s1 = if p i = true then ⟨appendStatement (f i) s1, none⟩ else ⟨s1, none⟩) :
    forEachArgumentGroup body count start s =
      ⟨{ s with subroutineScope := s.subroutineScope ++
          ((List.range' start count).filter p).map f }, none⟩ := by
  induction count generalizing start s with
  | zero => simp [forEachArgumentGroup]
  | succ n ih =>
    rw [forEachArgumentGroup, hbody start (Nat.le_refl _) (by omega) s]
    have hrest : ∀ i, start + 1 ≤ i → i < start + 1 + n → ∀ s1,
        body i s1 = if p i = true then ⟨appendStatement (f i) s1, none⟩ else ⟨s1, none⟩ :=
      fun i h1 h2 s1 => hbody i (by omega) (by omega) s1
    by_cases hp : p start = true
    · simp only [hp, if_true]
      rw [ih (start + 1) (appendStatement (f start) s) hrest]
      simp [List.range'_succ, List.filter_cons, hp, appendStatement]
    · have hp2 : p start = false := by simpa using hp
      simp only [hp2, Bool.false_eq_true, if_false]
      rw [ih (start + 1) s hrest]
      simp [List.range'_succ, List.filter_cons, hp2]

/-- The epilogue body at a reducible argument group with one of the three operators and a
registered combiner appends one statement and does not stop. -/
theorem epilogue_body_known (tags : ReductionTags)
    (reductionSubroutines : CPPReductionSubroutines) (uninitialised : Nat → Option Int)
    (parallelLoop : CPPParallelLoop) (i : Nat) (s : Subroutine) (callee : SgFunctionSymbol)
    (hred : parallelLoop.isReductionRequired i = true)
    (hknown : (parallelLoop.isIncremented i || parallelLoop.isMaximised i ||
      parallelLoop.isMinimised i) = true)
    (hcallee : reductionSubroutines (parallelLoop.getReductionTuple i) = some callee) :
    createReductionEpilogueStatements.body tags reductionSubroutines uninitialised
        parallelLoop i s =
      ⟨appendStatement
        (if (parallelLoop.isArray i || parallelLoop.isPointer i) = true then
          .SgForStatement
            (.SgExprStatement (.SgAssignOp (.SgVarRefExp (.getIterationCounterVariableName 1))
              (.SgIntVal 0)))
            (.SgExprStatement (.SgLessThanOp (.SgVarRefExp (.getIterationCounterVariableName 1))
              (.SgIntVal (parallelLoop.getOpDatDimension i))))
            (.SgPlusPlusOp (.SgVarRefExp (.getIterationCounterVariableName 1)))
            (.SgBasicBlock (.cons (.SgExprStatement (.SgFunctionCallExp callee
              (.cons (.SgAddressOfOp (.SgPntrArrRefExp
                  (.SgVarRefExp (.getReductionArrayDeviceName i))
                  (.SgAddOp (.SgVarRefExp (.getIterationCounterVariableName 1))
                    (.SgMultiplyOp .getWorkGroupIDCall
                      (.SgIntVal (parallelLoop.getOpDatDimension i))))))
                (.cons (.SgPntrArrRefExp (.SgVarRefExp (.getOpDatLocalName i))
                    (.SgVarRefExp (.getIterationCounterVariableName 1)))
                  (.cons (.SgIntVal (if parallelLoop.isIncremented i = true then tags.INCREMENT
                      else if parallelLoop.isMaximised i = true then tags.MAXIMUM
                      else tags.MINIMUM))
                    (.cons (.SgVarRefExp (.getTemporaryReductionArrayName i)) .nil)))))) .nil))
        else .SgExprStatement (.SgFunctionCallExp callee
          (.cons (.SgAddressOfOp (.SgPntrArrRefExp
              (.SgVarRefExp (.getReductionArrayDeviceName i))
              (.SgMultiplyOp .getGlobalWorkItemIDCall
                (.SgIntVal (parallelLoop.getOpDatDimension i)))))
            (.cons (.SgVarRefExp (.getOpDatLocalName i))
              (.cons (.SgIntVal (if parallelLoop.isIncremented i = true then tags.INCREMENT
                  else if parallelLoop.isMaximised i = true then tags.MAXIMUM
                  else tags.MINIMUM))
                (.cons (.SgVarRefExp (.getTemporaryReductionArrayName i)) .nil)))))) s,
        none⟩ := by
  unfold createReductionEpilogueStatements.body
  by_cases hshape : (parallelLoop.isArray i || parallelLoop.isPointer i) = true
  · by_cases h1 : parallelLoop.isIncremented i = true
    · simp [hred, hshape, h1, hcallee, SgStatementList.append, buildExprListExp, getReference,
        buildCountedLoop]
    · by_cases h2 : parallelLoop.isMaximised i = true
      · simp [hred, hshape, h1, h2, hcallee, SgStatementList.append, buildExprListExp,
          getReference, buildCountedLoop]
      · have h3 : parallelLoop.isMinimised i = true := by simpa [h1, h2] using hknown
        simp [hred, hshape, h1, h2, h3, hcallee, SgStatementList.append, buildExprListExp,
          getReference, buildCountedLoop]
  · by_cases h1 : parallelLoop.isIncremented i = true
    · simp [hred, hshape, h1, hcallee, buildExprListExp, getReference]
    · by_cases h2 : parallelLoop.isMaximised i = true
      · simp [hred, hshape, h1, h2, hcallee, buildExprListExp, getReference]
      · have h3 : parallelLoop.isMinimised i = true := by simpa [h1, h2] using hknown
        simp [hred, hshape, h1, h2, h3, hcallee, buildExprListExp, getReference]

theorem prologue_body_not_required (parallelLoop : CPPParallelLoop) (i : Nat) (s : Subroutine)
    (hred : parallelLoop.isReductionRequired i = false) :
    createReductionPrologueStatements.body parallelLoop i s = ⟨s, none⟩ := by
  simp [createReductionPrologueStatements.body, hred]

theorem epilogue_body_not_required (tags : ReductionTags)
    (reductionSubroutines : CPPReductionSubroutines) (uninitialised : Nat → Option Int)
    (parallelLoop : CPPParallelLoop) (i : Nat) (s : Subroutine)
    (hred : parallelLoop.isReductionRequired i = false) :
    createReductionEpilogueStatements.body tags reductionSubroutines uninitialised
      parallelLoop i s = ⟨s, none⟩ := by
  simp [createReductionEpilogueStatements.body, hred]

/-- The run of the declaration builder over `count` argument groups from `start`: two
declarations for each group that is not a duplicate and requires a reduction, in ascending
order, each entered under its name. -/
theorem declarations_run (parallelLoop : CPPParallelLoop) (count start : Nat) (s : Subroutine) :
    forEachArgumentGroup (createReductionVariableDeclarations.body parallelLoop) count start s =
      ⟨{ s with
          subroutineScope := s.subroutineScope ++
            (((List.range' start count).filter (fun i =>
                !parallelLoop.isDuplicateOpDat i && parallelLoop.isReductionRequired i)).flatMap
              (fun i => ([⟨.getOpDatLocalName i,
                  .SgArrayType (parallelLoop.getOpDatBaseType i)
                    (parallelLoop.getOpDatDimension i), .unspecified, .unspecified⟩,
                ⟨.getTemporaryReductionArrayName i,
                  .SgArrayType (parallelLoop.getOpDatBaseType i) 2048, .openclLocal,
                  .unspecified⟩] : List SgVariableDeclaration))).map
              SgStatement.SgDeclarationStatement
          variableDeclarations := s.variableDeclarations ++
            (((List.range' start count).filter (fun i =>
                !parallelLoop.isDuplicateOpDat i && parallelLoop.isReductionRequired i)).flatMap
              (fun i => ([⟨.getOpDatLocalName i,
                  .SgArrayType (parallelLoop.getOpDatBaseType i)
                    (parallelLoop.getOpDatDimension i), .unspecified, .unspecified⟩,
                ⟨.getTemporaryReductionArrayName i,
                  .SgArrayType (parallelLoop.getOpDatBaseType i) 2048, .openclLocal,
                  .unspecified⟩] : List SgVariableDeclaration))).map
              (fun declaration => (declaration.name, declaration)) }, none⟩ := by
  induction count generalizing start s with
  | zero => simp [forEachArgumentGroup]
  | succ n ih =>
    rw [forEachArgumentGroup]
    by_cases hdup : parallelLoop.isDuplicateOpDat start = false
    · by_cases hred : parallelLoop.isReductionRequired start = true
      · rw [declarations_body_declares parallelLoop start s hdup hred]
        simp only
        rw [ih]
        simp [List.range'_succ, List.filter_cons, hdup, hred, List.flatMap_cons]
      · have hb : createReductionVariableDeclarations.body parallelLoop start s = ⟨s, none⟩ := by
          simp [createReductionVariableDeclarations.body, hred]
        rw [hb]
        simp only
        rw [ih]
        simp [List.range'_succ, List.filter_cons, hdup, hred]
    · have hb : createReductionVariableDeclarations.body parallelLoop start s = ⟨s, none⟩ := by
        simp [createReductionVariableDeclarations.body, hdup]
      rw [hb]
      simp only
      rw [ih]
      simp [List.range'_succ, List.filter_cons, hdup]

theorem length_flatMap_pair {α β : Type} (l : List α) (a b : α → β) :
    (l.flatMap (fun i => [a i, b i])).length = 2 * l.length := by
  induction l with
  | nil => rfl
  | cons x rest ih =>
    rw [List.flatMap_cons, List.length_append, ih]
    simp only [List.length_cons, List.length_nil]
    omega

/-- C21, refuted as stated: the one argument group of the descriptor is a reducible integer
scalar that is maximised, so its base type is supported and its operator is known; with a
registry that has no combiner for its tuple the epilogue stops at the failed assertion on the
function symbol and has appended no statement, although one argument requires a reduction. -/
theorem unregistered_combiner_appends_no_statement :
    (∀ i ∈ reducibleGroups sampleScalarLoop,
      (sampleScalarLoop.getOpDatBaseType i = .SgTypeInt ∨
        sampleScalarLoop.getOpDatBaseType i = .SgTypeFloat ∨
        sampleScalarLoop.getOpDatBaseType i = .SgTypeDouble) ∧
      (sampleScalarLoop.isIncremented i || sampleScalarLoop.isMaximised i ||
        sampleScalarLoop.isMinimised i) = true) ∧
    reducibleGroups sampleScalarLoop = [1] ∧
    createReductionEpilogueStatements sampleTags sampleEmptyRegistry (fun _ => none)
        sampleScalarLoop (Subroutine.new []) =
      ⟨Subroutine.new [], some .assertionFailure⟩ ∧
    (createReductionEpilogueStatements sampleTags sampleEmptyRegistry (fun _ => none)
        sampleScalarLoop (Subroutine.new [])).state.subroutineScope.length ≠
      (reducibleGroups sampleScalarLoop).length := by
  decide

/-- Under the supported base types, the statement the prologue body appends at each reducible
argument group, and its reference to the accumulator of the group. -/
theorem prologue_statement_exists (parallelLoop : CPPParallelLoop)
    (hsupported : ∀ i ∈ reducibleGroups parallelLoop,
      parallelLoop.getOpDatBaseType i = .SgTypeInt ∨
      parallelLoop.getOpDatBaseType i = .SgTypeFloat ∨
      parallelLoop.getOpDatBaseType i = .SgTypeDouble) :
    ∃ prologue : Nat → SgStatement, ∀ i ∈ reducibleGroups parallelLoop,
      (∀ s1 : Subroutine, createReductionPrologueStatements.body parallelLoop i s1 =
        ⟨appendStatement (prologue i) s1, none⟩) ∧
      SgStatement.references (.getOpDatLocalName i) (prologue i) = true := by
  refine ⟨fun i =>
    if (parallelLoop.isArray i || parallelLoop.isPointer i) = true then
      .SgForStatement
        (.SgExprStatement (.SgAssignOp (.SgVarRefExp (.getIterationCounterVariableName 1))
          (.SgIntVal 0)))
        (.SgExprStatement (.SgLessThanOp
          (.SgVarRefExp (.getIterationCounterVariableName 1))
          (.SgIntVal (parallelLoop.getOpDatDimension i))))
        (.SgPlusPlusOp (.SgVarRefExp (.getIterationCounterVariableName 1)))
        (.SgBasicBlock (.cons (.SgExprStatement (.SgAssignOp
          (.SgPntrArrRefExp (.SgVarRefExp (.getOpDatLocalName i))
            (.SgVarRefExp (.getIterationCounterVariableName 1)))
          (if isSgTypeInt (parallelLoop.getOpDatBaseType i) = true then .SgIntVal 0
            else if isSgTypeFloat (parallelLoop.getOpDatBaseType i) = true then
              .SgFloatVal 0
            else .SgDoubleVal 0))) .nil))
    else .SgExprStatement (.SgAssignOp (.SgVarRefExp (.getOpDatLocalName i))
      (if isSgTypeInt (parallelLoop.getOpDatBaseType i) = true then .SgIntVal 0
        else if isSgTypeFloat (parallelLoop.getOpDatBaseType i) = true then .SgFloatVal 0
        else .SgDoubleVal 0)), fun i hi => ⟨fun s1 => ?_, ?_⟩⟩
  · apply prologue_body_supported parallelLoop i s1 _ (List.mem_filter.1 hi).2
    rcases hsupported i hi with ht | ht | ht
    · exact Or.inl ⟨ht, by simp [ht, isSgTypeInt]⟩
    · exact Or.inr (Or.inl ⟨ht, by simp [ht, isSgTypeInt, isSgTypeFloat]⟩)
    · exact Or.inr (Or.inr ⟨ht, by simp [ht, isSgTypeInt, isSgTypeFloat]⟩)
  · by_cases hshape : (parallelLoop.isArray i || parallelLoop.isPointer i) = true
    · simp only [hshape, if_true]
      simp [SgStatement.references, SgStatementList.references, SgExpression.occurs]
    · simp only [hshape, if_false]
      simp [SgStatement.references, SgExpression.occurs]

/-- With known operators and registered combiners, the statement the epilogue body appends at
each reducible argument group, and its references to the accumulator and to the staging buffer
of the group. -/
theorem epilogue_statement_exists (tags : ReductionTags)
    (reductionSubroutines : CPPReductionSubroutines) (uninitialised : Nat → Option Int)
    (parallelLoop : CPPParallelLoop)
    (hknown : ∀ i ∈ reducibleGroups parallelLoop,
      (parallelLoop.isIncremented i || parallelLoop.isMaximised i ||
        parallelLoop.isMinimised i) = true)
    (hregistered : ∀ i ∈ reducibleGroups parallelLoop,
      (reductionSubroutines (parallelLoop.getReductionTuple i)).isSome = true) :
    ∃ epilogue : Nat → SgStatement, ∀ i ∈ reducibleGroups parallelLoop,
      (∀ s1 : Subroutine, createReductionEpilogueStatements.body tags reductionSubroutines
        uninitialised parallelLoop i s1 = ⟨appendStatement (epilogue i) s1, none⟩) ∧
      SgStatement.references (.getOpDatLocalName i) (epilogue i) = true ∧
      SgStatement.references (.getTemporaryReductionArrayName i) (epilogue i) = true := by
  refine ⟨fun i =>
    if (parallelLoop.isArray i || parallelLoop.isPointer i) = true then
      .SgForStatement
        (.SgExprStatement (.SgAssignOp (.SgVarRefExp (.getIterationCounterVariableName 1))
          (.SgIntVal 0)))
        (.SgExprStatement (.SgLessThanOp (.SgVarRefExp (.getIterationCounterVariableName 1))
          (.SgIntVal (parallelLoop.getOpDatDimension i))))
        (.SgPlusPlusOp (.SgVarRefExp (.getIterationCounterVariableName 1)))
        (.SgBasicBlock (.cons (.SgExprStatement (.SgFunctionCallExp
          ((reductionSubroutines (parallelLoop.getReductionTuple i)).getD ⟨""⟩)
          (.cons (.SgAddressOfOp (.SgPntrArrRefExp
              (.SgVarRefExp (.getReductionArrayDeviceName i))
              (.SgAddOp (.SgVarRefExp (.getIterationCounterVariableName 1))
                (.SgMultiplyOp .getWorkGroupIDCall
                  (.SgIntVal (parallelLoop.getOpDatDimension i))))))
            (.cons (.SgPntrArrRefExp (.SgVarRefExp (.getOpDatLocalName i))
                (.SgVarRefExp (.getIterationCounterVariableName 1)))
              (.cons (.SgIntVal (if parallelLoop.isIncremented i = true then tags.INCREMENT
                  else if parallelLoop.isMaximised i = true then tags.MAXIMUM
                  else tags.MINIMUM))
                (.cons (.SgVarRefExp (.getTemporaryReductionArrayName i)) .nil)))))) .nil))
    else .SgExprStatement (.SgFunctionCallExp
      ((reductionSubroutines (parallelLoop.getReductionTuple i)).getD ⟨""⟩)
      (.cons (.SgAddressOfOp (.SgPntrArrRefExp
          (.SgVarRefExp (.getReductionArrayDeviceName i))
          (.SgMultiplyOp .getGlobalWorkItemIDCall
            (.SgIntVal (parallelLoop.getOpDatDimension i)))))
        (.cons (.SgVarRefExp (.getOpDatLocalName i))
          (.cons (.SgIntVal (if parallelLoop.isIncremented i = true then tags.INCREMENT
              else if parallelLoop.isMaximised i = true then tags.MAXIMUM
              else tags.MINIMUM))
            (.cons (.SgVarRefExp (.getTemporaryReductionArrayName i)) .nil))))),
    fun i hi => ⟨fun s1 => ?_, ?_, ?_⟩⟩
  · exact epilogue_body_known tags reductionSubroutines uninitialised parallelLoop i s1
      ((reductionSubroutines (parallelLoop.getReductionTuple i)).getD ⟨""⟩)
      (List.mem_filter.1 hi).2 (hknown i hi) (by
        obtain ⟨callee, hc⟩ := Option.isSome_iff_exists.1 (hregistered i hi)
        rw [hc]
        rfl)
  · by_cases hshape : (parallelLoop.isArray i || parallelLoop.isPointer i) = true
    · simp only [hshape, if_true]
      simp [SgStatement.references, SgStatementList.references, SgExpression.occurs,
        SgExprListExp.occurs]
    · simp only [hshape, if_false]
      simp [SgStatement.references, SgExpression.occurs, SgExprListExp.occurs]
  · by_cases hshape : (parallelLoop.isArray i || parallelLoop.isPointer i) = true
    · simp only [hshape, if_true]
      simp [SgStatement.references, SgStatementList.references, SgExpression.occurs,
        SgExprListExp.occurs]
    · simp only [hshape, if_false]
      simp [SgStatement.references, SgExpression.occurs, SgExprListExp.occurs]

/-- C21, amended: let every argument group of the descriptor that requires a reduction have
the base type `int`, `float` or `double`, one of the three operators, and a combiner registered
for its tuple.  Then `createReductionPrologueStatements` and
`createReductionEpilogueStatements` do not stop and each appends exactly one statement for
each argument group that requires a reduction, in ascending order of the index, the statement
for `i` being the one the loop body appends at `i`; duplicates are counted, as neither builder
tests `isDuplicateOpDat`.  `createReductionVariableDeclarations` appends and enters exactly two
declarations for each argument group that requires a reduction and is not a duplicate.  So for
a duplicate `i` that requires a reduction, the statement of the prologue refers to
`opDatLocal_i` and the statement of the epilogue refers to `opDatLocal_i` and to
`reductionTemp_i`, while no declaration made by the declaration builder has either name. -/
theorem statements_follow_reducible_groups (tags : ReductionTags)
    (reductionSubroutines : CPPReductionSubroutines) (uninitialised : Nat → Option Int)
    (parallelLoop : CPPParallelLoop) (s : Subroutine)
    (hsupported : ∀ i ∈ reducibleGroups parallelLoop,
      parallelLoop.getOpDatBaseType i = .SgTypeInt ∨
      parallelLoop.getOpDatBaseType i = .SgTypeFloat ∨
      parallelLoop.getOpDatBaseType i = .SgTypeDouble)
    (hknown : ∀ i ∈ reducibleGroups parallelLoop,
      (parallelLoop.isIncremented i || parallelLoop.isMaximised i ||
        parallelLoop.isMinimised i) = true)
    (hregistered : ∀ i ∈ reducibleGroups parallelLoop,
      (reductionSubroutines (parallelLoop.getReductionTuple i)).isSome = true) :
    ∃ (prologue epilogue : Nat → SgStatement) (declarations : List SgVariableDeclaration),
      createReductionPrologueStatements parallelLoop s =
        ⟨{ s with subroutineScope := s.subroutineScope ++
            (reducibleGroups parallelLoop).map prologue }, none⟩ ∧
      createReductionEpilogueStatements tags reductionSubroutines uninitialised parallelLoop s =
        ⟨{ s with subroutineScope := s.subroutineScope ++
            (reducibleGroups parallelLoop).map epilogue }, none⟩ ∧
      (∀ i ∈ reducibleGroups parallelLoop, ∀ s1 : Subroutine,
        createReductionPrologueStatements.body parallelLoop i s1 =
          ⟨appendStatement (prologue i) s1, none⟩ ∧
        createReductionEpilogueStatements.body tags reductionSubroutines uninitialised
          parallelLoop i s1 = ⟨appendStatement (epilogue i) s1, none⟩) ∧
      declarations =
        ((reducibleGroups parallelLoop).filter
          (fun i => !parallelLoop.isDuplicateOpDat i)).flatMap
          (fun i => [⟨.getOpDatLocalName i,
              .SgArrayType (parallelLoop.getOpDatBaseType i) (parallelLoop.getOpDatDimension i),
              .unspecified, .unspecified⟩,
            ⟨.getTemporaryReductionArrayName i,
              .SgArrayType (parallelLoop.getOpDatBaseType i) 2048, .openclLocal,
              .unspecified⟩]) ∧
      createReductionVariableDeclarations parallelLoop s =
        ⟨{ s with
            subroutineScope := s.subroutineScope ++
              declarations.map SgStatement.SgDeclarationStatement
            variableDeclarations := s.variableDeclarations ++
              declarations.map (fun declaration => (declaration.name, declaration)) },
          none⟩ ∧
      (createReductionPrologueStatements parallelLoop s).state.subroutineScope.length =
        s.subroutineScope.length + (reducibleGroups parallelLoop).length ∧
      (createReductionEpilogueStatements tags reductionSubroutines uninitialised parallelLoop
          s).state.subroutineScope.length =
        s.subroutineScope.length + (reducibleGroups parallelLoop).length ∧
      (createReductionVariableDeclarations parallelLoop s).state.subroutineScope.length =
        s.subroutineScope.length + 2 * ((reducibleGroups parallelLoop).filter
          (fun i => !parallelLoop.isDuplicateOpDat i)).length ∧
      ∀ i ∈ reducibleGroups parallelLoop,
        SgStatement.references (.getOpDatLocalName i) (prologue i) = true ∧
        SgStatement.references (.getOpDatLocalName i) (epilogue i) = true ∧
        SgStatement.references (.getTemporaryReductionArrayName i) (epilogue i) = true ∧
        (parallelLoop.isDuplicateOpDat i = true →
          ∀ declaration ∈ declarations,
            declaration.name ≠ .getOpDatLocalName i ∧
            declaration.name ≠ .getTemporaryReductionArrayName i) := by
  obtain ⟨prologue, hP⟩ := prologue_statement_exists parallelLoop hsupported
  obtain ⟨epilogue, hE⟩ := epilogue_statement_exists tags reductionSubroutines uninitialised
    parallelLoop hknown hregistered
  have hmem : ∀ i, 1 ≤ i → i < 1 + parallelLoop.getNumberOfOpDatArgumentGroups →
      parallelLoop.isReductionRequired i = true → i ∈ reducibleGroups parallelLoop := by
    intro i h1 h2 hred
    exact List.mem_filter.2 ⟨List.mem_range'_1.2 ⟨h1, h2⟩, hred⟩
  have hPrun : createReductionPrologueStatements parallelLoop s =
      ⟨{ s with subroutineScope := s.subroutineScope ++
          (reducibleGroups parallelLoop).map prologue }, none⟩ := by
    apply forEachArgumentGroup_appends _ parallelLoop.isReductionRequired
    intro i h1 h2 s1
    by_cases hred : parallelLoop.isReductionRequired i = true
    · rw [(hP i (hmem i h1 h2 hred)).1 s1]
      simp [hred]
    · have hred2 : parallelLoop.isReductionRequired i = false := by simpa using hred
      rw [prologue_body_not_required parallelLoop i s1 hred2]
      simp [hred2]
  have hErun : createReductionEpilogueStatements tags reductionSubroutines uninitialised
      parallelLoop s =
      ⟨{ s with subroutineScope := s.subroutineScope ++
          (reducibleGroups parallelLoop).map epilogue }, none⟩ := by
    apply forEachArgumentGroup_appends _ parallelLoop.isReductionRequired
    intro i h1 h2 s1
    by_cases hred : parallelLoop.isReductionRequired i = true
    · rw [(hE i (hmem i h1 h2 hred)).1 s1]
      simp [hred]
    · have hred2 : parallelLoop.isReductionRequired i = false := by simpa using hred
      rw [epilogue_body_not_required tags reductionSubroutines uninitialised parallelLoop i s1
        hred2]
      simp [hred2]
  have hD := declarations_run parallelLoop parallelLoop.getNumberOfOpDatArgumentGroups 1 s
  rw [← List.filter_filter] at hD
  refine ⟨prologue, epilogue, _, hPrun, hErun, fun i hi s1 => ⟨(hP i hi).1 s1, (hE i hi).1 s1⟩,
    rfl, hD, ?_, ?_, ?_, ?_⟩
  · rw [hPrun]
    simp
  · rw [hErun]
    simp
  · rw [show createReductionVariableDeclarations parallelLoop s = _ from hD]
    simp only [List.length_append, List.length_map]
    rw [length_flatMap_pair]
    rfl
  · intro i hi
    refine ⟨(hP i hi).2, (hE i hi).2.1, (hE i hi).2.2, ?_⟩
    intro hdup declaration hdecl
    obtain ⟨j, hj, hdj⟩ := List.mem_flatMap.1 hdecl
    have hjdup : parallelLoop.isDuplicateOpDat j = false := by
      simpa using (List.mem_filter.1 hj).2
    have hne : j ≠ i := by
      rintro rfl
      rw [hdup] at hjdup
      cases hjdup
    simp only [List.mem_cons, List.mem_singleton, List.not_mem_nil, or_false] at hdj
    rcases hdj with rfl | rfl
    · exact ⟨by simpa using hne, by simp⟩
    · exact ⟨by simp, by simpa using hne⟩

theorem statements_follow_reducible_groups_witness :
    (∀ i ∈ reducibleGroups sampleDuplicateLoop,
      sampleDuplicateLoop.getOpDatBaseType i = .SgTypeInt ∨
      sampleDuplicateLoop.getOpDatBaseType i = .SgTypeFloat ∨
      sampleDuplicateLoop.getOpDatBaseType i = .SgTypeDouble) ∧
    (∀ i ∈ reducibleGroups sampleDuplicateLoop,
      (sampleDuplicateLoop.isIncremented i || sampleDuplicateLoop.isMaximised i ||
        sampleDuplicateLoop.isMinimised i) = true) ∧
    (∀ i ∈ reducibleGroups sampleDuplicateLoop,
      (sampleRegistry (sampleDuplicateLoop.getReductionTuple i)).isSome = true) ∧
    sampleDuplicateLoop.isDuplicateOpDat 2 = true ∧
    (createReductionPrologueStatements sampleDuplicateLoop
      (Subroutine.new [])).state.subroutineScope.length = 2 ∧
    (createReductionEpilogueStatements sampleTags sampleRegistry (fun _ => none)
      sampleDuplicateLoop (Subroutine.new [])).state.subroutineScope.length = 2 ∧
    (createReductionVariableDeclarations sampleDuplicateLoop
      (Subroutine.new [])).state.subroutineScope.length = 2 := by
  obtain ⟨prologue, epilogue, declarations, -, -, -, -, -, h1, h2, h3, -⟩ :=
    statements_follow_reducible_groups sampleTags sampleRegistry (fun _ => none)
      sampleDuplicateLoop (Subroutine.new []) (by decide) (by decide) (by decide)
  exact ⟨by decide, by decide, by decide, by decide, h1, h2, h3⟩

/-! ## Constructing a subroutine from a final name -/

theorem getSubroutineName_length_le (subroutineName : StdString) :
    (Subroutine.new subroutineName).getSubroutineName.length ≤ 20 := by
  by_cases h : 20 < subroutineName.length
  · have hlen := lexical_cast_length _ (crc_32_lt subroutineName)
    rw [getSubroutineName_long _ h, List.length_cons]
    omega
  · rw [getSubroutineName_short _ (by omega)]
    omega

/-- C22: for every logical name, the constructor of `Subroutine` applied to the final name of
that logical name gives the same final name again, and indeed the same new subroutine: a final
name is at most 20 characters long, and the constructor keeps a name of at most 20 characters
unchanged. -/
theorem final_name_is_kept (subroutineName : StdString) :
    (Subroutine.new (Subroutine.new subroutineName).getSubroutineName).getSubroutineName =
      (Subroutine.new subroutineName).getSubroutineName ∧
    Subroutine.new (Subroutine.new subroutineName).getSubroutineName =
      Subroutine.new subroutineName ∧
    (Subroutine.new subroutineName).getSubroutineName.length ≤ 20 ∧
    ∀ name : StdString, name.length ≤ 20 → (Subroutine.new name).getSubroutineName = name := by
  have hlen := getSubroutineName_length_le subroutineName
  have hkept := getSubroutineName_short _ hlen
  refine ⟨hkept, ?_, hlen, fun name h => getSubroutineName_short name h⟩
  have hname : (Subroutine.new (Subroutine.new subroutineName).getSubroutineName).subroutineName
      = (Subroutine.new subroutineName).subroutineName := hkept
  calc Subroutine.new (Subroutine.new subroutineName).getSubroutineName
      = { subroutineName :=
            (Subroutine.new (Subroutine.new subroutineName).getSubroutineName).subroutineName
          subroutineScope := []
          formalParameters := []
          variableDeclarations := [] } := rfl
    _ = { subroutineName := (Subroutine.new subroutineName).subroutineName
          subroutineScope := []
          formalParameters := []
          variableDeclarations := [] } := by rw [hname]
    _ = Subroutine.new subroutineName := rfl

/-! ## The element type of a constant -/

/-- The run of `createOpDeclConstFormalParameterDeclarations`: one formal parameter and one
entry of the variable declarations for each reference, in order. -/
theorem constants_run (opConstReferences : List String)
    (getOpConstDefinitionType : String → SgType) (s : Subroutine) :
    createOpDeclConstFormalParameterDeclarations opConstReferences getOpConstDefinitionType s =
      { s with
        formalParameters := s.formalParameters ++ opConstReferences.map (fun variableName =>
          (⟨.constant variableName,
            .SgPointerType (if variableName = "qinf" then .SgTypeOpaqueNamed "float "
              else getOpConstDefinitionType variableName), .unspecified, .openclConstant⟩ :
            SgVariableDeclaration))
        variableDeclarations := s.variableDeclarations ++
          opConstReferences.map (fun variableName =>
            (VariableName.constant variableName,
              (⟨.constant variableName,
                .SgPointerType (if variableName = "qinf" then .SgTypeOpaqueNamed "float "
                  else getOpConstDefinitionType variableName), .unspecified,
                .openclConstant⟩ : SgVariableDeclaration))) } := by
  induction opConstReferences generalizing s with
  | nil => simp [createOpDeclConstFormalParameterDeclarations]
  | cons variableName rest ih =>
    have h := ih (createOpDeclConstFormalParameterDeclarations.body getOpConstDefinitionType
      variableName s)
    simp only [createOpDeclConstFormalParameterDeclarations, List.foldl_cons] at h ⊢
    rw [h, constants_body_appends]
    simp

/-- C23: for the constant referenced at position `k`, named `variableName`,
`createOpDeclConstFormalParameterDeclarations` appends at position `k` a formal parameter of
type pointer to an element type, and enters the same declaration under the name of the
constant: the element type is the opaque type `float ` when the name is exactly `qinf`,
whatever the type of the definition of the constant, and it is the type of the definition of
the constant for every other name, also one that contains `qinf` or differs from it in the case
of a letter. -/
theorem qinf_alone_gets_opaque_float (opConstReferences : List String)
    (getOpConstDefinitionType : String → SgType) (s : Subroutine) (k : Nat)
    (variableName : String) (hk : opConstReferences[k]? = some variableName) :
    ∃ elementType : SgType,
      (createOpDeclConstFormalParameterDeclarations opConstReferences getOpConstDefinitionType
          s).formalParameters[s.formalParameters.length + k]? =
        some ⟨.constant variableName, .SgPointerType elementType, .unspecified,
          .openclConstant⟩ ∧
      (createOpDeclConstFormalParameterDeclarations opConstReferences getOpConstDefinitionType
          s).variableDeclarations[s.variableDeclarations.length + k]? =
        some (.constant variableName, ⟨.constant variableName, .SgPointerType elementType,
          .unspecified, .openclConstant⟩) ∧
      (variableName = "qinf" → elementType = .SgTypeOpaqueNamed "float ") ∧
      (variableName ≠ "qinf" → elementType = getOpConstDefinitionType variableName) ∧
      "Qinf" ≠ "qinf" ∧ "QINF" ≠ "qinf" ∧ "qinf2" ≠ "qinf" ∧ "qinf " ≠ "qinf" ∧
      "my_qinf" ≠ "qinf" := by
  refine ⟨if variableName = "qinf" then .SgTypeOpaqueNamed "float "
    else getOpConstDefinitionType variableName, ?_, ?_, fun h => by simp [h],
    fun h => by simp [h], by decide, by decide, by decide, by decide, by decide⟩
  · rw [constants_run]
    simp only
    rw [List.getElem?_append_right (Nat.le_add_right _ _), Nat.add_sub_cancel_left,
      List.getElem?_map, hk]
    rfl
  · rw [constants_run]
    simp only
    rw [List.getElem?_append_right (Nat.le_add_right _ _), Nat.add_sub_cancel_left,
      List.getElem?_map, hk]
    rfl

theorem qinf_alone_gets_opaque_float_witness :
    sampleNearQinfReferences[1]? = some "qinf" ∧
    sampleNearQinfReferences[0]? = some "Qinf" ∧
    sampleNearQinfReferences[2]? = some "qinf2" ∧
    (createOpDeclConstFormalParameterDeclarations sampleNearQinfReferences
        sampleOpConstDefinitionType (Subroutine.new [])).formalParameters[1]? =
      some ⟨.constant "qinf", .SgPointerType (.SgTypeOpaqueNamed "float "), .unspecified,
        .openclConstant⟩ ∧
    (createOpDeclConstFormalParameterDeclarations sampleNearQinfReferences
        sampleOpConstDefinitionType (Subroutine.new [])).formalParameters[0]? =
      some ⟨.constant "Qinf", .SgPointerType .SgTypeDouble, .unspecified, .openclConstant⟩ ∧
    (createOpDeclConstFormalParameterDeclarations sampleNearQinfReferences
        sampleOpConstDefinitionType (Subroutine.new [])).formalParameters[2]? =
      some ⟨.constant "qinf2", .SgPointerType .SgTypeDouble, .unspecified, .openclConstant⟩ := by
  obtain ⟨t1, h1, -, e1, -⟩ := qinf_alone_gets_opaque_float sampleNearQinfReferences
    sampleOpConstDefinitionType (Subroutine.new []) 1 "qinf" (by decide)
  obtain ⟨t0, h0, -, -, e0, -⟩ := qinf_alone_gets_opaque_float sampleNearQinfReferences
    sampleOpConstDefinitionType (Subroutine.new []) 0 "Qinf" (by decide)
  obtain ⟨t2, h2, -, -, e2, -⟩ := qinf_alone_gets_opaque_float sampleNearQinfReferences
    sampleOpConstDefinitionType (Subroutine.new []) 2 "qinf2" (by decide)
  have f1 := e1 rfl
  have f0 := e0 (by decide)
  have f2 := e2 (by decide)
  subst f1
  subst f0
  subst f2
  exact ⟨by decide, by decide, by decide, h1, h0, h2⟩

end OP2
